import Mathlib

/-! # CCP option negotiation and the MPPE option (accel-pptpd)

A shallow embedding of `accel-pptpd/ppp/ccp_mppe.c` and `accel-pptpd/ppp/ppp_ccp.c`.

Conventions of the embedding

* C `int` values are `Int`; a byte is a `Nat` and every `uint8_t` load reduces modulo 256.
* A pointer into a packet is the list of the bytes found from that address onward; scalar
  loads past the end of the list read 0.
* A 32-bit field is kept as its four bytes in address order, so that `ntohl`/`htonl` do not
  depend on the byte order of the host.
* Kernel `ioctl`s act on an explicit `kernel_t`; whether a request succeeds is part of that
  state, and every request issued is appended to `kernel_t.ioctls`.
* An option handler acts on the state block of its own option and on the kernel, and does
  not write to the received packet.
* The `while (size > 0)` loops take a fuel argument; a run that needs more iterations than
  the fuel given ends in `abort_t.out_of_fuel`, a call through a null callback in
  `abort_t.null_call`.
* The generic FSM and the allocator are not in the sources: they are the two fields of
  `env_t`, and what the CCP layer does to its collaborators is recorded in
  `ppp_ccp_t.trace`.
* Logging (`log_ppp_*`, `print`) has no effect on the state and is left out.
-/

namespace AccelPPP

/-! ## Constants of the missing headers -/

/-- Modelled from the spec: `CCP_OPT_NONE` of `ppp_ccp.h` (not in the sources), the
negotiation state of an option that has not been judged; option records are zero-filled on
creation, so it is 0. -/
def CCP_OPT_NONE : Int := 0

/-- Modelled from the spec: `CCP_OPT_ACK` of `ppp_ccp.h` (not in the sources), the largest
state in the ordering `REJ < NAK < ACK`; `ccp_recv_conf_req` starts its aggregate at 1. -/
def CCP_OPT_ACK : Int := 1

/-- Modelled from the spec: `CCP_OPT_NAK` of `ppp_ccp.h` (not in the sources), between
`REJ` and `ACK` in the ordering `REJ < NAK < ACK`. -/
def CCP_OPT_NAK : Int := -1

/-- Modelled from the spec: `CCP_OPT_REJ` of `ppp_ccp.h` (not in the sources), the least of
the three judgements in the ordering `REJ < NAK < ACK`. -/
def CCP_OPT_REJ : Int := -2

/-- Modelled from the spec: `CCP_OPT_FAIL` of `ppp_ccp.h` (not in the sources), the
distinguished fatal result, below every judgement ("most-negative wins"). -/
def CCP_OPT_FAIL : Int := -3

/-- Modelled from the spec: `CI_MPPE` of `ppp_ccp.h` (not in the sources), the CCP option id
of MPPE, 18. -/
def CI_MPPE : Nat := 18

/-- The macro `MPPE_H` of `ccp_mppe.c`: `1 << 24`. -/
def MPPE_H : Nat := 1 <<< 24

/-- The macro `MPPE_M` of `ccp_mppe.c`: `1 << 7`. -/
def MPPE_M : Nat := 1 <<< 7

/-- The macro `MPPE_S` of `ccp_mppe.c`: `1 << 6`. -/
def MPPE_S : Nat := 1 <<< 6

/-- The macro `MPPE_L` of `ccp_mppe.c`: `1 << 5`. -/
def MPPE_L : Nat := 1 <<< 5

/-- The macro `MPPE_D` of `ccp_mppe.c`: `1 << 4`. -/
def MPPE_D : Nat := 1 <<< 4

/-- The macro `MPPE_C` of `ccp_mppe.c`: `1 << 0`. -/
def MPPE_C : Nat := 1 <<< 0

/-- The macro `MPPE_PAD` of `ccp_mppe.c`. -/
def MPPE_PAD : Int := 4

/-! ## Bytes and words -/

/-- Load of the `uint8_t` at offset `i` from pointer `p`. -/
def rd (p : List Nat) (i : Nat) : Nat := p.getD i 0 % 256

/-- A `uint32_t` object as it lies in memory: its four bytes in address order. -/
structure word32 where
  b0 : Nat
  b1 : Nat
  b2 : Nat
  b3 : Nat
deriving DecidableEq, Repr

/-- The bytes of a 32-bit object, in address order. -/
def word32.bytes (w : word32) : List Nat := [w.b0, w.b1, w.b2, w.b3]

/-- The C truth value of a 32-bit object: some byte of it is not zero. -/
def word32.nonzero (w : word32) : Bool :=
  !(w.b0 % 256 == 0 && w.b1 % 256 == 0 && w.b2 % 256 == 0 && w.b3 % 256 == 0)

/-- The all-zero 32-bit object (the C constant `0` stored in a `uint32_t`). -/
def word32.zero : word32 := ⟨0, 0, 0, 0⟩

/-- The value `ntohl(w)`: the bytes of `w` read most significant first. -/
def ntohl (w : word32) : Nat :=
  (w.b0 % 256) * 2 ^ 24 + (w.b1 % 256) * 2 ^ 16 + (w.b2 % 256) * 2 ^ 8 + w.b3 % 256

/-- The object `htonl(x)`: the 32-bit value `x` stored most significant byte first. -/
def htonl (x : Nat) : word32 :=
  ⟨x / 2 ^ 24 % 256, x / 2 ^ 16 % 256, x / 2 ^ 8 % 256, x % 256⟩

/-- The field `hdr.id` of the `ccp_opt32_t` (or `ccp_opt_hdr_t`) at `ptr`. -/
def opt_hdr_id (ptr : List Nat) : Nat := rd ptr 0

/-- The field `hdr.len` of the `ccp_opt32_t` (or `ccp_opt_hdr_t`) at `ptr`. -/
def opt_hdr_len (ptr : List Nat) : Nat := rd ptr 1

/-- The field `val` of the `ccp_opt32_t` at `ptr`: the four bytes after the header. -/
def opt32_val (ptr : List Nat) : word32 := ⟨rd ptr 2, rd ptr 3, rd ptr 4, rd ptr 5⟩

/-! ## The kernel side channel -/

/-- The `ioctl` requests issued by the two source files that concern MPPE. -/
inductive ioctl_req_t where
  | PPPIOCSCOMPRESS (transmit : Int) (buf : List Nat)
  | SIOCGIFMTU
  | SIOCSIFMTU (mtu : Int)
deriving DecidableEq, Repr

/-- The kernel objects behind `ppp->unit_fd`, `ppp->ifname` and `sock_fd`. The three flags
say whether the corresponding request succeeds; `tx_comp`/`rx_comp` hold the compressor
configuration installed per direction, `mtu` the interface MTU, and `ioctls` the requests
issued so far, oldest first. -/
structure kernel_t where
  compress_ok : Bool
  getmtu_ok : Bool
  setmtu_ok : Bool
  mtu : Int
  tx_comp : Option (List Nat)
  rx_comp : Option (List Nat)
  ioctls : List ioctl_req_t
deriving DecidableEq, Repr

/-- A 16-byte key array (`uint8_t key[16]`). -/
abbrev key16 := { l : List Nat // l.length = 16 }

/-- The key left by `memset(.., 0, ..)`. -/
def zero_key : key16 := ⟨List.replicate 16 0, by simp⟩

/-! ## `ccp_mppe.c` -/

/-- The fields of `struct mppe_option_t` after the embedded `struct ccp_option_t opt`. -/
structure mppe_option_t where
  mppe : Int
  recv_key : key16
  send_key : key16
  policy : Int
deriving DecidableEq, Repr

/-- The function `setup_mppe_key(fd, transmit, key)`: builds the 22-byte configuration and
issues `PPPIOCSCOMPRESS`; returns -1 when the request fails and 0 otherwise. -/
def setup_mppe_key (k : kernel_t) (transmit : Int) (key : Option key16) : Int × kernel_t :=
  let buf : List Nat :=
    [CI_MPPE, 6] ++ (htonl (MPPE_S ||| MPPE_H)).bytes ++
      (match key with
       | some key => key.val
       | none => List.replicate 16 0)
  let k1 : kernel_t := { k with ioctls := k.ioctls ++ [ioctl_req_t.PPPIOCSCOMPRESS transmit buf] }
  if k.compress_ok = false then
    (-1, k1)
  else if transmit ≠ 0 then
    (0, { k1 with tx_comp := some buf })
  else
    (0, { k1 with rx_comp := some buf })

/-- The function `decrease_mtu(ppp)`: reads the MTU, subtracts `MPPE_PAD` and writes it back;
returns -1 as soon as one of the two requests fails. -/
def decrease_mtu (k : kernel_t) : Int × kernel_t :=
  let k1 : kernel_t := { k with ioctls := k.ioctls ++ [ioctl_req_t.SIOCGIFMTU] }
  if k.getmtu_ok = false then
    (-1, k1)
  else
    let ifr_mtu : Int := k.mtu - MPPE_PAD
    let k2 : kernel_t := { k1 with ioctls := k1.ioctls ++ [ioctl_req_t.SIOCSIFMTU ifr_mtu] }
    if k.setmtu_ok = false then
      (-1, k2)
    else
      (0, { k2 with mtu := ifr_mtu })

/-- The function `mppe_send_conf_req(ccp, opt, ptr)`. The result is the returned count, the
bytes stored at `ptr`, the option state and the kernel. -/
def mppe_send_conf_req (k : kernel_t) (m : mppe_option_t) :
    Int × List Nat × mppe_option_t × kernel_t :=
  if m.policy = 2 ∨ m.mppe ≠ -1 then
    let val : word32 := if m.mppe ≠ 0 then htonl (MPPE_S ||| MPPE_H) else word32.zero
    let out : List Nat := [CI_MPPE, 6] ++ val.bytes
    if m.mppe ≠ 0 then
      let (r, k1) := setup_mppe_key k 0 (some m.recv_key)
      if r ≠ 0 then (0, out, m, k1) else (6, out, m, k1)
    else
      (6, out, m, k)
  else
    (0, [], m, k)

/-- The last three statements of `mppe_recv_conf_req` (lines 162-167): install the send key,
reject when that fails, otherwise lower the MTU and acknowledge. -/
def mppe_recv_conf_req_accept (k : kernel_t) (m : mppe_option_t) :
    Int × mppe_option_t × kernel_t :=
  let (r, k1) := setup_mppe_key k 1 (some m.send_key)
  if r ≠ 0 then
    (CCP_OPT_REJ, m, k1)
  else
    let (_, k2) := decrease_mtu k1
    (CCP_OPT_ACK, m, k2)

/-- The function `mppe_recv_conf_req(ccp, opt, ptr)`. -/
def mppe_recv_conf_req (k : kernel_t) (m : mppe_option_t) (ptr : List Nat) :
    Int × mppe_option_t × kernel_t :=
  if opt_hdr_len ptr ≠ 6 then
    (CCP_OPT_REJ, m, k)
  else if m.policy = 2 then
    if ntohl (opt32_val ptr) ≠ (MPPE_S ||| MPPE_H) then
      (CCP_OPT_NAK, m, k)
    else
      mppe_recv_conf_req_accept k m
  else if m.policy = 1 then
    if ntohl (opt32_val ptr) = (MPPE_S ||| MPPE_H) then
      mppe_recv_conf_req_accept k { m with mppe := 1 }
    else if (ntohl (opt32_val ptr) &&& (MPPE_S ||| MPPE_H)) = (MPPE_S ||| MPPE_H) then
      (CCP_OPT_NAK, { m with mppe := 1 }, k)
    else if (opt32_val ptr).nonzero then
      (CCP_OPT_NAK, { m with mppe := 0 }, k)
    else
      mppe_recv_conf_req_accept k { m with mppe := 0 }
  else
    (CCP_OPT_REJ, m, k)

/-- The event `struct ev_mppe_keys_t` without its session reference. -/
structure ev_mppe_keys_t where
  type : Int
  policy : Int
  recv_key : key16
  send_key : key16
deriving DecidableEq, Repr

/-- The function `ev_mppe_keys(ev)`, acting on the MPPE state block that
`ccp_find_option(ev->ppp, &mppe_opt_hnd)` returns. -/
def ev_mppe_keys (ev : ev_mppe_keys_t) (m : mppe_option_t) : mppe_option_t :=
  if Int.land ev.type 0x04 = 0 then
    m
  else
    let m1 : mppe_option_t :=
      { m with recv_key := ev.recv_key, send_key := ev.send_key, policy := ev.policy }
    if ev.policy = 2 then { m1 with mppe := 1 } else m1

/-- The MPPE state block that `mppe_init` creates: zero-filled, with `mppe = -1`. -/
def mppe_state_init : mppe_option_t := ⟨-1, zero_key, zero_key, 0⟩

/-! ## `ppp_ccp.c`: data -/

/-- Modelled from the spec: the code `CONFREQ` of the PPP configure family (header missing). -/
def CONFREQ : Nat := 1

/-- Modelled from the spec: the code `CONFACK` of the PPP configure family (header missing). -/
def CONFACK : Nat := 2

/-- Modelled from the spec: the code `CONFNAK` of the PPP configure family (header missing). -/
def CONFNAK : Nat := 3

/-- Modelled from the spec: the code `CONFREJ` of the PPP configure family (header missing). -/
def CONFREJ : Nat := 4

/-- Modelled from the spec: the code `TERMREQ` (header missing). -/
def TERMREQ : Nat := 5

/-- Modelled from the spec: the code `TERMACK` (header missing). -/
def TERMACK : Nat := 6

/-- Modelled from the spec: the code `CODEREJ` (header missing). -/
def CODEREJ : Nat := 7

/-- Modelled from the spec: the PPP protocol number of CCP, `PPP_CCP` (header missing). -/
def PPP_CCP : Int := 0x80fd

/-- Modelled from the spec: `PPP_HEADERLEN` of `ppp.h` (not in the sources), the length of
the code/id/length header that a declared CCP length must cover: 4. -/
def PPP_HEADERLEN : Int := 4

/-- Modelled from the spec: `PPP_HDRLEN` of `linux/ppp_defs.h`, the 4 bytes subtracted from
the declared length to get the size of the option region. -/
def PPP_HDRLEN : Int := 4

/-- The value of `sizeof(struct ccp_hdr_t)`: protocol (2), code, id, length (2). -/
def sizeof_ccp_hdr_t : Int := 6

/-- Modelled from the spec: the states of the generic FSM (`FSM_STATE` of `ppp_fsm.h`, not in
the sources), named as in RFC 1661. -/
inductive fsm_state_t where
  | FSM_Initial
  | FSM_Starting
  | FSM_Closed
  | FSM_Stopped
  | FSM_Closing
  | FSM_Stopping
  | FSM_Req_Sent
  | FSM_Ack_Rcvd
  | FSM_Ack_Sent
  | FSM_Opened
deriving DecidableEq, Repr

/-- The entry points `ppp_fsm_*` of the generic FSM that `ccp_recv` calls. -/
inductive fsm_event_t where
  | recv_conf_req_ack
  | recv_conf_req_nak
  | recv_conf_req_rej
  | recv_conf_ack
  | recv_conf_rej
  | recv_term_req
  | close
  | recv_term_ack
  | recv_code_rej_bad
  | recv_unk
deriving DecidableEq, Repr

/-- The callbacks of an option handler that the CCP layer invokes. -/
inductive cb_t where
  | send_conf_req
  | send_conf_nak
  | recv_conf_req
  | recv_conf_ack
  | recv_conf_nak
  | recv_conf_rej
deriving DecidableEq, Repr

/-- What the CCP layer does to its collaborators: an FSM entry point called, a handler
callback invoked on the Local Option with the given id, a frame handed to `ppp_unit_send`,
`ppp_terminate`, `lcp_send_proto_rej`. -/
inductive effect_t where
  | fsm (ev : fsm_event_t)
  | call (id : Int) (cb : cb_t)
  | ppp_unit_send (frame : List Nat)
  | ppp_terminate
  | lcp_send_proto_rej
deriving DecidableEq, Repr

/-- Why a run of the embedding stops without a result: the loop did not finish within the
fuel given, or the C code calls through a null function pointer or dereferences a null
option pointer. -/
inductive abort_t where
  | out_of_fuel
  | null_call
deriving DecidableEq, Repr

/-- What a handler's `init` returns: the fields of the new `struct ccp_option_t` (before
`ccp_options_init` sets `h`) and the handler's own state block. -/
structure ccp_option_new_t (α : Type) where
  id : Int
  len : Int
  state : Int
  priv : α

/-- The vtable `struct ccp_option_handler_t`. A callback receives the kernel (through `ccp`),
the state block of its own option and, for the `recv_*` ones, the pointer to the received
option; it returns its C result and the updated state block and kernel. The `send_*`
callbacks also return the bytes they store at the cursor. The three callbacks that the
sources test for or leave null are optional. -/
structure ccp_option_handler_t (α : Type) where
  init : Option (ccp_option_new_t α)
  send_conf_req : kernel_t → α → Int × List Nat × α × kernel_t
  send_conf_nak : kernel_t → α → Int × List Nat × α × kernel_t
  recv_conf_req : kernel_t → α → List Nat → Int × α × kernel_t
  recv_conf_ack : Option (kernel_t → α → List Nat → Int × α × kernel_t)
  recv_conf_nak : Option (kernel_t → α → List Nat → Int × α × kernel_t)
  recv_conf_rej : Option (kernel_t → α → List Nat → Int × α × kernel_t)

/-- A Local Option, `struct ccp_option_t`, with the handler's state block `priv` that
encloses it in C. -/
structure ccp_option_t (α : Type) where
  id : Int
  len : Int
  state : Int
  h : ccp_option_handler_t α
  priv : α

/-- A Received Option, `struct recv_opt_t`: `hdr` is the pointer to the option header and
`lopt` the position of the matching Local Option in `ccp->options`, if any. -/
structure recv_opt_t where
  hdr : List Nat
  len : Int
  state : Int
  lopt : Option Nat
deriving DecidableEq, Repr

/-- The fields of `struct ppp_fsm_t` that the CCP layer reads or writes. -/
structure ppp_fsm_t where
  fsm_state : fsm_state_t
  id : Int
  recv_id : Int
deriving DecidableEq, Repr

/-- The fields of `struct ppp_t` that the CCP layer uses, and the kernel behind the session. -/
structure ppp_t where
  unit_buf : List Nat
  unit_buf_size : Int
  kernel : kernel_t
deriving DecidableEq, Repr

/-- The CCP instance `struct ppp_ccp_t`. `trace` is not a C field: it lists, oldest first,
what the layer has done to its collaborators. -/
structure ppp_ccp_t (α : Type) where
  ppp : ppp_t
  fsm : ppp_fsm_t
  options : List (ccp_option_t α)
  ropt_list : List recv_opt_t
  ropt_len : Int
  conf_req_len : Int
  passive : Int
  started : Int
  need_req : Int
  trace : List effect_t

/-- The collaborators the sources do not contain: the generic FSM driver, which may change
the instance in any way when one of its entry points is called, and the allocator, whose
fresh blocks have arbitrary contents. -/
structure env_t (α : Type) where
  fsm : fsm_event_t → ppp_ccp_t α → ppp_ccp_t α
  malloc : Int → List Nat

/-- The function `mppe_init(ccp)`: a zero-filled `struct mppe_option_t` with `mppe = -1`,
`opt.id = CI_MPPE` and `opt.len = 6`. -/
def mppe_init : ccp_option_new_t mppe_option_t := ⟨CI_MPPE, 6, 0, mppe_state_init⟩

/-- The table `mppe_opt_hnd`: `recv_conf_ack`, `recv_conf_nak` and `recv_conf_rej` are not
set. -/
def mppe_opt_hnd : ccp_option_handler_t mppe_option_t where
  init := some mppe_init
  send_conf_req := mppe_send_conf_req
  send_conf_nak := mppe_send_conf_req
  recv_conf_req := mppe_recv_conf_req
  recv_conf_ack := none
  recv_conf_nak := none
  recv_conf_rej := none

/-! ## `ppp_ccp.c`: helpers for buffers and lists -/

/-- The `n` bytes found at pointer `p` (the source of a `memcpy` or of a transmission). -/
def mem_read (p : List Nat) (n : Nat) : List Nat := (List.range n).map fun i => p.getD i 0

/-- The buffer `buf` after the bytes `w` have been stored at offset `off`. -/
def mem_write (buf : List Nat) (off : Nat) (w : List Nat) : List Nat :=
  (List.range (max buf.length (off + w.length))).map fun i =>
    if off ≤ i ∧ i < off + w.length then w.getD (i - off) 0 else buf.getD i 0

/-- The two bytes of `htons(x)` for a C integer `x` converted to `uint16_t`. -/
def htons (x : Int) : List Nat := [(x % 65536).toNat / 256, (x % 65536).toNat % 256]

/-- The value `ntohs` of the 16-bit field stored at offset `i` of `p`. -/
def ntohs_at (p : List Nat) (i : Nat) : Int := ((rd p i * 256 + rd p (i + 1) : Nat) : Int)

/-- The inner `list_for_each_entry(lopt, &ccp->options, entry)` with its `break`: position
and value of the first Local Option whose id equals `id`. -/
def find_lopt {α : Type} : List (ccp_option_t α) → Int → Option (Nat × ccp_option_t α)
  | [], _ => none
  | lopt :: rest, id =>
    if lopt.id = id then some (0, lopt)
    else (find_lopt rest id).map fun r => (r.1 + 1, r.2)

/-- Append an effect to the trace of the instance. -/
def emit {α : Type} (ccp : ppp_ccp_t α) (e : effect_t) : ppp_ccp_t α :=
  { ccp with trace := ccp.trace ++ [e] }

/-- A call of the FSM entry point `ev`: the driver acts on the instance and the call is
recorded. The driver has no access to the trace. -/
def fsm_feed {α : Type} (env : env_t α) (ev : fsm_event_t) (ccp : ppp_ccp_t α) : ppp_ccp_t α :=
  { env.fsm ev ccp with trace := ccp.trace ++ [effect_t.fsm ev] }

/-! ## `ppp_ccp.c`: functions -/

/-- The function `ccp_options_init(ccp)` over the registry `option_handlers`. -/
def ccp_options_init {α : Type} (option_handlers : List (ccp_option_handler_t α))
    (ccp : ppp_ccp_t α) : ppp_ccp_t α :=
  option_handlers.foldl
    (fun ccp h =>
      match h.init with
      | some o =>
        { ccp with
          options := ccp.options ++ [⟨o.id, o.len, o.state, h, o.priv⟩]
          conf_req_len := ccp.conf_req_len + o.len }
      | none => ccp)
    { ccp with conf_req_len := sizeof_ccp_hdr_t }

/-- The loop `list_for_each_entry(lopt, &ccp->options, entry)` of `send_conf_req`. The first
component is `false` when a handler returned a negative count and the function left early. -/
def send_conf_req_loop {α : Type} :
    List (ccp_option_t α) → kernel_t → List effect_t → List Nat → Int →
      Bool × List (ccp_option_t α) × kernel_t × List effect_t × List Nat × Int
  | [], k, tr, buf, ptr => (true, [], k, tr, buf, ptr)
  | lopt :: rest, k, tr, buf, ptr =>
    let (n, w, priv, k1) := lopt.h.send_conf_req k lopt.priv
    let lopt1 : ccp_option_t α := { lopt with priv := priv }
    let tr1 := tr ++ [effect_t.call lopt.id cb_t.send_conf_req]
    let buf1 := mem_write buf ptr.toNat w
    if n < 0 then
      (false, lopt1 :: rest, k1, tr1, buf1, ptr)
    else
      let (ok, rest1, k2, tr2, buf2, ptr2) := send_conf_req_loop rest k1 tr1 buf1 (ptr + n)
      (ok, lopt1 :: rest1, k2, tr2, buf2, ptr2)

/-- The function `send_conf_req(fsm)`. Offsets are relative to `buf`. -/
def send_conf_req {α : Type} (env : env_t α) (ccp : ppp_ccp_t α) : Int × ppp_ccp_t α :=
  let ccp : ppp_ccp_t α := { ccp with need_req := 0 }
  if ccp.passive ≠ 0 then
    (0, ccp)
  else
    let buf := env.malloc ccp.conf_req_len
    let id := ccp.fsm.id + 1
    let ccp : ppp_ccp_t α := { ccp with fsm := { ccp.fsm with id := id } }
    let buf := mem_write buf 0 (htons PPP_CCP ++ [CONFREQ, (id % 256).toNat] ++ htons 0)
    let (ok, opts, k, tr, buf, ptr) :=
      send_conf_req_loop ccp.options ccp.ppp.kernel ccp.trace buf sizeof_ccp_hdr_t
    let ccp : ppp_ccp_t α :=
      { ccp with options := opts, ppp := { ccp.ppp with kernel := k }, trace := tr }
    if ok = false then
      (-1, ccp)
    else
      let buf := mem_write buf 4 (htons (ptr - 2))
      (0, emit ccp (effect_t.ppp_unit_send (mem_read buf ptr.toNat)))

/-- The function `send_conf_ack(fsm)`: the received frame with its code rewritten. -/
def send_conf_ack {α : Type} (ccp : ppp_ccp_t α) : ppp_ccp_t α :=
  let buf := mem_write ccp.ppp.unit_buf 2 [CONFACK]
  let ccp : ppp_ccp_t α := { ccp with ppp := { ccp.ppp with unit_buf := buf } }
  emit ccp (effect_t.ppp_unit_send (mem_read buf (ntohs_at buf 4 + 2).toNat))

/-- The loop `list_for_each_entry(ropt, &ccp->ropt_list, entry)` of `send_conf_nak`. -/
def send_conf_nak_loop {α : Type} :
    List recv_opt_t → List (ccp_option_t α) → kernel_t → List effect_t → List Nat → Int →
      Except abort_t (List (ccp_option_t α) × kernel_t × List effect_t × List Nat × Int)
  | [], opts, k, tr, buf, ptr => Except.ok (opts, k, tr, buf, ptr)
  | ropt :: rest, opts, k, tr, buf, ptr =>
    if ropt.state = CCP_OPT_NAK then
      match ropt.lopt.bind fun i => opts.get? i |>.map fun lopt => (i, lopt) with
      | none => Except.error abort_t.null_call
      | some (i, lopt) =>
        let (n, w, priv, k1) := lopt.h.send_conf_nak k lopt.priv
        send_conf_nak_loop rest (opts.set i { lopt with priv := priv }) k1
          (tr ++ [effect_t.call lopt.id cb_t.send_conf_nak]) (mem_write buf ptr.toNat w) (ptr + n)
    else
      send_conf_nak_loop rest opts k tr buf ptr

/-- The function `send_conf_nak(fsm)`. -/
def send_conf_nak {α : Type} (env : env_t α) (ccp : ppp_ccp_t α) :
    Except abort_t (ppp_ccp_t α) :=
  let buf := env.malloc ccp.conf_req_len
  let buf := mem_write buf 0
    (htons PPP_CCP ++ [CONFNAK, (ccp.fsm.recv_id % 256).toNat] ++ htons 0)
  match send_conf_nak_loop ccp.ropt_list ccp.options ccp.ppp.kernel ccp.trace buf
      sizeof_ccp_hdr_t with
  | Except.error e => Except.error e
  | Except.ok (opts, k, tr, buf, ptr) =>
    let ccp : ppp_ccp_t α :=
      { ccp with options := opts, ppp := { ccp.ppp with kernel := k }, trace := tr }
    let buf := mem_write buf 4 (htons (ptr - 2))
    Except.ok (emit ccp (effect_t.ppp_unit_send (mem_read buf ptr.toNat)))

/-- The loop `list_for_each_entry(ropt, &ccp->ropt_list, entry)` of `send_conf_rej`: every
Received Option in state `CCP_OPT_REJ` is copied to the cursor, `ropt->len` bytes from
`ropt->hdr`, and the cursor advances by `ropt->len`. -/
def send_conf_rej_loop : List recv_opt_t → List Nat → Int → List Nat × Int
  | [], buf, ptr => (buf, ptr)
  | ropt :: rest, buf, ptr =>
    if ropt.state = CCP_OPT_REJ then
      send_conf_rej_loop rest (mem_write buf ptr.toNat (mem_read ropt.hdr ropt.len.toNat))
        (ptr + ropt.len)
    else
      send_conf_rej_loop rest buf ptr

/-- The frame that `send_conf_rej(fsm)` hands to `ppp_unit_send`: the first `ptr - buf` bytes
of the buffer once the length field holds `htons(ptr - buf - 2)`. -/
def send_conf_rej_frame {α : Type} (env : env_t α) (ccp : ppp_ccp_t α) : List Nat :=
  let buf := env.malloc (ccp.ropt_len + sizeof_ccp_hdr_t)
  let buf := mem_write buf 0
    (htons PPP_CCP ++ [CONFREJ, (ccp.fsm.recv_id % 256).toNat] ++ htons 0)
  let (buf, ptr) := send_conf_rej_loop ccp.ropt_list buf sizeof_ccp_hdr_t
  let buf := mem_write buf 4 (htons (ptr - 2))
  mem_read buf ptr.toNat

/-- The function `send_conf_rej(fsm)`. -/
def send_conf_rej {α : Type} (env : env_t α) (ccp : ppp_ccp_t α) : ppp_ccp_t α :=
  emit ccp (effect_t.ppp_unit_send (send_conf_rej_frame env ccp))

/-- The first loop of `ccp_recv_conf_req` (`while (size > 0)`): one Received Option per
option header, its length clamped to the bytes that remain. -/
def ccp_recv_conf_req_parse : Nat → List Nat → Int → Except abort_t (List recv_opt_t)
  | 0, _, size => if size > 0 then Except.error abort_t.out_of_fuel else Except.ok []
  | fuel + 1, data, size =>
    if size > 0 then
      let len : Int := if (opt_hdr_len data : Int) > size then size else (opt_hdr_len data : Int)
      let ropt : recv_opt_t := ⟨data, len, CCP_OPT_NONE, none⟩
      match ccp_recv_conf_req_parse fuel (data.drop len.toNat) (size - len) with
      | Except.error e => Except.error e
      | Except.ok rest => Except.ok (ropt :: rest)
    else
      Except.ok []

/-- The body of the second loop of `ccp_recv_conf_req` for one Received Option; `ret` and
`ack` are the two locals of the function. -/
def ccp_recv_conf_req_step {α : Type} (ccp : ppp_ccp_t α) (ret ack : Int) (ropt : recv_opt_t) :
    ppp_ccp_t α × Int × Int × recv_opt_t :=
  let (ccp1, ret1, ropt1) : ppp_ccp_t α × Int × recv_opt_t :=
    match find_lopt ccp.options (opt_hdr_id ropt.hdr : Int) with
    | some (i, lopt) =>
      let (r, priv, k1) := lopt.h.recv_conf_req ccp.ppp.kernel lopt.priv ropt.hdr
      let need_req : Int :=
        if ack = 0 ∧ lopt.state = CCP_OPT_NAK ∧ r = CCP_OPT_ACK then 1 else ccp.need_req
      let st : Int := if ack ≠ 0 then CCP_OPT_REJ else r
      ({ ccp with
          options := ccp.options.set i { lopt with state := st, priv := priv }
          ppp := { ccp.ppp with kernel := k1 }
          need_req := need_req
          trace := ccp.trace ++ [effect_t.call lopt.id cb_t.recv_conf_req] },
        if r < ret then r else ret,
        { ropt with state := st, lopt := some i })
    | none => (ccp, ret, ropt)
  if ropt1.state = CCP_OPT_ACK ∨ ropt1.state = CCP_OPT_NAK then
    (ccp1, ret1, 1, ropt1)
  else if ropt1.lopt = none then
    (ccp1, CCP_OPT_REJ, ack, { ropt1 with state := CCP_OPT_REJ })
  else
    (ccp1, ret1, ack, ropt1)

/-- The second loop of `ccp_recv_conf_req`, `list_for_each_entry(ropt, &ccp->ropt_list, entry)`;
the last component is the list of the entries as the loop leaves them. -/
def ccp_recv_conf_req_walk {α : Type} :
    List recv_opt_t → ppp_ccp_t α → Int → Int → ppp_ccp_t α × Int × Int × List recv_opt_t
  | [], ccp, ret, ack => (ccp, ret, ack, [])
  | ropt :: rest, ccp, ret, ack =>
    let (ccp1, ret1, ack1, ropt1) := ccp_recv_conf_req_step ccp ret ack ropt
    let (ccp2, ret2, ack2, rest2) := ccp_recv_conf_req_walk rest ccp1 ret1 ack1
    (ccp2, ret2, ack2, ropt1 :: rest2)

/-- The function `ccp_recv_conf_req(ccp, data, size)`. -/
def ccp_recv_conf_req {α : Type} (fuel : Nat) (ccp : ppp_ccp_t α) (data : List Nat)
    (size : Int) : Except abort_t (Int × ppp_ccp_t α) :=
  let ccp : ppp_ccp_t α := { ccp with need_req := 0, ropt_len := size }
  match ccp_recv_conf_req_parse fuel data size with
  | Except.error e => Except.error e
  | Except.ok parsed =>
    let ccp : ppp_ccp_t α := { ccp with ropt_list := ccp.ropt_list ++ parsed }
    let (ccp1, ret, _, ropts) := ccp_recv_conf_req_walk ccp.ropt_list ccp 1 0
    Except.ok (ret, { ccp1 with ropt_list := ropts })

/-- The function `ccp_free_conf_req(ccp)`. -/
def ccp_free_conf_req {α : Type} (ccp : ppp_ccp_t α) : ppp_ccp_t α :=
  { ccp with ropt_list := [] }

/-- The loop `while (size > 0)` shared by `ccp_recv_conf_rej`, `ccp_recv_conf_nak` and
`ccp_recv_conf_ack`: `body` is what the function does with the option at `data`, then
`data += hdr->len; size -= hdr->len`. -/
def ccp_recv_option_loop {α : Type}
    (body : ppp_ccp_t α → Int → List Nat → Except abort_t (ppp_ccp_t α × Int)) :
    Nat → ppp_ccp_t α → Int → List Nat → Int → Except abort_t (Int × ppp_ccp_t α)
  | 0, ccp, res, _, size =>
    if size > 0 then Except.error abort_t.out_of_fuel else Except.ok (res, ccp)
  | fuel + 1, ccp, res, data, size =>
    if size > 0 then
      match body ccp res data with
      | Except.error e => Except.error e
      | Except.ok (ccp1, res1) =>
        ccp_recv_option_loop body fuel ccp1 res1 (data.drop (opt_hdr_len data))
          (size - (opt_hdr_len data : Int))
    else
      Except.ok (res, ccp)

/-- The call `lopt->h->cb(ccp, lopt, data)` for the Local Option at position `i`: the state
block and the kernel are updated and the call is recorded. -/
def call_recv {α : Type} (ccp : ppp_ccp_t α) (i : Nat) (lopt : ccp_option_t α) (cb : cb_t)
    (f : kernel_t → α → List Nat → Int × α × kernel_t) (data : List Nat) :
    ppp_ccp_t α × Int :=
  let (r, priv, k1) := f ccp.ppp.kernel lopt.priv data
  ({ ccp with
      options := ccp.options.set i { lopt with priv := priv }
      ppp := { ccp.ppp with kernel := k1 }
      trace := ccp.trace ++ [effect_t.call lopt.id cb] }, r)

/-- The body of the loop of `ccp_recv_conf_rej`: a matching option without `recv_conf_rej`,
or whose `recv_conf_rej` returns non-zero, sets `res = -1`. -/
def ccp_recv_conf_rej_body {α : Type} (ccp : ppp_ccp_t α) (res : Int) (data : List Nat) :
    Except abort_t (ppp_ccp_t α × Int) :=
  match find_lopt ccp.options (opt_hdr_id data : Int) with
  | some (i, lopt) =>
    match lopt.h.recv_conf_rej with
    | none => Except.ok (ccp, -1)
    | some f =>
      let (ccp1, r) := call_recv ccp i lopt cb_t.recv_conf_rej f data
      Except.ok (ccp1, if r ≠ 0 then -1 else res)
  | none => Except.ok (ccp, res)

/-- The function `ccp_recv_conf_rej(ccp, data, size)`. -/
def ccp_recv_conf_rej {α : Type} (fuel : Nat) (ccp : ppp_ccp_t α) (data : List Nat)
    (size : Int) : Except abort_t (Int × ppp_ccp_t α) :=
  if ccp.fsm.recv_id ≠ ccp.fsm.id then
    Except.ok (0, ccp)
  else
    ccp_recv_option_loop ccp_recv_conf_rej_body fuel ccp 0 data size

/-- The body of the loop of `ccp_recv_conf_nak`: `recv_conf_nak` of a matching option is
called without a test for null. -/
def ccp_recv_conf_nak_body {α : Type} (ccp : ppp_ccp_t α) (res : Int) (data : List Nat) :
    Except abort_t (ppp_ccp_t α × Int) :=
  match find_lopt ccp.options (opt_hdr_id data : Int) with
  | some (i, lopt) =>
    match lopt.h.recv_conf_nak with
    | none => Except.error abort_t.null_call
    | some f =>
      let (ccp1, r) := call_recv ccp i lopt cb_t.recv_conf_nak f data
      Except.ok (ccp1, if r ≠ 0 then -1 else res)
  | none => Except.ok (ccp, res)

/-- The function `ccp_recv_conf_nak(ccp, data, size)`. -/
def ccp_recv_conf_nak {α : Type} (fuel : Nat) (ccp : ppp_ccp_t α) (data : List Nat)
    (size : Int) : Except abort_t (Int × ppp_ccp_t α) :=
  if ccp.fsm.recv_id ≠ ccp.fsm.id then
    Except.ok (0, ccp)
  else
    ccp_recv_option_loop ccp_recv_conf_nak_body fuel ccp 0 data size

/-- The body of the loop of `ccp_recv_conf_ack`: a matching option without `recv_conf_ack`
is skipped. -/
def ccp_recv_conf_ack_body {α : Type} (ccp : ppp_ccp_t α) (res : Int) (data : List Nat) :
    Except abort_t (ppp_ccp_t α × Int) :=
  match find_lopt ccp.options (opt_hdr_id data : Int) with
  | some (i, lopt) =>
    match lopt.h.recv_conf_ack with
    | none => Except.ok (ccp, res)
    | some f =>
      let (ccp1, r) := call_recv ccp i lopt cb_t.recv_conf_ack f data
      Except.ok (ccp1, if r ≠ 0 then -1 else res)
  | none => Except.ok (ccp, res)

/-- The function `ccp_recv_conf_ack(ccp, data, size)`. -/
def ccp_recv_conf_ack {α : Type} (fuel : Nat) (ccp : ppp_ccp_t α) (data : List Nat)
    (size : Int) : Except abort_t (Int × ppp_ccp_t α) :=
  if ccp.fsm.recv_id ≠ ccp.fsm.id then
    Except.ok (0, ccp)
  else
    ccp_recv_option_loop ccp_recv_conf_ack_body fuel ccp 0 data size

/-- The `case CONFREQ` of `ccp_recv`. -/
def ccp_recv_confreq {α : Type} (env : env_t α) (fuel : Nat) (ccp : ppp_ccp_t α)
    (data : List Nat) (size : Int) : Except abort_t (ppp_ccp_t α) :=
  match ccp_recv_conf_req fuel ccp data size with
  | Except.error e => Except.error e
  | Except.ok (r, ccp) =>
    let ccp : ppp_ccp_t α :=
      if r = CCP_OPT_ACK then fsm_feed env fsm_event_t.recv_conf_req_ack ccp
      else if r = CCP_OPT_NAK then fsm_feed env fsm_event_t.recv_conf_req_nak ccp
      else if r = CCP_OPT_REJ then fsm_feed env fsm_event_t.recv_conf_req_rej ccp
      else ccp
    let ccp := ccp_free_conf_req ccp
    let ccp : ppp_ccp_t α :=
      if r = CCP_OPT_ACK ∧ ccp.passive ≠ 0 then
        (send_conf_req env { ccp with passive := 0 }).2
      else ccp
    Except.ok (if r = CCP_OPT_FAIL then emit ccp effect_t.ppp_terminate else ccp)

/-- The function `ccp_recv(h)`: the frame is `ccp->ppp->unit_buf`, of which
`unit_buf_size` bytes were received. -/
def ccp_recv {α : Type} (env : env_t α) (fuel : Nat) (ccp : ppp_ccp_t α) :
    Except abort_t (ppp_ccp_t α) :=
  if ccp.fsm.fsm_state = fsm_state_t.FSM_Initial ∨
      ccp.fsm.fsm_state = fsm_state_t.FSM_Closed then
    Except.ok (emit ccp effect_t.lcp_send_proto_rej)
  else if ccp.ppp.unit_buf_size < PPP_HEADERLEN + 2 then
    Except.ok ccp
  else
    let hdr := ccp.ppp.unit_buf
    if ntohs_at hdr 4 < PPP_HEADERLEN then
      Except.ok ccp
    else
      let ccp : ppp_ccp_t α := { ccp with fsm := { ccp.fsm with recv_id := (rd hdr 3 : Int) } }
      let data := hdr.drop 6
      let size : Int := ntohs_at hdr 4 - PPP_HDRLEN
      let code := rd hdr 2
      if code = CONFREQ then
        ccp_recv_confreq env fuel ccp data size
      else if code = CONFACK then
        match ccp_recv_conf_ack fuel ccp data size with
        | Except.error e => Except.error e
        | Except.ok (r, ccp) =>
          if r ≠ 0 then
            Except.ok (emit ccp effect_t.ppp_terminate)
          else
            let ccp := fsm_feed env fsm_event_t.recv_conf_ack ccp
            if ccp.need_req ≠ 0 then Except.ok (send_conf_req env ccp).2 else Except.ok ccp
      else if code = CONFNAK then
        match ccp_recv_conf_nak fuel ccp data size with
        | Except.error e => Except.error e
        | Except.ok (_, ccp) => Except.ok (fsm_feed env fsm_event_t.recv_conf_rej ccp)
      else if code = CONFREJ then
        match ccp_recv_conf_rej fuel ccp data size with
        | Except.error e => Except.error e
        | Except.ok (r, ccp) =>
          if r ≠ 0 then
            Except.ok (emit ccp effect_t.ppp_terminate)
          else
            Except.ok (fsm_feed env fsm_event_t.recv_conf_rej ccp)
      else if code = TERMREQ then
        Except.ok (fsm_feed env fsm_event_t.close (fsm_feed env fsm_event_t.recv_term_req ccp))
      else if code = TERMACK then
        Except.ok (fsm_feed env fsm_event_t.recv_term_ack ccp)
      else if code = CODEREJ then
        Except.ok (fsm_feed env fsm_event_t.recv_code_rej_bad ccp)
      else
        Except.ok (fsm_feed env fsm_event_t.recv_unk ccp)

/-! ## Definitions used in the statements -/

/-- The per-direction MPPE configuration of the kernel interface in the words of the spec:
`{opt-id=18, opt-len=6, flags=S|H, key[16]}`. -/
def mppe_config (key : key16) : List Nat := [18, 6, 1, 0, 0, 0x40] ++ key.val

/-- The kernel `k` after one `PPPIOCSCOMPRESS` request for direction `transmit` and `key`
that it refused: only the request log has grown. -/
def kernel_refused (k : kernel_t) (transmit : Int) (key : key16) : kernel_t :=
  { k with ioctls := k.ioctls ++ [ioctl_req_t.PPPIOCSCOMPRESS transmit (mppe_config key)] }

/-- A kernel in which every request succeeds, with MTU 1500 and nothing installed. -/
def ex_kernel_ok : kernel_t := ⟨true, true, true, 1500, none, none, []⟩

/-- A kernel that installs keys but refuses `SIOCGIFMTU`. -/
def ex_kernel_nomtu : kernel_t := ⟨true, false, true, 1500, none, none, []⟩

/-- An MPPE state with policy `required` and desired on, as a key event with policy
`required` leaves it (here with zero keys). -/
def ex_mppe_required : mppe_option_t := ⟨1, zero_key, zero_key, 2⟩

/-- An MPPE state with policy `allowed` and desired unset, as a key event with policy
`allowed` leaves it (here with zero keys). -/
def ex_mppe_allowed : mppe_option_t := ⟨-1, zero_key, zero_key, 1⟩

/-- The MPPE state with policy `required` and `desired` still unset. -/
def ex_mppe_required_unset : mppe_option_t := ⟨-1, zero_key, zero_key, 2⟩

/-- The MPPE option with flag word `S|H` as it arrives: `18 06 01 00 00 40`. -/
def ex_opt_SH : List Nat := [18, 6, 1, 0, 0, 0x40]

/-- The MPPE option with flag word `S|H|L|D`: `18 06 01 00 00 70`. -/
def ex_opt_SHLD : List Nat := [18, 6, 1, 0, 0, 0x70]

/-- The MPPE option with an all-zero flag word: `18 06 00 00 00 00`. -/
def ex_opt_zero : List Nat := [18, 6, 0, 0, 0, 0]

/-- The spec's "accept", for the result `res` of `mppe_recv_conf_req` on kernel `k` with `m'`
the MPPE state expected afterwards: the send key is requested for the transmit direction;
when the kernel takes it the result is ACK and the key is installed, when the kernel refuses
the result is REJ and only the request log has changed. -/
def spec_accepts (k : kernel_t) (m' : mppe_option_t) (res : Int × mppe_option_t × kernel_t) :
    Prop :=
  res.2.1 = m' ∧
  (k.compress_ok = true →
    res.1 = CCP_OPT_ACK ∧ res.2.2.tx_comp = some (mppe_config m'.send_key)) ∧
  (k.compress_ok = false →
    res.1 = CCP_OPT_REJ ∧ res.2.2 = kernel_refused k 1 m'.send_key)

/-- A key event that carries the 128-bit bit, policy `required` and two keys. -/
def ex_ev_required : ev_mppe_keys_t :=
  ⟨0x04, 2, ⟨List.replicate 16 0xAA, by simp⟩, ⟨List.replicate 16 0xBB, by simp⟩⟩

/-- A key event without the 128-bit bit (type 3). -/
def ex_ev_no128 : ev_mppe_keys_t :=
  ⟨0x03, 2, ⟨List.replicate 16 0xAA, by simp⟩, ⟨List.replicate 16 0xBB, by simp⟩⟩

/-- A CCP instance with MPPE as its only Local Option (state block `m`), kernel `k`, the
frame `buf` in the unit buffer, `id` the id of the last ConfReq sent, FSM in `Req-Sent`,
nothing received yet and an empty trace. -/
def ex_ccp (m : mppe_option_t) (k : kernel_t) (buf : List Nat) (id : Int) :
    ppp_ccp_t mppe_option_t where
  ppp := ⟨buf, buf.length, k⟩
  fsm := ⟨fsm_state_t.FSM_Req_Sent, id, 0⟩
  options := [⟨CI_MPPE, 6, CCP_OPT_NONE, mppe_opt_hnd, m⟩]
  ropt_list := []
  ropt_len := 0
  conf_req_len := 12
  passive := 0
  started := 0
  need_req := 0
  trace := []

/-- The frame of scenario 5: a ConfAck with id 4 and no options (`80 FD 02 04 00 04`). -/
def ex_frame_ack4 : List Nat := [0x80, 0xfd, 2, 4, 0, 4]

/-- The byte slice of a Received Option: `ropt->len` bytes from `ropt->hdr` (the option header
and what follows it, up to the clamped length). -/
def ropt_slice (r : recv_opt_t) : List Nat := mem_read r.hdr r.len.toNat

/-- The ConfRej body in the words of the spec: the byte slices of the Received Options in
state `REJ`, concatenated in arrival order. -/
def spec_rej_body : List recv_opt_t → List Nat
  | [] => []
  | r :: rest =>
    if r.state = CCP_OPT_REJ then ropt_slice r ++ spec_rej_body rest else spec_rej_body rest

/-- The ConfRej frame in the words of the spec: protocol `80 FD`, code 4, the id of the
request, the length field `4 + body size` and the body. -/
def spec_rej_frame (recv_id : Int) (body : List Nat) : List Nat :=
  [0x80, 0xfd, 4, (recv_id % 256).toNat, (4 + body.length) / 256, (4 + body.length) % 256] ++ body

/-- Every option header that the walk over the region `data`, `size` meets declares a length
of at least 1 (`n` bounds the number of headers looked at; `size` of them suffice). -/
def declared_lengths_pos : Nat → List Nat → Int → Bool
  | 0, _, size => decide (size ≤ 0)
  | n + 1, data, size =>
    if size > 0 then
      decide (1 ≤ opt_hdr_len data) &&
        declared_lengths_pos n
          (data.drop (if (opt_hdr_len data : Int) > size then size else (opt_hdr_len data : Int)).toNat)
          (size - (if (opt_hdr_len data : Int) > size then size else (opt_hdr_len data : Int)))
    else
      true

/-- The byte slices of all Received Options of a list, concatenated in arrival order. -/
def ropt_slices : List recv_opt_t → List Nat
  | [] => []
  | r :: rest => ropt_slice r ++ ropt_slices rest

/-- An environment whose FSM driver leaves the instance alone and whose allocator returns
empty blocks. -/
def ex_env : env_t mppe_option_t := ⟨fun _ c => c, fun _ => []⟩

/-- The unknown option of scenario 4: `FE 04 AA BB`. -/
def ex_opt_unknown : List Nat := [0xFE, 4, 0xAA, 0xBB]

/-- The option region of scenario 4: `FE 04 AA BB 18 06 01 00 00 40`. -/
def ex_region_unknown_mppe : List Nat := ex_opt_unknown ++ ex_opt_SH

/-- A truncated MPPE option: `18 06 00 00`, four bytes of an option that declares six. -/
def ex_opt_truncated : List Nat := [18, 6, 0, 0]

/-- A CCP frame with code `code`, id 5 and, as its only option, the unknown option `FE 00`
that declares length 0: `80 FD code 05 00 06 FE 00`. -/
def ex_frame_zero_len (code : Nat) : List Nat := [0x80, 0xfd, code, 5, 0, 6, 0xFE, 0]

/-- The Local Options that a registry yields, in the words of the spec: one per handler whose
`init` returns an option, in registry order, each tied to its handler. -/
def spec_registry_options {α : Type} (option_handlers : List (ccp_option_handler_t α)) :
    List (ccp_option_t α) :=
  option_handlers.filterMap fun h =>
    h.init.map fun o => (⟨o.id, o.len, o.state, h, o.priv⟩ : ccp_option_t α)

/-- A handler whose `init` declines to take part in the session. -/
def ex_hnd_declines : ccp_option_handler_t mppe_option_t :=
  { mppe_opt_hnd with init := none }

/-- A CCP instance as `ccp_layer_init` has it before `ccp_options_init`: zero-filled, with an
empty option list. -/
def ex_ccp_blank : ppp_ccp_t mppe_option_t where
  ppp := ⟨[], 0, ex_kernel_ok⟩
  fsm := ⟨fsm_state_t.FSM_Initial, 0, 0⟩
  options := []
  ropt_list := []
  ropt_len := 0
  conf_req_len := 0
  passive := 0
  started := 0
  need_req := 0
  trace := []

/-- A handler for option id `0x11` whose `recv_conf_req` returns `CCP_OPT_FAIL` for every
proposal. -/
def ex_hnd_fail : ccp_option_handler_t mppe_option_t :=
  { mppe_opt_hnd with
    init := some ⟨0x11, 2, 0, mppe_state_init⟩
    recv_conf_req := fun k m _ => (CCP_OPT_FAIL, m, k) }

/-- A CCP instance whose only Local Option is the one of `ex_hnd_fail`, with the frame `buf`
in the unit buffer and FSM in `Req-Sent`. -/
def ex_ccp_fail (buf : List Nat) : ppp_ccp_t mppe_option_t :=
  { ex_ccp mppe_state_init ex_kernel_ok buf 0 with
    options := [⟨0x11, 2, CCP_OPT_NONE, ex_hnd_fail, mppe_state_init⟩] }

/-- A ConfReq with id 1 whose options are `11 02` followed by the unknown option `FE 02`:
`80 FD 01 01 00 08 11 02 FE 02`. -/
def ex_frame_fail_unknown : List Nat := [0x80, 0xfd, 1, 1, 0, 8, 0x11, 2, 0xFE, 2]

/-- The instance `ex_ccp m k buf id` after `ccp_recv` has stored the id `rid` of the frame
being processed in `fsm.recv_id`. -/
def ex_ccp_recv_id (m : mppe_option_t) (k : kernel_t) (buf : List Nat) (id : Int) (rid : Nat) :
    ppp_ccp_t mppe_option_t :=
  { ex_ccp m k buf id with fsm := ⟨fsm_state_t.FSM_Req_Sent, id, (rid : Int)⟩ }

/-- The MPPE option of scenario 2, with flag word `01 00 00 E0` (S and H plus M and L). -/
def ex_opt_SH_extra : List Nat := [18, 6, 1, 0, 0, 0xE0]

/-- What the `send_conf_req` callbacks of the Local Options return when called in list order,
each on the kernel left by the one before: the count `n` and the bytes stored at the
cursor. -/
def spec_conf_req_outputs {α : Type} : List (ccp_option_t α) → kernel_t → List (Int × List Nat)
  | [], _ => []
  | lopt :: rest, k =>
    ((lopt.h.send_conf_req k lopt.priv).1, (lopt.h.send_conf_req k lopt.priv).2.1) ::
      spec_conf_req_outputs rest (lopt.h.send_conf_req k lopt.priv).2.2.2

/-- The handlers' bytes in list order: of each handler, the `n` bytes it reports. -/
def spec_conf_req_body : List (Int × List Nat) → List Nat
  | [] => []
  | (n, w) :: rest => w.take n.toNat ++ spec_conf_req_body rest

/-- The ConfReq frame in the words of the spec: protocol `80 FD`, code 1, the id, the length
field `4 + body size` and the body. -/
def spec_conf_req_frame (id : Int) (body : List Nat) : List Nat :=
  [0x80, 0xfd, 1, (id % 256).toNat, (4 + body.length) / 256, (4 + body.length) % 256] ++ body

/-- What one option of a received ConfRej amounts to, in the words of the spec: it is fatal
when its id matches a Local Option whose handler has no `recv_conf_rej` or whose
`recv_conf_rej` returns non-zero; the second component is the instance after that call. -/
def spec_rej_option {α : Type} (ccp : ppp_ccp_t α) (data : List Nat) : Bool × ppp_ccp_t α :=
  match find_lopt ccp.options (opt_hdr_id data : Int) with
  | some (i, lopt) =>
    match lopt.h.recv_conf_rej with
    | none => (true, ccp)
    | some f =>
      (decide ((call_recv ccp i lopt cb_t.recv_conf_rej f data).2 ≠ 0),
        (call_recv ccp i lopt cb_t.recv_conf_rej f data).1)
  | none => (false, ccp)

/-- Some option of the region `data`, `size` of a received ConfRej is fatal, the options being
taken in arrival order, each on the instance that the handlers of the earlier ones left
(`n` bounds the number of options looked at). -/
def spec_rej_fatal {α : Type} : Nat → ppp_ccp_t α → List Nat → Int → Bool
  | 0, _, _, _ => false
  | n + 1, ccp, data, size =>
    if size > 0 then
      (spec_rej_option ccp data).1 ||
        spec_rej_fatal n (spec_rej_option ccp data).2 (data.drop (opt_hdr_len data))
          (size - (opt_hdr_len data : Int))
    else
      false

/-- A ConfRej with id 5 that rejects the MPPE option: `80 FD 04 05 00 0A 12 06 01 00 00 40`. -/
def ex_frame_rej_mppe : List Nat := [0x80, 0xfd, 4, 5, 0, 10, 18, 6, 1, 0, 0, 0x40]

/-- A ConfRej with id 5 that rejects an option `FE 04 01 00` that was never proposed:
`80 FD 04 05 00 08 FE 04 01 00`. -/
def ex_frame_rej_unknown : List Nat := [0x80, 0xfd, 4, 5, 0, 8, 0xFE, 4, 1, 0]

/-- Some Local Option whose state was NAK on entry to the walk (`entry` is the option list at
that time) has state NAK in `before` and state ACK in `after`. -/
def nak_to_ack {α : Type} (entry before after : List (ccp_option_t α)) : Bool :=
  (List.range before.length).any fun i =>
    decide ((entry.get? i).map (fun l => l.state) = some CCP_OPT_NAK ∧
      (before.get? i).map (fun l => l.state) = some CCP_OPT_NAK ∧
      (after.get? i).map (fun l => l.state) = some CCP_OPT_ACK)

/-- In the words of the spec: during the walk over `ropts` that starts with the instance
`ccp` and the locals `ret`, `ack`, the recorded state of some Local Option changes from NAK,
its state on entry, to ACK while one of the Received entries is processed. -/
def spec_nak_to_ack {α : Type} :
    List recv_opt_t → List (ccp_option_t α) → ppp_ccp_t α → Int → Int → Bool
  | [], _, _, _, _ => false
  | r :: rest, entry, ccp, ret, ack =>
    nak_to_ack entry ccp.options (ccp_recv_conf_req_step ccp ret ack r).1.options ||
      spec_nak_to_ack rest entry (ccp_recv_conf_req_step ccp ret ack r).1
        (ccp_recv_conf_req_step ccp ret ack r).2.1 (ccp_recv_conf_req_step ccp ret ack r).2.2.1

/-- An instance like `ex_ccp ex_mppe_required ex_kernel_ok [] 5` whose MPPE Local Option is in
state NAK (the previous ConfReq of the peer was answered with a ConfNak) and whose `need_req`
is the given value. -/
def ex_ccp_nak (need_req : Int) : ppp_ccp_t mppe_option_t :=
  { ex_ccp ex_mppe_required ex_kernel_ok [] 5 with
    options := [⟨CI_MPPE, 6, CCP_OPT_NAK, mppe_opt_hnd, ex_mppe_required⟩]
    need_req := need_req }

/-- The invariant of the walk while `ack` is still 0: each Local Option either still has the
state it had on entry, or a state that is neither ACK nor NAK. -/
def walk_inv {α : Type} (entry opts : List (ccp_option_t α)) (ack : Int) : Prop :=
  ack = 0 → ∀ i l, opts.get? i = some l →
    (entry.get? i).map (fun l => l.state) = some l.state ∨
      (l.state ≠ CCP_OPT_ACK ∧ l.state ≠ CCP_OPT_NAK)


/-- A ConfReq option region that carries the MPPE option `18 06 01 00 00 40` twice. -/
def ex_region_mppe_twice : List Nat := ex_opt_SH ++ ex_opt_SH

/-- All three kinds of request (`PPPIOCSCOMPRESS`, `SIOCGIFMTU`, `SIOCSIFMTU`) succeed. -/
def ioctls_succeed (k : kernel_t) : Bool := k.compress_ok && k.getmtu_ok && k.setmtu_ok

/-- The calls `mppe_recv_conf_req(ccp, opt, ptr)` for the option pointers `ptrs`, in order,
each on the state block and kernel left by the one before: the number of calls that returned
ACK, and the state block and kernel after the last one. -/
def mppe_replay : kernel_t → mppe_option_t → List (List Nat) → Nat × mppe_option_t × kernel_t
  | k, m, [] => (0, m, k)
  | k, m, p :: ps =>
    ((if (mppe_recv_conf_req k m p).1 = CCP_OPT_ACK then 1 else 0) +
        (mppe_replay (mppe_recv_conf_req k m p).2.2 (mppe_recv_conf_req k m p).2.1 ps).1,
      (mppe_replay (mppe_recv_conf_req k m p).2.2 (mppe_recv_conf_req k m p).2.1 ps).2)

/-- The pointers of the Received entries that carry the MPPE option id, in list order. -/
def mppe_ptrs (ropts : List recv_opt_t) : List (List Nat) :=
  (ropts.filter fun r => decide (opt_hdr_id r.hdr = CI_MPPE)).map fun r => r.hdr

/-- A sequence of inbound ConfReq processings in one session: for each option region
(`data`, `size`) in turn, `ccp_recv_conf_req` followed by `ccp_free_conf_req`, as in the
`case CONFREQ` of `ccp_recv`. -/
def conf_req_session {α : Type} (fuel : Nat) :
    ppp_ccp_t α → List (List Nat × Int) → Except abort_t (ppp_ccp_t α)
  | ccp, [] => Except.ok ccp
  | ccp, q :: rest =>
    match ccp_recv_conf_req fuel ccp q.1 q.2 with
    | Except.error e => Except.error e
    | Except.ok (_, c) => conf_req_session fuel (ccp_free_conf_req c) rest

/-- The MPPE option pointers of all the regions of a session, in order of arrival. -/
def session_ptrs (fuel : Nat) : List (List Nat × Int) → List (List Nat)
  | [] => []
  | q :: rest =>
    (match ccp_recv_conf_req_parse fuel q.1 q.2 with
      | Except.ok parsed => mppe_ptrs parsed
      | Except.error _ => []) ++ session_ptrs fuel rest

/-- A ConfNak with id 5 that carries the MPPE option: `80 FD 03 05 00 0A 12 06 01 00 00 40`. -/
def ex_frame_nak_mppe : List Nat := [0x80, 0xfd, 3, 5, 0, 10, 18, 6, 1, 0, 0, 0x40]

/-- A unit buffer of which only the first 6 bytes were received, `80 FD 01 07 00 0A` (a
ConfReq with id 7 that declares length 10); the 6 bytes behind them, `12 06 01 00 00 40`,
are left over from an earlier frame. -/
def ex_buf_short : List Nat := [0x80, 0xfd, 1, 7, 0, 10, 18, 6, 1, 0, 0, 0x40]

/-- The instance `ex_ccp ex_mppe_required ex_kernel_ok ex_buf_short 5` with `unit_buf_size`
6, the number of bytes received. -/
def ex_ccp_short : ppp_ccp_t mppe_option_t :=
  { ex_ccp ex_mppe_required ex_kernel_ok ex_buf_short 5 with
    ppp := ⟨ex_buf_short, 6, ex_kernel_ok⟩ }

/-! # Theorems -/

/-! ## Lemmas on words and on the kernel calls -/

theorem MPPE_SH_eq : MPPE_S ||| MPPE_H = 0x01000040 := by decide

theorem htonl_SH_bytes : (htonl (MPPE_S ||| MPPE_H)).bytes = [1, 0, 0, 0x40] := by decide

theorem word32_nonzero_iff (w : word32) : w.nonzero = true ↔ ntohl w ≠ 0 := by
  unfold word32.nonzero ntohl
  simp only [Bool.not_eq_true', Bool.and_eq_false_imp, Bool.and_eq_true, beq_iff_eq, and_imp,
    beq_eq_false_iff_ne, ne_eq]
  omega

theorem setup_mppe_key_tx_ok (k : kernel_t) (key : key16) (h : k.compress_ok = true) :
    setup_mppe_key k 1 (some key) =
      (0, { k with ioctls := k.ioctls ++ [ioctl_req_t.PPPIOCSCOMPRESS 1 (mppe_config key)],
                   tx_comp := some (mppe_config key) }) := by
  unfold setup_mppe_key mppe_config
  simp [h, htonl_SH_bytes, CI_MPPE]

theorem setup_mppe_key_rx_ok (k : kernel_t) (key : key16) (h : k.compress_ok = true) :
    setup_mppe_key k 0 (some key) =
      (0, { k with ioctls := k.ioctls ++ [ioctl_req_t.PPPIOCSCOMPRESS 0 (mppe_config key)],
                   rx_comp := some (mppe_config key) }) := by
  unfold setup_mppe_key mppe_config
  simp [h, htonl_SH_bytes, CI_MPPE]

theorem setup_mppe_key_fail (k : kernel_t) (t : Int) (key : key16)
    (h : k.compress_ok = false) :
    setup_mppe_key k t (some key) = (-1, kernel_refused k t key) := by
  unfold setup_mppe_key kernel_refused
  simp [h, htonl_SH_bytes, CI_MPPE, mppe_config]

theorem decrease_mtu_mtu (k : kernel_t) :
    (decrease_mtu k).2.mtu =
      if k.getmtu_ok = true ∧ k.setmtu_ok = true then k.mtu - 4 else k.mtu := by
  unfold decrease_mtu MPPE_PAD
  cases hg : k.getmtu_ok <;> cases hs : k.setmtu_ok <;> simp

theorem decrease_mtu_comp (k : kernel_t) :
    (decrease_mtu k).2.tx_comp = k.tx_comp ∧ (decrease_mtu k).2.rx_comp = k.rx_comp := by
  unfold decrease_mtu
  cases hg : k.getmtu_ok <;> cases hs : k.setmtu_ok <;> simp

theorem accept_ok (k : kernel_t) (m : mppe_option_t) (h : k.compress_ok = true) :
    (mppe_recv_conf_req_accept k m).1 = CCP_OPT_ACK ∧
    (mppe_recv_conf_req_accept k m).2.1 = m ∧
    (mppe_recv_conf_req_accept k m).2.2.tx_comp = some (mppe_config m.send_key) ∧
    (mppe_recv_conf_req_accept k m).2.2.rx_comp = k.rx_comp ∧
    (mppe_recv_conf_req_accept k m).2.2.mtu =
      if k.getmtu_ok = true ∧ k.setmtu_ok = true then k.mtu - 4 else k.mtu := by
  unfold mppe_recv_conf_req_accept
  simp [setup_mppe_key_tx_ok k m.send_key h, decrease_mtu_mtu, decrease_mtu_comp]

theorem accept_fail (k : kernel_t) (m : mppe_option_t) (h : k.compress_ok = false) :
    mppe_recv_conf_req_accept k m = (CCP_OPT_REJ, m, kernel_refused k 1 m.send_key) := by
  unfold mppe_recv_conf_req_accept
  simp [setup_mppe_key_fail k 1 m.send_key h]

/-! ## The MPPE handler -/

/-- C2, counterexample: with policy `required`, the option `18 06 01 00 00 40` and a kernel
that installs the send key but refuses `SIOCGIFMTU`, `mppe_recv_conf_req` returns ACK and the
send key is installed, yet the MTU is not the initial MTU minus 4. -/
theorem mppe_recv_conf_req_required_mtu_counterexample :
    ex_mppe_required.policy = 2 ∧ opt_hdr_len ex_opt_SH = 6 ∧
    ntohl (opt32_val ex_opt_SH) = 0x01000040 ∧
    (mppe_recv_conf_req ex_kernel_nomtu ex_mppe_required ex_opt_SH).1 = CCP_OPT_ACK ∧
    (mppe_recv_conf_req ex_kernel_nomtu ex_mppe_required ex_opt_SH).2.2.tx_comp =
      some (mppe_config ex_mppe_required.send_key) ∧
    (mppe_recv_conf_req ex_kernel_nomtu ex_mppe_required ex_opt_SH).2.2.mtu ≠
      ex_kernel_nomtu.mtu - 4 := by
  decide

/-- C2, as amended: with policy `required` and declared length 6, `mppe_recv_conf_req`
returns NAK and leaves state and kernel alone when the flag word is not `0x01000040`; when it
is, the send key is requested for the transmit direction: on refusal the result is REJ and
nothing but the request log changes (MTU untouched), on success the result is ACK, the send
key is installed, and the MTU is lowered by 4 if both MTU requests succeed and unchanged
otherwise. -/
theorem mppe_recv_conf_req_required (k : kernel_t) (m : mppe_option_t) (ptr : List Nat)
    (hpol : m.policy = 2) (hlen : opt_hdr_len ptr = 6) :
    (ntohl (opt32_val ptr) ≠ 0x01000040 →
      mppe_recv_conf_req k m ptr = (CCP_OPT_NAK, m, k)) ∧
    (ntohl (opt32_val ptr) = 0x01000040 → k.compress_ok = false →
      mppe_recv_conf_req k m ptr = (CCP_OPT_REJ, m, kernel_refused k 1 m.send_key)) ∧
    (ntohl (opt32_val ptr) = 0x01000040 → k.compress_ok = true →
      (mppe_recv_conf_req k m ptr).1 = CCP_OPT_ACK ∧
      (mppe_recv_conf_req k m ptr).2.1 = m ∧
      (mppe_recv_conf_req k m ptr).2.2.tx_comp = some (mppe_config m.send_key) ∧
      (mppe_recv_conf_req k m ptr).2.2.mtu =
        if k.getmtu_ok = true ∧ k.setmtu_ok = true then k.mtu - 4 else k.mtu) := by
  refine ⟨fun hf => ?_, fun hf hk => ?_, fun hf hk => ?_⟩
  · unfold mppe_recv_conf_req
    simp [hpol, hlen, MPPE_SH_eq, hf]
  · unfold mppe_recv_conf_req
    simp [hpol, hlen, MPPE_SH_eq, hf, accept_fail k m hk]
  · have h := accept_ok k m hk
    unfold mppe_recv_conf_req
    simp only [hpol, hlen, MPPE_SH_eq, hf]
    simpa using ⟨h.1, h.2.1, h.2.2.1, h.2.2.2.2⟩

/-- C2, witness: policy `required`, option `18 06 01 00 00 40`, every request succeeding. -/
theorem mppe_recv_conf_req_required_witness :
    ex_mppe_required.policy = 2 ∧ opt_hdr_len ex_opt_SH = 6 ∧
    (mppe_recv_conf_req ex_kernel_ok ex_mppe_required ex_opt_SH).1 = CCP_OPT_ACK ∧
    (mppe_recv_conf_req ex_kernel_ok ex_mppe_required ex_opt_SH).2.2.mtu = 1496 :=
  ⟨by decide, by decide,
    ((mppe_recv_conf_req_required ex_kernel_ok ex_mppe_required ex_opt_SH
      (by decide) (by decide)).2.2 (by decide) (by decide)).1,
    ((mppe_recv_conf_req_required ex_kernel_ok ex_mppe_required ex_opt_SH
      (by decide) (by decide)).2.2 (by decide) (by decide)).2.2.2⟩

theorem spec_accepts_accept (k : kernel_t) (m : mppe_option_t) :
    spec_accepts k m (mppe_recv_conf_req_accept k m) := by
  refine ⟨?_, fun hk => ?_, fun hk => ?_⟩
  · cases hk : k.compress_ok
    · rw [accept_fail k m hk]
    · exact (accept_ok k m hk).2.1
  · exact ⟨(accept_ok k m hk).1, (accept_ok k m hk).2.2.1⟩
  · rw [accept_fail k m hk]
    exact ⟨rfl, rfl⟩

theorem allowed_zero_accept (k : kernel_t) (m : mppe_option_t) (ptr : List Nat)
    (hpol : m.policy = 1) (hlen : opt_hdr_len ptr = 6) (hf : ntohl (opt32_val ptr) = 0) :
    mppe_recv_conf_req k m ptr = mppe_recv_conf_req_accept k { m with mppe := 0 } := by
  have hp2 : ¬ m.policy = 2 := by omega
  have hb : (opt32_val ptr).nonzero = false := by
    cases h : (opt32_val ptr).nonzero
    · rfl
    · exact absurd hf ((word32_nonzero_iff (opt32_val ptr)).mp h)
  have hne : ntohl (opt32_val ptr) ≠ MPPE_S ||| MPPE_H := by
    rw [hf]; decide
  have hsup : ¬ (ntohl (opt32_val ptr) &&& (MPPE_S ||| MPPE_H)) = (MPPE_S ||| MPPE_H) := by
    rw [hf]; decide
  unfold mppe_recv_conf_req
  rw [if_neg (not_not.mpr hlen), if_neg hp2, if_pos hpol, if_neg hne, if_neg hsup, hb]
  rfl

/-- C3: with policy `allowed` and declared length 6, `mppe_recv_conf_req` follows the
four-way table on the flag word `f`: `f = S|H` sets desired on and accepts; `f` containing
`S|H` and more sets desired on and returns NAK; any other non-zero `f` sets desired off and
returns NAK; `f = 0` sets desired off and accepts. In the two NAK cases the kernel is
unchanged (no request is issued). -/
theorem mppe_recv_conf_req_allowed (k : kernel_t) (m : mppe_option_t) (ptr : List Nat)
    (hpol : m.policy = 1) (hlen : opt_hdr_len ptr = 6) :
    (ntohl (opt32_val ptr) = 0x01000040 →
      spec_accepts k { m with mppe := 1 } (mppe_recv_conf_req k m ptr)) ∧
    (ntohl (opt32_val ptr) ≠ 0x01000040 →
      ntohl (opt32_val ptr) &&& 0x01000040 = 0x01000040 →
      mppe_recv_conf_req k m ptr = (CCP_OPT_NAK, { m with mppe := 1 }, k)) ∧
    (ntohl (opt32_val ptr) &&& 0x01000040 ≠ 0x01000040 → ntohl (opt32_val ptr) ≠ 0 →
      mppe_recv_conf_req k m ptr = (CCP_OPT_NAK, { m with mppe := 0 }, k)) ∧
    (ntohl (opt32_val ptr) = 0 →
      spec_accepts k { m with mppe := 0 } (mppe_recv_conf_req k m ptr)) := by
  have hnz := word32_nonzero_iff (opt32_val ptr)
  have hp2 : ¬ m.policy = 2 := by omega
  refine ⟨fun hf => ?_, fun hf hsup => ?_, fun hsup hf => ?_, fun hf => ?_⟩
  · unfold mppe_recv_conf_req
    rw [if_neg (not_not.mpr hlen), if_neg hp2, if_pos hpol, if_pos (MPPE_SH_eq ▸ hf)]
    exact spec_accepts_accept k { m with mppe := 1 }
  · unfold mppe_recv_conf_req
    simp [hpol, hlen, MPPE_SH_eq, hf, hsup]
  · have hne : ntohl (opt32_val ptr) ≠ 0x01000040 := by
      intro h
      rw [h] at hsup
      exact hsup (by decide)
    have hb : (opt32_val ptr).nonzero = true := hnz.mpr hf
    unfold mppe_recv_conf_req
    simp [hpol, hlen, MPPE_SH_eq, hne, hsup, hb]
  · rw [allowed_zero_accept k m ptr hpol hlen hf]
    exact spec_accepts_accept k { m with mppe := 0 }

/-- C3, witness: policy `allowed` and the option `18 06 01 00 00 70` (S, H and two more
bits): desired is set on and NAK returned. -/
theorem mppe_recv_conf_req_allowed_witness :
    ex_mppe_allowed.policy = 1 ∧ opt_hdr_len ex_opt_SHLD = 6 ∧
    mppe_recv_conf_req ex_kernel_ok ex_mppe_allowed ex_opt_SHLD =
      (CCP_OPT_NAK, { ex_mppe_allowed with mppe := 1 }, ex_kernel_ok) :=
  ⟨by decide, by decide,
    (mppe_recv_conf_req_allowed ex_kernel_ok ex_mppe_allowed ex_opt_SHLD
      (by decide) (by decide)).2.1 (by decide) (by decide)⟩

/-- C4, counterexample: policy `allowed`, option `18 06 00 00 00 00`, a kernel that takes the
key: `mppe_recv_conf_req` sets desired off but returns ACK, not NAK. -/
theorem mppe_recv_conf_req_zero_counterexample :
    ex_mppe_allowed.policy = 1 ∧
    (mppe_recv_conf_req ex_kernel_ok ex_mppe_allowed ex_opt_zero).2.1.mppe = 0 ∧
    (mppe_recv_conf_req ex_kernel_ok ex_mppe_allowed ex_opt_zero).1 = CCP_OPT_ACK ∧
    (mppe_recv_conf_req ex_kernel_ok ex_mppe_allowed ex_opt_zero).1 ≠ CCP_OPT_NAK := by
  decide

/-- C4, as amended: with policy `allowed` and the option `18 06 00 00 00 00` (whatever
follows it in the packet), `mppe_recv_conf_req` sets desired off and accepts: the result is
ACK when the kernel takes the send key and REJ when it refuses, never NAK; and in the state it
leaves, `mppe_send_conf_req` (which also serves as `send_conf_nak`) emits the option with
flag word 0 and issues no kernel request. -/
theorem mppe_recv_conf_req_zero (k : kernel_t) (m : mppe_option_t) (tail : List Nat)
    (hpol : m.policy = 1) :
    (mppe_recv_conf_req k m (ex_opt_zero ++ tail)).2.1 = { m with mppe := 0 } ∧
    (mppe_recv_conf_req k m (ex_opt_zero ++ tail)).1 ≠ CCP_OPT_NAK ∧
    (k.compress_ok = true → (mppe_recv_conf_req k m (ex_opt_zero ++ tail)).1 = CCP_OPT_ACK) ∧
    (k.compress_ok = false → (mppe_recv_conf_req k m (ex_opt_zero ++ tail)).1 = CCP_OPT_REJ) ∧
    (∀ k' : kernel_t,
      mppe_send_conf_req k' (mppe_recv_conf_req k m (ex_opt_zero ++ tail)).2.1 =
        (6, [18, 6, 0, 0, 0, 0], { m with mppe := 0 }, k')) := by
  have hlen : opt_hdr_len (ex_opt_zero ++ tail) = 6 := by simp [opt_hdr_len, rd, ex_opt_zero]
  have hf : ntohl (opt32_val (ex_opt_zero ++ tail)) = 0 := by
    simp [ntohl, opt32_val, rd, ex_opt_zero]
  have he := allowed_zero_accept k m (ex_opt_zero ++ tail) hpol hlen hf
  obtain ⟨h1, h2, h3⟩ := spec_accepts_accept k { m with mppe := 0 }
  rw [← he] at h1 h2 h3
  refine ⟨h1, ?_, fun hk => (h2 hk).1, fun hk => (h3 hk).1, fun k' => ?_⟩
  · cases hk : k.compress_ok
    · rw [(h3 hk).1]; decide
    · rw [(h2 hk).1]; decide
  · rw [h1]
    unfold mppe_send_conf_req
    simp [hpol, CI_MPPE, word32.zero, word32.bytes]

/-- C4, witness: the state after a key event with policy `allowed`. -/
theorem mppe_recv_conf_req_zero_witness :
    ex_mppe_allowed.policy = 1 ∧
    (mppe_recv_conf_req ex_kernel_ok ex_mppe_allowed (ex_opt_zero ++ [])).1 ≠ CCP_OPT_NAK :=
  ⟨by decide, (mppe_recv_conf_req_zero ex_kernel_ok ex_mppe_allowed [] (by decide)).2.1⟩

/-- C5: when the policy is neither `allowed` (1) nor `required` (2), `mppe_recv_conf_req`
returns REJ for every option pointer (every declared length, every flag word) and leaves the
MPPE state (desired and both keys) and the kernel (no key installation, no MTU change, no
request at all) as they were. -/
theorem mppe_recv_conf_req_policy_none (k : kernel_t) (m : mppe_option_t) (ptr : List Nat)
    (h1 : m.policy ≠ 1) (h2 : m.policy ≠ 2) :
    mppe_recv_conf_req k m ptr = (CCP_OPT_REJ, m, k) := by
  unfold mppe_recv_conf_req
  simp [h1, h2]

/-- C5, witness: the initial MPPE state (policy 0) and the option `18 06 01 00 00 40`. -/
theorem mppe_recv_conf_req_policy_none_witness :
    mppe_state_init.policy ≠ 1 ∧ mppe_state_init.policy ≠ 2 ∧
    mppe_recv_conf_req ex_kernel_ok mppe_state_init ex_opt_SH =
      (CCP_OPT_REJ, mppe_state_init, ex_kernel_ok) :=
  ⟨by decide, by decide,
    mppe_recv_conf_req_policy_none ex_kernel_ok mppe_state_init ex_opt_SH
      (by decide) (by decide)⟩

/-- C6: whatever the MPPE state and the payload, `mppe_recv_conf_req` returns REJ when the
declared length byte is not 6, and leaves the MPPE state and the kernel as they were. -/
theorem mppe_recv_conf_req_bad_len (k : kernel_t) (m : mppe_option_t) (ptr : List Nat)
    (hlen : opt_hdr_len ptr ≠ 6) :
    mppe_recv_conf_req k m ptr = (CCP_OPT_REJ, m, k) := by
  unfold mppe_recv_conf_req
  simp [hlen]

/-- C6, witness: declared lengths 0, 1, 5 and 7 under policy `required`. -/
theorem mppe_recv_conf_req_bad_len_witness :
    opt_hdr_len [18, 7, 1, 0, 0, 0x40, 0] ≠ 6 ∧
    mppe_recv_conf_req ex_kernel_ok ex_mppe_required [18, 7, 1, 0, 0, 0x40, 0] =
      (CCP_OPT_REJ, ex_mppe_required, ex_kernel_ok) ∧
    mppe_recv_conf_req ex_kernel_ok ex_mppe_required [18, 0, 1, 0, 0, 0x40] =
      (CCP_OPT_REJ, ex_mppe_required, ex_kernel_ok) ∧
    mppe_recv_conf_req ex_kernel_ok ex_mppe_required [18, 1, 1, 0, 0, 0x40] =
      (CCP_OPT_REJ, ex_mppe_required, ex_kernel_ok) ∧
    mppe_recv_conf_req ex_kernel_ok ex_mppe_required [18, 5, 1, 0, 0, 0x40] =
      (CCP_OPT_REJ, ex_mppe_required, ex_kernel_ok) :=
  ⟨by decide,
    mppe_recv_conf_req_bad_len ex_kernel_ok ex_mppe_required _ (by decide),
    mppe_recv_conf_req_bad_len ex_kernel_ok ex_mppe_required _ (by decide),
    mppe_recv_conf_req_bad_len ex_kernel_ok ex_mppe_required _ (by decide),
    mppe_recv_conf_req_bad_len ex_kernel_ok ex_mppe_required _ (by decide)⟩

/-- C7, counterexample: with policy `required` and desired still unset (-1, not on),
`mppe_send_conf_req` writes the flag word `S|H`, not zero, and installs the receive key. -/
theorem mppe_send_conf_req_unset_counterexample :
    ex_mppe_required_unset.policy = 2 ∧ ex_mppe_required_unset.mppe ≠ 1 ∧
    (mppe_send_conf_req ex_kernel_ok ex_mppe_required_unset).1 = 6 ∧
    (mppe_send_conf_req ex_kernel_ok ex_mppe_required_unset).2.1 = [18, 6, 1, 0, 0, 0x40] ∧
    (mppe_send_conf_req ex_kernel_ok ex_mppe_required_unset).2.1 ≠ [18, 6, 0, 0, 0, 0] ∧
    (mppe_send_conf_req ex_kernel_ok ex_mppe_required_unset).2.2.2.rx_comp =
      some (mppe_config ex_mppe_required_unset.recv_key) := by
  decide

/-- C7, as amended: for every MPPE state and kernel, if policy is `required` or desired is
not unset, `mppe_send_conf_req` writes `[18, 6, flag word big-endian]` with flag word `S|H`
when desired is not off (non-zero) and zero when desired is off; with desired off it returns
6 and issues no kernel request; with desired not off it requests the receive key (direction
0) and returns 6 with the key installed when the kernel takes it, 0 when the kernel refuses.
If policy is not `required` and desired is unset it returns 0, writes nothing and issues no
kernel request. The MPPE state never changes. -/
theorem mppe_send_conf_req_spec (k : kernel_t) (m : mppe_option_t) :
    ((m.policy = 2 ∨ m.mppe ≠ -1) → m.mppe = 0 →
      mppe_send_conf_req k m = (6, [18, 6, 0, 0, 0, 0], m, k)) ∧
    ((m.policy = 2 ∨ m.mppe ≠ -1) → m.mppe ≠ 0 → k.compress_ok = true →
      mppe_send_conf_req k m =
        (6, [18, 6, 1, 0, 0, 0x40], m,
          { k with
            ioctls := k.ioctls ++ [ioctl_req_t.PPPIOCSCOMPRESS 0 (mppe_config m.recv_key)]
            rx_comp := some (mppe_config m.recv_key) })) ∧
    ((m.policy = 2 ∨ m.mppe ≠ -1) → m.mppe ≠ 0 → k.compress_ok = false →
      mppe_send_conf_req k m =
        (0, [18, 6, 1, 0, 0, 0x40], m, kernel_refused k 0 m.recv_key)) ∧
    (¬ (m.policy = 2 ∨ m.mppe ≠ -1) → mppe_send_conf_req k m = (0, [], m, k)) := by
  refine ⟨fun h h0 => ?_, fun h h0 hk => ?_, fun h h0 hk => ?_, fun h => ?_⟩
  · unfold mppe_send_conf_req
    rw [if_pos h]
    simp [h0, CI_MPPE, word32.zero, word32.bytes]
  · unfold mppe_send_conf_req
    rw [if_pos h]
    simp [h0, CI_MPPE, htonl_SH_bytes, setup_mppe_key_rx_ok k m.recv_key hk]
  · unfold mppe_send_conf_req
    rw [if_pos h]
    simp [h0, CI_MPPE, htonl_SH_bytes, setup_mppe_key_fail k 0 m.recv_key hk]
  · unfold mppe_send_conf_req
    rw [if_neg h]

/-- C7, witness: policy `required` with desired on, every request succeeding. -/
theorem mppe_send_conf_req_spec_witness :
    (ex_mppe_required.policy = 2 ∨ ex_mppe_required.mppe ≠ -1) ∧ ex_mppe_required.mppe ≠ 0 ∧
    ex_kernel_ok.compress_ok = true ∧
    (mppe_send_conf_req ex_kernel_ok ex_mppe_required).1 = 6 ∧
    (mppe_send_conf_req ex_kernel_ok ex_mppe_required).2.1 = [18, 6, 1, 0, 0, 0x40] :=
  ⟨by decide, by decide, by decide,
    congrArg Prod.fst ((mppe_send_conf_req_spec ex_kernel_ok ex_mppe_required).2.1
      (by decide) (by decide) (by decide)),
    congrArg (fun r => r.2.1) ((mppe_send_conf_req_spec ex_kernel_ok ex_mppe_required).2.1
      (by decide) (by decide) (by decide))⟩

/-- C8: `ev_mppe_keys` leaves the MPPE state block unchanged when `(type & 0x04) == 0`;
otherwise both keys and the policy become those of the event, and desired becomes on (1) if
the event's policy is `required` (2) and keeps its value otherwise. -/
theorem ev_mppe_keys_spec (ev : ev_mppe_keys_t) (m : mppe_option_t) :
    (Int.land ev.type 0x04 = 0 → ev_mppe_keys ev m = m) ∧
    (Int.land ev.type 0x04 ≠ 0 →
      (ev_mppe_keys ev m).recv_key = ev.recv_key ∧
      (ev_mppe_keys ev m).send_key = ev.send_key ∧
      (ev_mppe_keys ev m).policy = ev.policy ∧
      (ev.policy = 2 → (ev_mppe_keys ev m).mppe = 1) ∧
      (ev.policy ≠ 2 → (ev_mppe_keys ev m).mppe = m.mppe)) := by
  refine ⟨fun h => ?_, fun h => ?_⟩
  · unfold ev_mppe_keys
    rw [if_pos h]
  · unfold ev_mppe_keys
    rw [if_neg h]
    by_cases hp : ev.policy = 2
    · simp [hp]
    · simp [hp]

/-- C8, witness: an event of type 4 with policy `required` on the initial state, and an event
of type 3 that changes nothing. -/
theorem ev_mppe_keys_spec_witness :
    Int.land ex_ev_required.type 0x04 ≠ 0 ∧ Int.land ex_ev_no128.type 0x04 = 0 ∧
    (ev_mppe_keys ex_ev_required mppe_state_init).mppe = 1 ∧
    (ev_mppe_keys ex_ev_required mppe_state_init).policy = 2 ∧
    ev_mppe_keys ex_ev_no128 mppe_state_init = mppe_state_init :=
  ⟨by decide, by decide,
    ((ev_mppe_keys_spec ex_ev_required mppe_state_init).2 (by decide)).2.2.2.1 (by decide),
    ((ev_mppe_keys_spec ex_ev_required mppe_state_init).2 (by decide)).2.2.1,
    (ev_mppe_keys_spec ex_ev_no128 mppe_state_init).1 (by decide)⟩

/-! ## The receive path -/

theorem send_conf_req_loop_trace {α : Type} (opts : List (ccp_option_t α)) :
    ∀ (k : kernel_t) (tr : List effect_t) (buf : List Nat) (ptr : Int),
      ∃ ext, (send_conf_req_loop opts k tr buf ptr).2.2.2.1 = tr ++ ext := by
  induction opts with
  | nil => intro k tr buf ptr; exact ⟨[], by simp [send_conf_req_loop]⟩
  | cons lopt rest ih =>
    intro k tr buf ptr
    rcases hs : lopt.h.send_conf_req k lopt.priv with ⟨n, w, priv, k1⟩
    by_cases hn : n < 0
    · exact ⟨[effect_t.call lopt.id cb_t.send_conf_req], by simp [send_conf_req_loop, hs, hn]⟩
    · obtain ⟨ext, hext⟩ := ih k1 (tr ++ [effect_t.call lopt.id cb_t.send_conf_req])
        (mem_write buf ptr.toNat w) (ptr + n)
      refine ⟨effect_t.call lopt.id cb_t.send_conf_req :: ext, ?_⟩
      simp [send_conf_req_loop, hs, hn, hext]

theorem send_conf_req_trace {α : Type} (env : env_t α) (ccp : ppp_ccp_t α) :
    ∃ ext, (send_conf_req env ccp).2.trace = ccp.trace ++ ext := by
  unfold send_conf_req
  by_cases hp : ccp.passive ≠ 0
  · exact ⟨[], by simp [hp]⟩
  · simp only [hp, if_false]
    generalize mem_write (env.malloc ccp.conf_req_len) 0 _ = B
    obtain ⟨ext, hext⟩ := send_conf_req_loop_trace ccp.options ccp.ppp.kernel ccp.trace B
      sizeof_ccp_hdr_t
    rcases hl : send_conf_req_loop ccp.options ccp.ppp.kernel ccp.trace B sizeof_ccp_hdr_t with
      ⟨ok, opts, k, tr, buf, ptr⟩
    rw [hl] at hext
    simp only at hext
    cases ok
    · exact ⟨ext, by simp [hext]⟩
    · exact ⟨ext ++ [effect_t.ppp_unit_send
        (mem_read (mem_write buf 4 (htons (ptr - 2))) ptr.toNat)], by simp [emit, hext]⟩

theorem ccp_recv_conf_ack_mismatch {α : Type} (fuel : Nat) (ccp : ppp_ccp_t α)
    (data : List Nat) (size : Int) (h : ccp.fsm.recv_id ≠ ccp.fsm.id) :
    ccp_recv_conf_ack fuel ccp data size = Except.ok (0, ccp) := by
  unfold ccp_recv_conf_ack
  rw [if_pos h]

theorem ccp_recv_conf_nak_mismatch {α : Type} (fuel : Nat) (ccp : ppp_ccp_t α)
    (data : List Nat) (size : Int) (h : ccp.fsm.recv_id ≠ ccp.fsm.id) :
    ccp_recv_conf_nak fuel ccp data size = Except.ok (0, ccp) := by
  unfold ccp_recv_conf_nak
  rw [if_pos h]

theorem ccp_recv_conf_rej_mismatch {α : Type} (fuel : Nat) (ccp : ppp_ccp_t α)
    (data : List Nat) (size : Int) (h : ccp.fsm.recv_id ≠ ccp.fsm.id) :
    ccp_recv_conf_rej fuel ccp data size = Except.ok (0, ccp) := by
  unfold ccp_recv_conf_rej
  rw [if_pos h]

/-- What `ccp_recv` does with a ConfAck, ConfNak or ConfRej whose id is not the id of the last
ConfReq sent: the per-code function returns 0 at its id test, before any option is looked at,
and `ccp_recv` goes on to call the FSM entry point of the code (and, for a ConfAck, to send a
ConfReq if `need_req` is set afterwards). -/
theorem ccp_recv_id_mismatch {α : Type} (env : env_t α) (fuel : Nat) (ccp : ppp_ccp_t α)
    (hst1 : ccp.fsm.fsm_state ≠ fsm_state_t.FSM_Initial)
    (hst2 : ccp.fsm.fsm_state ≠ fsm_state_t.FSM_Closed)
    (hsz : PPP_HEADERLEN + 2 ≤ ccp.ppp.unit_buf_size)
    (hlen : PPP_HEADERLEN ≤ ntohs_at ccp.ppp.unit_buf 4)
    (hid : (rd ccp.ppp.unit_buf 3 : Int) ≠ ccp.fsm.id) :
    (rd ccp.ppp.unit_buf 2 = CONFACK →
      ccp_recv env fuel ccp = Except.ok
        (if (fsm_feed env fsm_event_t.recv_conf_ack
              { ccp with fsm := { ccp.fsm with recv_id := (rd ccp.ppp.unit_buf 3 : Int) } }).need_req
            ≠ 0 then
          (send_conf_req env (fsm_feed env fsm_event_t.recv_conf_ack
            { ccp with fsm := { ccp.fsm with recv_id := (rd ccp.ppp.unit_buf 3 : Int) } })).2
        else
          fsm_feed env fsm_event_t.recv_conf_ack
            { ccp with fsm := { ccp.fsm with recv_id := (rd ccp.ppp.unit_buf 3 : Int) } })) ∧
    (rd ccp.ppp.unit_buf 2 = CONFNAK ∨ rd ccp.ppp.unit_buf 2 = CONFREJ →
      ccp_recv env fuel ccp = Except.ok
        (fsm_feed env fsm_event_t.recv_conf_rej
          { ccp with fsm := { ccp.fsm with recv_id := (rd ccp.ppp.unit_buf 3 : Int) } })) := by
  have h1 : ¬ (ccp.fsm.fsm_state = fsm_state_t.FSM_Initial ∨
      ccp.fsm.fsm_state = fsm_state_t.FSM_Closed) := by
    rintro (h | h)
    · exact hst1 h
    · exact hst2 h
  have h2 : ¬ ccp.ppp.unit_buf_size < PPP_HEADERLEN + 2 := not_lt.mpr hsz
  have h3 : ¬ ntohs_at ccp.ppp.unit_buf 4 < PPP_HEADERLEN := not_lt.mpr hlen
  refine ⟨fun hc => ?_, fun hc => ?_⟩
  · unfold ccp_recv
    rw [if_neg h1, if_neg h2]
    simp only [if_neg h3, hc]
    rw [ccp_recv_conf_ack_mismatch fuel _ _ _ hid]
    rw [apply_ite Except.ok]
    simp only [CONFACK, CONFREQ]
    split_ifs <;> first | rfl | omega
  · unfold ccp_recv
    rw [if_neg h1, if_neg h2]
    simp only [if_neg h3]
    rcases hc with hc | hc
    · rw [ccp_recv_conf_nak_mismatch fuel _ _ _ hid]
      simp [hc, CONFACK, CONFREQ, CONFNAK]
    · rw [ccp_recv_conf_rej_mismatch fuel _ _ _ hid]
      simp [hc, CONFACK, CONFREQ, CONFNAK, CONFREJ]

/-- C1, the code at the failing input: the last ConfReq sent had id 5 and the ConfAck
`80 FD 02 04 00 04` (id 4) arrives. Whatever the FSM driver does, `ccp_recv` returns
normally and the first thing it has done is to call `ppp_fsm_recv_conf_ack`: the frame is not
discarded. -/
theorem ccp_recv_confack_id_mismatch_feeds_fsm (env : env_t mppe_option_t) (fuel : Nat) :
    ∃ c, ccp_recv env fuel (ex_ccp ex_mppe_required ex_kernel_ok ex_frame_ack4 5) = Except.ok c ∧
      c.trace.head? = some (effect_t.fsm fsm_event_t.recv_conf_ack) := by
  have h := (ccp_recv_id_mismatch env fuel (ex_ccp ex_mppe_required ex_kernel_ok ex_frame_ack4 5)
    (by decide) (by decide) (by decide) (by decide) (by decide)).1 (by decide)
  refine ⟨_, h, ?_⟩
  split
  · obtain ⟨ext, hext⟩ := send_conf_req_trace env (fsm_feed env fsm_event_t.recv_conf_ack
      { ex_ccp ex_mppe_required ex_kernel_ok ex_frame_ack4 5 with
        fsm := { (ex_ccp ex_mppe_required ex_kernel_ok ex_frame_ack4 5).fsm with
          recv_id := (rd (ex_ccp ex_mppe_required ex_kernel_ok ex_frame_ack4 5).ppp.unit_buf 3 :
            Int) } })
    rw [hext]
    simp [fsm_feed, ex_ccp]
  · simp [fsm_feed, ex_ccp]

/-! ## Lemmas on buffers -/

theorem mem_read_length (p : List Nat) (n : Nat) : (mem_read p n).length = n := by
  simp [mem_read]

theorem getD_mem_read (p : List Nat) (n i : Nat) (h : i < n) :
    (mem_read p n).getD i 0 = p.getD i 0 := by
  simp [mem_read, List.getD_eq_getElem?_getD, List.getElem?_map, List.getElem?_range h]

theorem getD_mem_write (buf : List Nat) (off : Nat) (w : List Nat) (i : Nat) :
    (mem_write buf off w).getD i 0 =
      if off ≤ i ∧ i < off + w.length then w.getD (i - off) 0 else buf.getD i 0 := by
  unfold mem_write
  by_cases hi : i < max buf.length (off + w.length)
  · simp [List.getD_eq_getElem?_getD, List.getElem?_map, List.getElem?_range hi]
  · have h1 : buf.length ≤ i := by omega
    have h2 : ¬ (off ≤ i ∧ i < off + w.length) := by omega
    rw [if_neg h2]
    rw [List.getD_eq_default _ _ h1, List.getD_eq_default]
    simp
    omega

theorem mem_read_eq_of_getD (p l : List Nat) (h : ∀ i, i < l.length → p.getD i 0 = l.getD i 0) :
    mem_read p l.length = l := by
  apply List.ext_getElem
  · simp [mem_read]
  · intro i h1 h2
    have := h i h2
    simp [mem_read, List.getD_eq_getElem?_getD, List.getElem?_eq_getElem h2] at this ⊢
    simpa [List.getD_eq_getElem?_getD] using this

theorem mem_read_eq {p l : List Nat} {n : Nat} (hn : l.length = n)
    (h : ∀ i, i < n → p.getD i 0 = l.getD i 0) : mem_read p n = l := by
  subst hn
  exact mem_read_eq_of_getD p l h

theorem mem_read_add (p : List Nat) (a b : Nat) :
    mem_read p (a + b) = mem_read p a ++ mem_read (p.drop a) b := by
  have hlen : (mem_read p a ++ mem_read (p.drop a) b).length = a + b := by
    simp [mem_read_length]
  rw [← hlen]
  apply mem_read_eq_of_getD
  intro i hi
  rw [hlen] at hi
  by_cases h : i < a
  · rw [List.getD_append _ _ _ _ (by simpa [mem_read_length] using h), getD_mem_read _ _ _ h]
  · have h' : a ≤ i := by omega
    rw [List.getD_append_right _ _ _ _ (by simpa [mem_read_length] using h'), mem_read_length,
      getD_mem_read _ _ _ (by omega)]
    simp [List.getD_eq_getElem?_getD, List.getElem?_drop]
    congr 2
    omega

theorem mem_read_eq_take (p : List Nat) (n : Nat) (h : n ≤ p.length) :
    mem_read p n = p.take n := by
  have hl : (p.take n).length = n := by simp [h]
  conv_lhs => rw [← hl]
  apply mem_read_eq_of_getD
  intro i hi
  rw [hl] at hi
  simp [List.getD_eq_getElem?_getD, List.getElem?_take, hi]

/-! ## The ConfRej frame -/

theorem send_conf_rej_loop_spec (ropts : List recv_opt_t) :
    ∀ (buf : List Nat) (p : Nat), (∀ r ∈ ropts, 0 ≤ r.len) →
      (send_conf_rej_loop ropts buf (p : Int)).2 = ((p + (spec_rej_body ropts).length : Nat) : Int) ∧
      ∀ i, (send_conf_rej_loop ropts buf (p : Int)).1.getD i 0 =
        if p ≤ i ∧ i < p + (spec_rej_body ropts).length then
          (spec_rej_body ropts).getD (i - p) 0
        else buf.getD i 0 := by
  induction ropts with
  | nil =>
    intro buf p _
    refine ⟨by simp [send_conf_rej_loop, spec_rej_body], fun i => ?_⟩
    rw [if_neg (by simp [spec_rej_body])]
    rfl
  | cons r rest ih =>
    intro buf p hlen
    have hr : 0 ≤ r.len := hlen r (List.mem_cons_self _ _)
    have hrest : ∀ r' ∈ rest, 0 ≤ r'.len := fun r' h => hlen r' (List.mem_cons_of_mem _ h)
    by_cases hs : r.state = CCP_OPT_REJ
    · have hsl : (ropt_slice r).length = r.len.toNat := by simp [ropt_slice, mem_read_length]
      have hp : (p : Int) + r.len = ((p + (ropt_slice r).length : Nat) : Int) := by
        rw [hsl]; push_cast; omega
      obtain ⟨ih1, ih2⟩ := ih (mem_write buf p (mem_read r.hdr r.len.toNat))
        (p + (ropt_slice r).length) hrest
      simp only [send_conf_rej_loop, if_pos hs, spec_rej_body, Int.toNat_ofNat, hp]
      refine ⟨?_, fun i => ?_⟩
      · rw [ih1]; simp [Nat.add_assoc]
      · rw [ih2 i, getD_mem_write]
        simp only [List.length_append]
        have hm : (mem_read r.hdr r.len.toNat).length = (ropt_slice r).length := by
          simp [ropt_slice]
        rw [hm]
        by_cases h1 : p + (ropt_slice r).length ≤ i ∧
            i < p + (ropt_slice r).length + (spec_rej_body rest).length
        · rw [if_pos h1, if_pos (by omega)]
          rw [List.getD_append_right _ _ _ _ (by omega)]
          congr 1
          omega
        · rw [if_neg h1]
          by_cases h2 : p ≤ i ∧ i < p + (ropt_slice r).length
          · rw [if_pos h2, if_pos (by omega), List.getD_append _ _ _ _ (by omega)]
            rfl
          · rw [if_neg h2, if_neg (by omega)]
    · simp only [send_conf_rej_loop, if_neg hs, spec_rej_body]
      exact ih buf p hrest

/-- The frame that `send_conf_rej` transmits is the 6-byte header followed by the slices of
the Received Options in state REJ, and its length field holds 4 plus the size of that body
(modulo 65536). -/
theorem send_conf_rej_frame_eq {α : Type} (env : env_t α) (ccp : ppp_ccp_t α)
    (hlen : ∀ r ∈ ccp.ropt_list, 0 ≤ r.len)
    (hsz : 4 + (spec_rej_body ccp.ropt_list).length < 65536) :
    send_conf_rej_frame env ccp =
      spec_rej_frame ccp.fsm.recv_id (spec_rej_body ccp.ropt_list) := by
  have h6 : sizeof_ccp_hdr_t = ((6 : Nat) : Int) := rfl
  unfold send_conf_rej_frame
  rw [h6]
  obtain ⟨h1, h2⟩ := send_conf_rej_loop_spec ccp.ropt_list
    (mem_write (env.malloc (ccp.ropt_len + ((6 : Nat) : Int))) 0
      (htons PPP_CCP ++ [CONFREJ, (ccp.fsm.recv_id % 256).toNat] ++ htons 0)) 6 hlen
  simp only [h1, Int.toNat_ofNat]
  have hL : (spec_rej_frame ccp.fsm.recv_id (spec_rej_body ccp.ropt_list)).length =
      6 + (spec_rej_body ccp.ropt_list).length := by
    simp [spec_rej_frame]; omega
  apply mem_read_eq hL
  intro i hi
  have hh : htons (((6 + (spec_rej_body ccp.ropt_list).length : Nat) : Int) - 2) =
      [(4 + (spec_rej_body ccp.ropt_list).length) / 256,
        (4 + (spec_rej_body ccp.ropt_list).length) % 256] := by
    unfold htons
    have e : ((((6 + (spec_rej_body ccp.ropt_list).length : Nat) : Int) - 2) % 65536).toNat =
        4 + (spec_rej_body ccp.ropt_list).length := by
      omega
    rw [e]
  rw [hh, getD_mem_write, h2 i, getD_mem_write]
  by_cases hi6 : i < 6
  · have : i = 0 ∨ i = 1 ∨ i = 2 ∨ i = 3 ∨ i = 4 ∨ i = 5 := by omega
    rcases this with h | h | h | h | h | h <;> subst h <;>
      simp [spec_rej_frame, htons, PPP_CCP, CONFREJ]
  · rw [if_neg (by simp; omega), if_pos (by omega)]
    unfold spec_rej_frame
    rw [List.getD_append_right _ _ _ _ (by simp; omega)]
    simp

/-! ## The option walk of `ccp_recv_conf_req` -/

theorem parse_no_size (fuel : Nat) (data : List Nat) (size : Int) (h : ¬ size > 0) :
    ccp_recv_conf_req_parse fuel data size = Except.ok [] := by
  cases fuel <;> simp [ccp_recv_conf_req_parse, h]

/-- With every declared length at least 1, the first loop of `ccp_recv_conf_req` finishes
within `n` iterations; the entries it creates are in state NONE without a Local Option,
have a length of at least 1, and their slices make up the region. -/
theorem parse_ok (n : Nat) :
    ∀ (data : List Nat) (size : Int), declared_lengths_pos n data size = true →
      ∀ fuel, n ≤ fuel →
        ∃ parsed, ccp_recv_conf_req_parse fuel data size = Except.ok parsed ∧
          (∀ r ∈ parsed, r.state = CCP_OPT_NONE ∧ r.lopt = none ∧ 1 ≤ r.len ∧
            r.len ≤ (opt_hdr_len r.hdr : Int)) ∧
          ropt_slices parsed = mem_read data size.toNat := by
  induction n with
  | zero =>
    intro data size h fuel _
    have hs : ¬ size > 0 := by simpa [declared_lengths_pos] using h
    refine ⟨[], parse_no_size fuel data size hs, by simp, ?_⟩
    have : size.toNat = 0 := by omega
    simp [ropt_slices, this, mem_read]
  | succ n ih =>
    intro data size h fuel hfuel
    by_cases hs : size > 0
    · obtain ⟨f, rfl⟩ : ∃ f, fuel = f + 1 := ⟨fuel - 1, by omega⟩
      simp only [declared_lengths_pos, if_pos hs, Bool.and_eq_true, decide_eq_true_eq] at h
      obtain ⟨h1, h2⟩ := h
      obtain ⟨rest, hrest, hprop, hsl⟩ := ih _ _ h2 f (by omega)
      refine ⟨⟨data, if (opt_hdr_len data : Int) > size then size else (opt_hdr_len data : Int),
        CCP_OPT_NONE, none⟩ :: rest,
        by simp only [ccp_recv_conf_req_parse, if_pos hs, hrest], ?_, ?_⟩
      · intro r hr
        rcases List.mem_cons.mp hr with rfl | hr
        · refine ⟨rfl, rfl, ?_, ?_⟩
          · simp only
            split <;> omega
          · simp only
            split <;> omega
        · exact hprop r hr
      · simp only [ropt_slices, ropt_slice, hsl]
        rw [← mem_read_add]
        congr 1
        split <;> omega
    · refine ⟨[], parse_no_size fuel data size hs, by simp, ?_⟩
      have : size.toNat = 0 := by omega
      simp [ropt_slices, this, mem_read]

theorem find_lopt_none_iff {α : Type} (opts : List (ccp_option_t α)) (id : Int) :
    find_lopt opts id = none ↔ ∀ l ∈ opts, l.id ≠ id := by
  induction opts with
  | nil => simp [find_lopt]
  | cons l rest ih =>
    by_cases h : l.id = id
    · simp [find_lopt, h]
    · simp [find_lopt, h, ih]

theorem find_lopt_some {α : Type} (opts : List (ccp_option_t α)) (id : Int) :
    ∀ (i : Nat) (lopt : ccp_option_t α), find_lopt opts id = some (i, lopt) →
      lopt.id = id ∧ opts.get? i = some lopt := by
  induction opts with
  | nil => intro i lopt h; simp [find_lopt] at h
  | cons l rest ih =>
    intro i lopt h
    by_cases hl : l.id = id
    · simp only [find_lopt, if_pos hl, Option.some.injEq, Prod.mk.injEq] at h
      obtain ⟨rfl, rfl⟩ := h
      exact ⟨hl, rfl⟩
    · simp only [find_lopt, if_neg hl, Option.map_eq_some'] at h
      obtain ⟨⟨j, lo⟩, hj, he⟩ := h
      simp only [Prod.mk.injEq] at he
      obtain ⟨rfl, rfl⟩ := he
      obtain ⟨h1, h2⟩ := ih j lo hj
      exact ⟨h1, by simpa using h2⟩

theorem map_id_set {α : Type} (opts : List (ccp_option_t α)) :
    ∀ (i : Nat) (lopt lopt' : ccp_option_t α), opts.get? i = some lopt → lopt'.id = lopt.id →
      (opts.set i lopt').map (fun l => l.id) = opts.map (fun l => l.id) := by
  induction opts with
  | nil => intro i lopt lopt' h; simp at h
  | cons l rest ih =>
    intro i lopt lopt' h hid
    cases i with
    | zero =>
      simp only [List.get?_cons_zero, Option.some.injEq] at h
      subst h
      simp [hid]
    | succ j =>
      simp only [List.get?_cons_succ] at h
      simp [ih j lopt lopt' h hid]

theorem step_spec {α : Type} (ccp : ppp_ccp_t α) (ret ack : Int) (r : recv_opt_t)
    (hs : r.state = CCP_OPT_NONE) (hl : r.lopt = none) :
    (ccp_recv_conf_req_step ccp ret ack r).2.2.2.hdr = r.hdr ∧
    (ccp_recv_conf_req_step ccp ret ack r).2.2.2.len = r.len ∧
    (ccp_recv_conf_req_step ccp ret ack r).1.options.map (fun l => l.id) =
      ccp.options.map (fun l => l.id) ∧
    (ccp_recv_conf_req_step ccp ret ack r).1.fsm = ccp.fsm ∧
    ((∀ l ∈ ccp.options, l.id ≠ (opt_hdr_id r.hdr : Int)) →
      (ccp_recv_conf_req_step ccp ret ack r).2.2.2.state = CCP_OPT_REJ) := by
  unfold ccp_recv_conf_req_step
  cases hf : find_lopt ccp.options (opt_hdr_id r.hdr : Int) with
  | none =>
    simp [hs, hl, CCP_OPT_NONE, CCP_OPT_ACK, CCP_OPT_NAK]
  | some p =>
    obtain ⟨i, lopt⟩ := p
    obtain ⟨hid, hget⟩ := find_lopt_some _ _ _ _ hf
    have hnone : ¬ ∀ l ∈ ccp.options, l.id ≠ (opt_hdr_id r.hdr : Int) := by
      rw [← find_lopt_none_iff, hf]; simp
    rcases hr : lopt.h.recv_conf_req ccp.ppp.kernel lopt.priv r.hdr with ⟨res, priv, k1⟩
    simp only [hr]
    have hmap : ∀ st : Int, (ccp.options.set i { lopt with state := st, priv := priv }).map
        (fun l => l.id) = ccp.options.map (fun l => l.id) :=
      fun st => map_id_set ccp.options i lopt _ hget rfl
    split_ifs <;> simp [hmap, hnone]

theorem walk_spec {α : Type} (ropts : List recv_opt_t) :
    ∀ (ccp : ppp_ccp_t α) (ret ack : Int),
      (∀ r ∈ ropts, r.state = CCP_OPT_NONE ∧ r.lopt = none) →
      (ccp_recv_conf_req_walk ropts ccp ret ack).2.2.2.map (fun r => (r.hdr, r.len)) =
        ropts.map (fun r => (r.hdr, r.len)) ∧
      (ccp_recv_conf_req_walk ropts ccp ret ack).1.options.map (fun l => l.id) =
        ccp.options.map (fun l => l.id) ∧
      (ccp_recv_conf_req_walk ropts ccp ret ack).1.fsm = ccp.fsm ∧
      (∀ r ∈ (ccp_recv_conf_req_walk ropts ccp ret ack).2.2.2,
        (∀ l ∈ ccp.options, l.id ≠ (opt_hdr_id r.hdr : Int)) → r.state = CCP_OPT_REJ) := by
  induction ropts with
  | nil => intro ccp ret ack _; simp [ccp_recv_conf_req_walk]
  | cons r rest ih =>
    intro ccp ret ack h
    obtain ⟨h1, h2, h3, h4, h5⟩ := step_spec ccp ret ack r (h r (List.mem_cons_self _ _)).1
      (h r (List.mem_cons_self _ _)).2
    rcases hstep : ccp_recv_conf_req_step ccp ret ack r with ⟨ccp1, ret1, ack1, r1⟩
    rw [hstep] at h1 h2 h3 h4 h5
    simp only at h1 h2 h3 h4 h5
    obtain ⟨i1, i2, i3, i4⟩ := ih ccp1 ret1 ack1 (fun r' hr' => h r' (List.mem_cons_of_mem _ hr'))
    have hmem : ∀ id : Int, (∀ l ∈ ccp.options, l.id ≠ id) ↔ (∀ l ∈ ccp1.options, l.id ≠ id) := by
      intro id
      have e1 : (∀ l ∈ ccp.options, l.id ≠ id) ↔ id ∉ ccp.options.map (fun l => l.id) := by
        simp only [List.mem_map, not_exists, not_and]
      have e2 : (∀ l ∈ ccp1.options, l.id ≠ id) ↔ id ∉ ccp1.options.map (fun l => l.id) := by
        simp only [List.mem_map, not_exists, not_and]
      rw [e1, e2, h3]
    simp only [ccp_recv_conf_req_walk, hstep]
    refine ⟨by simp [i1, h1, h2], by rw [i2, h3], by rw [i3, h4], ?_⟩
    intro r' hr' hno
    rcases List.mem_cons.mp hr' with rfl | hr'
    · exact h5 (by rw [h1] at hno; exact hno)
    · exact i4 r' hr' ((hmem _).mp hno)

theorem slices_congr (l1 l2 : List recv_opt_t)
    (h : l1.map (fun r => (r.hdr, r.len)) = l2.map (fun r => (r.hdr, r.len))) :
    ropt_slices l1 = ropt_slices l2 := by
  induction l1 generalizing l2 with
  | nil =>
    cases l2 with
    | nil => rfl
    | cons a b => simp at h
  | cons a l1 ih =>
    cases l2 with
    | nil => simp at h
    | cons b l2 =>
      simp only [List.map_cons, List.cons.injEq, Prod.mk.injEq] at h
      simp [ropt_slices, ropt_slice, h.1.1, h.1.2, ih l2 h.2]

theorem hdr_len_congr (P : List Nat → Int → Prop) (l1 l2 : List recv_opt_t)
    (h : l1.map (fun r => (r.hdr, r.len)) = l2.map (fun r => (r.hdr, r.len)))
    (h2 : ∀ r ∈ l2, P r.hdr r.len) : ∀ r ∈ l1, P r.hdr r.len := by
  intro r hr
  have : (r.hdr, r.len) ∈ l2.map (fun r => (r.hdr, r.len)) := by
    rw [← h]; exact List.mem_map_of_mem _ hr
  obtain ⟨r2, hr2, he⟩ := List.mem_map.mp this
  simp only [Prod.mk.injEq] at he
  rw [← he.1, ← he.2]
  exact h2 r2 hr2

theorem rej_body_length_le (l : List recv_opt_t) :
    (spec_rej_body l).length ≤ (ropt_slices l).length := by
  induction l with
  | nil => simp [spec_rej_body, ropt_slices]
  | cons r rest ih =>
    simp only [spec_rej_body, ropt_slices]
    split
    · simp; omega
    · simp; omega

theorem rej_body_all (l : List recv_opt_t) (h : ∀ r ∈ l, r.state = CCP_OPT_REJ) :
    spec_rej_body l = ropt_slices l := by
  induction l with
  | nil => rfl
  | cons r rest ih =>
    simp only [spec_rej_body, ropt_slices, if_pos (h r (List.mem_cons_self _ _))]
    rw [ih (fun r' hr' => h r' (List.mem_cons_of_mem _ hr'))]

/-- C10: for a ConfReq option region in which every declared option length is at least 1
(and whose size fits a 16-bit CCP length field), whatever the Local Option list, the walk of
`ccp_recv_conf_req` completes with any fuel of at least `size`; the Received entries are the
region cut at the option boundaries, each with its clamped length; every entry whose id
matches no Local Option ends in state REJ; the frame built by `send_conf_rej` is the 6-byte
header followed by exactly the slices of the entries in state REJ, in arrival order, with
length field 4 plus the size of that body; and when no option id is recognised the body is
the received option region byte for byte. -/
theorem conf_rej_echoes_rejected_options {α : Type} (env : env_t α) (fuel : Nat)
    (ccp : ppp_ccp_t α) (data : List Nat) (size : Int)
    (hpos : declared_lengths_pos size.toNat data size = true)
    (hfuel : size.toNat ≤ fuel) (hsize : size + 4 < 65536) (hempty : ccp.ropt_list = []) :
    ∃ ret ccp',
      ccp_recv_conf_req fuel ccp data size = Except.ok (ret, ccp') ∧
      ropt_slices ccp'.ropt_list = mem_read data size.toNat ∧
      (∀ r ∈ ccp'.ropt_list, 1 ≤ r.len ∧ r.len ≤ (opt_hdr_len r.hdr : Int)) ∧
      (∀ r ∈ ccp'.ropt_list,
        (∀ l ∈ ccp.options, l.id ≠ (opt_hdr_id r.hdr : Int)) → r.state = CCP_OPT_REJ) ∧
      send_conf_rej_frame env ccp' =
        spec_rej_frame ccp.fsm.recv_id (spec_rej_body ccp'.ropt_list) ∧
      ntohs_at (send_conf_rej_frame env ccp') 4 =
        4 + ((spec_rej_body ccp'.ropt_list).length : Int) ∧
      ((∀ r ∈ ccp'.ropt_list, ∀ l ∈ ccp.options, l.id ≠ (opt_hdr_id r.hdr : Int)) →
        send_conf_rej_frame env ccp' =
          spec_rej_frame ccp.fsm.recv_id (mem_read data size.toNat)) := by
  obtain ⟨parsed, hparse, hprop, hsl⟩ := parse_ok size.toNat data size hpos fuel hfuel
  obtain ⟨w1, w2, w3, w4⟩ := walk_spec parsed
    { ccp with need_req := 0, ropt_len := size, ropt_list := parsed } 1 0
    (fun r hr => ⟨(hprop r hr).1, (hprop r hr).2.1⟩)
  rcases hw : ccp_recv_conf_req_walk parsed
    { ccp with need_req := 0, ropt_len := size, ropt_list := parsed } 1 0 with
    ⟨ccp1, ret, ack, ropts⟩
  rw [hw] at w1 w2 w3 w4
  simp only at w1 w2 w3 w4
  have hrun : ccp_recv_conf_req fuel ccp data size =
      Except.ok (ret, { ccp1 with ropt_list := ropts }) := by
    unfold ccp_recv_conf_req
    simp only [hparse, hempty, List.nil_append, hw]
  have hslices : ropt_slices ropts = mem_read data size.toNat := by
    rw [slices_congr ropts parsed w1, hsl]
  have hlens : ∀ r ∈ ropts, 1 ≤ r.len ∧ r.len ≤ (opt_hdr_len r.hdr : Int) :=
    hdr_len_congr (fun hdr len => 1 ≤ len ∧ len ≤ (opt_hdr_len hdr : Int)) ropts parsed w1
      (fun r hr => (hprop r hr).2.2)
  have hbody : (spec_rej_body ropts).length ≤ size.toNat := by
    have := rej_body_length_le ropts
    rw [hslices, mem_read_length] at this
    exact this
  have hframe : send_conf_rej_frame env { ccp1 with ropt_list := ropts } =
      spec_rej_frame ccp.fsm.recv_id (spec_rej_body ropts) := by
    rw [send_conf_rej_frame_eq env _ (fun r hr => by have := (hlens r hr).1; omega)
      (by simp only; omega)]
    simp only [w3]
  refine ⟨ret, { ccp1 with ropt_list := ropts }, hrun, hslices, hlens, w4, hframe, ?_, ?_⟩
  · rw [hframe]
    simp only [ntohs_at, rd, spec_rej_frame]
    simp
    omega
  · intro hall
    have : ∀ r ∈ ropts, r.state = CCP_OPT_REJ := fun r hr => w4 r hr (hall r hr)
    rw [hframe, rej_body_all ropts this, hslices]

/-- C10, witness: the region `FE 04 AA BB 18 06 01 00 00 40` on an instance whose only
Local Option is MPPE with policy none. -/
theorem conf_rej_echoes_rejected_options_witness :
    declared_lengths_pos (10 : Int).toNat ex_region_unknown_mppe 10 = true ∧
    (10 : Int).toNat ≤ 10 ∧ (10 : Int) + 4 < 65536 ∧
    (ex_ccp mppe_state_init ex_kernel_ok [] 0).ropt_list = [] ∧
    ∃ ret ccp',
      ccp_recv_conf_req 10 (ex_ccp mppe_state_init ex_kernel_ok [] 0)
        ex_region_unknown_mppe 10 = Except.ok (ret, ccp') ∧
      ropt_slices ccp'.ropt_list = mem_read ex_region_unknown_mppe (10 : Int).toNat ∧
      (∀ r ∈ ccp'.ropt_list, 1 ≤ r.len ∧ r.len ≤ (opt_hdr_len r.hdr : Int)) ∧
      (∀ r ∈ ccp'.ropt_list,
        (∀ l ∈ (ex_ccp mppe_state_init ex_kernel_ok [] 0).options,
          l.id ≠ (opt_hdr_id r.hdr : Int)) → r.state = CCP_OPT_REJ) ∧
      send_conf_rej_frame ex_env ccp' =
        spec_rej_frame (ex_ccp mppe_state_init ex_kernel_ok [] 0).fsm.recv_id
          (spec_rej_body ccp'.ropt_list) ∧
      ntohs_at (send_conf_rej_frame ex_env ccp') 4 =
        4 + ((spec_rej_body ccp'.ropt_list).length : Int) ∧
      ((∀ r ∈ ccp'.ropt_list, ∀ l ∈ (ex_ccp mppe_state_init ex_kernel_ok [] 0).options,
          l.id ≠ (opt_hdr_id r.hdr : Int)) →
        send_conf_rej_frame ex_env ccp' =
          spec_rej_frame (ex_ccp mppe_state_init ex_kernel_ok [] 0).fsm.recv_id
            (mem_read ex_region_unknown_mppe (10 : Int).toNat)) :=
  ⟨by decide, by decide, by decide, rfl,
    conf_rej_echoes_rejected_options ex_env 10 (ex_ccp mppe_state_init ex_kernel_ok [] 0)
      ex_region_unknown_mppe 10 (by decide) (by decide) (by decide) rfl⟩

theorem mppe_recv_conf_req_SH (k : kernel_t) (m : mppe_option_t) (tail : List Nat) :
    (mppe_recv_conf_req k m (ex_opt_SH ++ tail)).1 =
      if (m.policy = 1 ∨ m.policy = 2) ∧ k.compress_ok = true then CCP_OPT_ACK
      else CCP_OPT_REJ := by
  have hlen : opt_hdr_len (ex_opt_SH ++ tail) = 6 := by simp [opt_hdr_len, rd, ex_opt_SH]
  have hf : ntohl (opt32_val (ex_opt_SH ++ tail)) = MPPE_S ||| MPPE_H := by
    rw [MPPE_SH_eq]
    simp [ntohl, opt32_val, rd, ex_opt_SH]
  unfold mppe_recv_conf_req
  rw [if_neg (not_not.mpr hlen)]
  simp only [hf, ne_eq, not_true_eq_false, if_false, if_true]
  cases hk : k.compress_ok
  · simp only [accept_fail _ _ hk]
    split_ifs <;> simp_all
  · have h1 := (accept_ok k m hk).1
    have h2 := (accept_ok k { m with mppe := 1 } hk).1
    split_ifs <;> simp_all

/-- The walk of `ccp_recv_conf_req` over `FE 04 AA BB 18 06 01 00 00 40` when MPPE is the
only Local Option: the aggregate is REJ, the unknown entry is REJ and the MPPE entry has the
state that `mppe_recv_conf_req` returned for it. -/
theorem conf_req_unknown_then_mppe_run (fuel : Nat) (m : mppe_option_t) (k : kernel_t)
    (buf tail : List Nat) (id : Int) (hfuel : 2 ≤ fuel) :
    ∃ ccp', ccp_recv_conf_req fuel (ex_ccp m k buf id) (ex_region_unknown_mppe ++ tail) 10 =
        Except.ok (CCP_OPT_REJ, ccp') ∧
      ccp'.fsm.recv_id = 0 ∧
      ccp'.ropt_list =
        [⟨ex_region_unknown_mppe ++ tail, 4, CCP_OPT_REJ, none⟩,
         ⟨ex_opt_SH ++ tail, 6, (mppe_recv_conf_req k m (ex_opt_SH ++ tail)).1, some 0⟩] := by
  obtain ⟨f, rfl⟩ : ∃ f, fuel = f + 2 := ⟨fuel - 2, by omega⟩
  have hr := mppe_recv_conf_req_SH k m tail
  rcases hres : mppe_recv_conf_req k m (ex_opt_SH ++ tail) with ⟨r, m', k'⟩
  rw [hres] at hr
  simp only at hr
  have hparse : ccp_recv_conf_req_parse (f + 2) (ex_region_unknown_mppe ++ tail) 10 =
      Except.ok [⟨ex_region_unknown_mppe ++ tail, 4, CCP_OPT_NONE, none⟩,
        ⟨ex_opt_SH ++ tail, 6, CCP_OPT_NONE, none⟩] := by
    simp [ccp_recv_conf_req_parse, opt_hdr_len, rd, ex_region_unknown_mppe, ex_opt_unknown,
      ex_opt_SH, parse_no_size]
  have hres' : mppe_recv_conf_req k m (18 :: 6 :: 1 :: 0 :: 0 :: 64 :: tail) = (r, m', k') := by
    simpa [ex_opt_SH] using hres
  have hr' : r = 1 ∨ r = -2 := by
    rw [hr]; split_ifs
    · exact Or.inl rfl
    · exact Or.inr rfl
  unfold ccp_recv_conf_req
  simp only [hparse]
  simp only [ex_ccp, List.nil_append, ccp_recv_conf_req_walk, ccp_recv_conf_req_step]
  rcases hr' with rfl | rfl <;>
    simp [find_lopt, opt_hdr_id, rd, ex_region_unknown_mppe, ex_opt_unknown, ex_opt_SH, CI_MPPE,
      mppe_opt_hnd, CCP_OPT_NONE, CCP_OPT_ACK, CCP_OPT_NAK, CCP_OPT_REJ, hres']

theorem mem_read_append (l t : List Nat) : mem_read (l ++ t) l.length = l := by
  apply mem_read_eq rfl
  intro i hi
  rw [List.getD_append _ _ _ _ hi]

theorem unknown_then_mppe_frame (env : env_t mppe_option_t) (ccp' : ppp_ccp_t mppe_option_t)
    (tail : List Nat) (st : Int) (hid : ccp'.fsm.recv_id = 0)
    (hl : ccp'.ropt_list =
      [⟨ex_region_unknown_mppe ++ tail, 4, CCP_OPT_REJ, none⟩,
       ⟨ex_opt_SH ++ tail, 6, st, some 0⟩]) :
    send_conf_rej_frame env ccp' =
      if st = CCP_OPT_REJ then
        [0x80, 0xfd, 4, 0, 0, 14, 0xFE, 4, 0xAA, 0xBB, 18, 6, 1, 0, 0, 0x40]
      else
        [0x80, 0xfd, 4, 0, 0, 8, 0xFE, 4, 0xAA, 0xBB] := by
  have h1 : mem_read (ex_region_unknown_mppe ++ tail) 4 = ex_opt_unknown := by
    have := mem_read_append ex_opt_unknown (ex_opt_SH ++ tail)
    simpa [ex_region_unknown_mppe, ex_opt_unknown] using this
  have h2 : mem_read (ex_opt_SH ++ tail) 6 = ex_opt_SH := mem_read_append ex_opt_SH tail
  have hb : spec_rej_body ccp'.ropt_list =
      if st = CCP_OPT_REJ then ex_opt_unknown ++ ex_opt_SH else ex_opt_unknown := by
    rw [hl]
    simp only [spec_rej_body, ropt_slice, if_true, Int.toNat_ofNat, List.append_nil]
    have e4 : (4 : Int).toNat = 4 := rfl
    have e6 : (6 : Int).toNat = 6 := rfl
    rw [e4, e6, h1, h2]
    split <;> simp
  rw [send_conf_rej_frame_eq env ccp' (by rw [hl]; intro r hr; simp at hr; rcases hr with rfl | rfl <;> simp)
    (by rw [hb]; split <;> simp [ex_opt_unknown, ex_opt_SH]), hb, hid]
  split <;> simp [spec_rej_frame, ex_opt_unknown, ex_opt_SH]

/-- C9, counterexample: policy `required`, a kernel that takes the key, the region
`FE 04 AA BB 18 06 01 00 00 40`. The walk leaves the MPPE entry in state ACK, not REJ, and the
ConfRej body is `FE 04 AA BB` only. -/
theorem conf_req_unknown_then_mppe_counterexample :
    ∃ ccp', ccp_recv_conf_req 2 (ex_ccp ex_mppe_required ex_kernel_ok [] 0)
        ex_region_unknown_mppe 10 = Except.ok (CCP_OPT_REJ, ccp') ∧
      ccp'.ropt_list.map (fun r => r.state) = [CCP_OPT_REJ, CCP_OPT_ACK] ∧
      ccp'.ropt_list.map (fun r => r.state) ≠ [CCP_OPT_REJ, CCP_OPT_REJ] ∧
      (send_conf_rej_frame ex_env ccp').drop 6 = [0xFE, 4, 0xAA, 0xBB] ∧
      (send_conf_rej_frame ex_env ccp').drop 6 ≠
        [0xFE, 4, 0xAA, 0xBB, 18, 6, 1, 0, 0, 0x40] := by
  obtain ⟨ccp', h1, h2, h3⟩ :=
    conf_req_unknown_then_mppe_run 2 ex_mppe_required ex_kernel_ok [] [] 0 (by decide)
  have hst : (mppe_recv_conf_req ex_kernel_ok ex_mppe_required (ex_opt_SH ++ [])).1 =
      CCP_OPT_ACK := by decide
  rw [hst] at h3
  have hf := unknown_then_mppe_frame ex_env ccp' [] CCP_OPT_ACK h2 h3
  rw [if_neg (by decide)] at hf
  refine ⟨ccp', by simpa using h1, ?_, ?_, ?_, ?_⟩
  · rw [h3]; rfl
  · rw [h3]; decide
  · rw [hf]; rfl
  · rw [hf]; decide

/-- C9, as amended: for the region `FE 04 AA BB 18 06 01 00 00 40` (whatever follows it in
the buffer) on an instance whose only Local Option is MPPE, the walk completes with aggregate
REJ and marks the unknown entry REJ; the MPPE entry takes the result of
`mppe_recv_conf_req`, which is ACK when the policy is `allowed` or `required` and the kernel
takes the send key, and REJ otherwise. The ConfRej built by `send_conf_rej` has as body the
entries in state REJ: `FE 04 AA BB` alone in the first case, all ten bytes in the second. -/
theorem conf_req_unknown_then_mppe (env : env_t mppe_option_t) (fuel : Nat)
    (m : mppe_option_t) (k : kernel_t) (buf tail : List Nat) (id : Int) (hfuel : 2 ≤ fuel) :
    ∃ ccp', ccp_recv_conf_req fuel (ex_ccp m k buf id) (ex_region_unknown_mppe ++ tail) 10 =
        Except.ok (CCP_OPT_REJ, ccp') ∧
      (((m.policy = 1 ∨ m.policy = 2) ∧ k.compress_ok = true) →
        ccp'.ropt_list.map (fun r => r.state) = [CCP_OPT_REJ, CCP_OPT_ACK] ∧
        send_conf_rej_frame env ccp' = [0x80, 0xfd, 4, 0, 0, 8, 0xFE, 4, 0xAA, 0xBB]) ∧
      (¬ ((m.policy = 1 ∨ m.policy = 2) ∧ k.compress_ok = true) →
        ccp'.ropt_list.map (fun r => r.state) = [CCP_OPT_REJ, CCP_OPT_REJ] ∧
        send_conf_rej_frame env ccp' =
          [0x80, 0xfd, 4, 0, 0, 14, 0xFE, 4, 0xAA, 0xBB, 18, 6, 1, 0, 0, 0x40]) := by
  obtain ⟨ccp', h1, h2, h3⟩ := conf_req_unknown_then_mppe_run fuel m k buf tail id hfuel
  have hf := unknown_then_mppe_frame env ccp' tail _ h2 h3
  rw [mppe_recv_conf_req_SH k m tail] at h3 hf
  refine ⟨ccp', h1, fun hc => ?_, fun hc => ?_⟩
  · rw [if_pos hc] at h3 hf
    rw [if_neg (by decide)] at hf
    exact ⟨by rw [h3]; rfl, hf⟩
  · rw [if_neg hc] at h3 hf
    rw [if_pos rfl] at hf
    exact ⟨by rw [h3]; rfl, hf⟩

/-- C9, witness: policy none, where both entries end in state REJ and the ConfRej body is the
whole region. -/
theorem conf_req_unknown_then_mppe_witness :
    2 ≤ 2 ∧
    ∃ ccp', ccp_recv_conf_req 2 (ex_ccp mppe_state_init ex_kernel_ok [] 0)
        (ex_region_unknown_mppe ++ []) 10 = Except.ok (CCP_OPT_REJ, ccp') ∧
      ccp'.ropt_list.map (fun r => r.state) = [CCP_OPT_REJ, CCP_OPT_REJ] ∧
      send_conf_rej_frame ex_env ccp' =
        [0x80, 0xfd, 4, 0, 0, 14, 0xFE, 4, 0xAA, 0xBB, 18, 6, 1, 0, 0, 0x40] :=
  ⟨by decide,
    (conf_req_unknown_then_mppe ex_env 2 mppe_state_init ex_kernel_ok [] [] 0 (by decide)).elim
      fun ccp' h => ⟨ccp', h.1, h.2.2 (by decide)⟩⟩

/-! ## Options longer than the region -/

theorem mppe_recv_conf_req_truncated (tail : List Nat) :
    (mppe_recv_conf_req ex_kernel_ok ex_mppe_allowed (ex_opt_truncated ++ tail)).1 = CCP_OPT_ACK ∨
    (mppe_recv_conf_req ex_kernel_ok ex_mppe_allowed (ex_opt_truncated ++ tail)).1 = CCP_OPT_NAK := by
  have hlen : opt_hdr_len (ex_opt_truncated ++ tail) = 6 := by
    simp [opt_hdr_len, rd, ex_opt_truncated]
  have hlt : ntohl (opt32_val (ex_opt_truncated ++ tail)) < 2 ^ 24 := by
    simp only [ntohl, opt32_val, rd, ex_opt_truncated]
    simp
    omega
  have hne : ntohl (opt32_val (ex_opt_truncated ++ tail)) ≠ MPPE_S ||| MPPE_H := by
    rw [MPPE_SH_eq]; omega
  have hsup : ¬ (ntohl (opt32_val (ex_opt_truncated ++ tail)) &&& (MPPE_S ||| MPPE_H)) =
      (MPPE_S ||| MPPE_H) := by
    have := @Nat.and_le_left (ntohl (opt32_val (ex_opt_truncated ++ tail))) (MPPE_S ||| MPPE_H)
    rw [MPPE_SH_eq] at this ⊢
    omega
  unfold mppe_recv_conf_req
  rw [if_neg (not_not.mpr hlen), if_neg (by decide), if_pos (by decide), if_neg hne, if_neg hsup]
  cases (opt32_val (ex_opt_truncated ++ tail)).nonzero
  · left
    exact (accept_ok ex_kernel_ok _ rfl).1
  · right
    rfl

theorem conf_req_truncated_mppe_run (fuel : Nat) (tail : List Nat) :
    ∃ ret ccp',
      ccp_recv_conf_req (fuel + 1) (ex_ccp ex_mppe_allowed ex_kernel_ok [] 0)
        (ex_opt_truncated ++ tail) 4 = Except.ok (ret, ccp') ∧
      ccp'.ropt_list = [⟨ex_opt_truncated ++ tail, 4,
        (mppe_recv_conf_req ex_kernel_ok ex_mppe_allowed (ex_opt_truncated ++ tail)).1,
        some 0⟩] := by
  have hr := mppe_recv_conf_req_truncated tail
  rcases hres : mppe_recv_conf_req ex_kernel_ok ex_mppe_allowed (ex_opt_truncated ++ tail) with
    ⟨r, m', k'⟩
  rw [hres] at hr
  simp only at hr
  have hres' : mppe_recv_conf_req ex_kernel_ok ex_mppe_allowed (18 :: 6 :: 0 :: 0 :: tail) =
      (r, m', k') := by
    simpa [ex_opt_truncated] using hres
  have hparse : ccp_recv_conf_req_parse (fuel + 1) (ex_opt_truncated ++ tail) 4 =
      Except.ok [⟨ex_opt_truncated ++ tail, 4, CCP_OPT_NONE, none⟩] := by
    simp [ccp_recv_conf_req_parse, opt_hdr_len, rd, ex_opt_truncated, parse_no_size]
  unfold ccp_recv_conf_req
  simp only [hparse]
  simp only [ex_ccp, List.nil_append, ccp_recv_conf_req_walk, ccp_recv_conf_req_step]
  rcases hr with rfl | rfl
  · simp [find_lopt, opt_hdr_id, rd, ex_opt_truncated, CI_MPPE, mppe_opt_hnd, CCP_OPT_NONE,
      CCP_OPT_ACK, CCP_OPT_NAK, CCP_OPT_REJ, hres']
    exact ⟨_, _, ⟨rfl, rfl⟩, rfl⟩
  · simp [find_lopt, opt_hdr_id, rd, ex_opt_truncated, CI_MPPE, mppe_opt_hnd, CCP_OPT_NONE,
      CCP_OPT_ACK, CCP_OPT_NAK, CCP_OPT_REJ, hres']
    exact ⟨_, _, ⟨rfl, rfl⟩, rfl⟩

/-- C11, the code at the failing input: policy `allowed`, a kernel that takes the key, and a
region of 4 bytes holding `18 06 00 00`, an MPPE option that declares 6 bytes. Whatever lies
behind the region in the buffer, the walk creates one entry with length clamped to 4 and
leaves it in the state that `mppe_recv_conf_req` returns from the declared length byte and
the four bytes at offsets 2..5: ACK or NAK, not REJ. -/
theorem conf_req_truncated_mppe_not_rejected (fuel : Nat) (tail : List Nat) :
    ∃ ret ccp' st,
      ccp_recv_conf_req (fuel + 1) (ex_ccp ex_mppe_allowed ex_kernel_ok [] 0)
        (ex_opt_truncated ++ tail) 4 = Except.ok (ret, ccp') ∧
      (opt_hdr_len (ex_opt_truncated ++ tail) : Int) > 4 ∧
      ccp'.ropt_list = [⟨ex_opt_truncated ++ tail, 4, st, some 0⟩] ∧
      (st = CCP_OPT_ACK ∨ st = CCP_OPT_NAK) ∧ st ≠ CCP_OPT_REJ := by
  obtain ⟨ret, ccp', h1, h2⟩ := conf_req_truncated_mppe_run fuel tail
  have hr := mppe_recv_conf_req_truncated tail
  refine ⟨ret, ccp', _, h1, by simp [opt_hdr_len, rd, ex_opt_truncated], h2, hr, ?_⟩
  rcases hr with h | h <;> rw [h] <;> decide

/-! ## Termination of the option loops -/

theorem parse_zero_len (fuel : Nat) (data : List Nat) (size : Int) (hs : size > 0)
    (h0 : opt_hdr_len data = 0) :
    ccp_recv_conf_req_parse fuel data size = Except.error abort_t.out_of_fuel := by
  induction fuel with
  | zero => simp [ccp_recv_conf_req_parse, hs]
  | succ f ih =>
    have hng : ¬ ((0 : Int) > size) := by omega
    simp only [ccp_recv_conf_req_parse, if_pos hs, h0, Nat.cast_zero, if_neg hng,
      Int.toNat_zero, List.drop_zero, sub_zero, ih]

theorem option_loop_zero_len {α : Type}
    (body : ppp_ccp_t α → Int → List Nat → Except abort_t (ppp_ccp_t α × Int))
    (fuel : Nat) (ccp : ppp_ccp_t α) (res : Int) (data : List Nat) (size : Int)
    (hs : size > 0) (h0 : opt_hdr_len data = 0)
    (hbody : body ccp res data = Except.ok (ccp, res)) :
    ccp_recv_option_loop body fuel ccp res data size = Except.error abort_t.out_of_fuel := by
  induction fuel with
  | zero => simp [ccp_recv_option_loop, hs]
  | succ f ih =>
    simp only [ccp_recv_option_loop, if_pos hs, hbody, h0, List.drop_zero, Nat.cast_zero,
      sub_zero, ih]

/-- C20, the code at the failing input: a frame `80 FD code 05 00 06 FE 00` whose option
region is the unknown option `FE 00` of declared length 0, received while the last ConfReq
sent has id 5. For each of ConfReq, ConfAck, ConfNak and ConfRej the option loop leaves pointer
and remaining size unchanged, so no amount of fuel lets `ccp_recv` return. -/
theorem ccp_recv_zero_length_option_loops (env : env_t mppe_option_t) (fuel : Nat) :
    ccp_recv env fuel (ex_ccp ex_mppe_required ex_kernel_ok (ex_frame_zero_len CONFREQ) 5) =
      Except.error abort_t.out_of_fuel ∧
    ccp_recv env fuel (ex_ccp ex_mppe_required ex_kernel_ok (ex_frame_zero_len CONFACK) 5) =
      Except.error abort_t.out_of_fuel ∧
    ccp_recv env fuel (ex_ccp ex_mppe_required ex_kernel_ok (ex_frame_zero_len CONFNAK) 5) =
      Except.error abort_t.out_of_fuel ∧
    ccp_recv env fuel (ex_ccp ex_mppe_required ex_kernel_ok (ex_frame_zero_len CONFREJ) 5) =
      Except.error abort_t.out_of_fuel := by
  have hp : ccp_recv_conf_req_parse fuel [0xFE, 0] 2 = Except.error abort_t.out_of_fuel :=
    parse_zero_len fuel _ 2 (by decide) (by decide)
  refine ⟨?_, ?_, ?_, ?_⟩
  · simp [ccp_recv, ex_ccp, ex_frame_zero_len, CONFREQ, PPP_HEADERLEN, PPP_HDRLEN, ntohs_at, rd,
      ccp_recv_confreq, ccp_recv_conf_req, hp]
  · have hl := fun (c : ppp_ccp_t mppe_option_t) (h : find_lopt c.options 0xFE = none) =>
      option_loop_zero_len ccp_recv_conf_ack_body fuel c 0 [0xFE, 0] 2 (by decide) (by decide)
        (by simp [ccp_recv_conf_ack_body, opt_hdr_id, rd, h])
    simp [ccp_recv, ex_ccp, ex_frame_zero_len, CONFREQ, CONFACK, PPP_HEADERLEN, PPP_HDRLEN,
      ntohs_at, rd, ccp_recv_conf_ack]
    rw [hl _ (by simp [find_lopt, CI_MPPE])]
  · have hl := fun (c : ppp_ccp_t mppe_option_t) (h : find_lopt c.options 0xFE = none) =>
      option_loop_zero_len ccp_recv_conf_nak_body fuel c 0 [0xFE, 0] 2 (by decide) (by decide)
        (by simp [ccp_recv_conf_nak_body, opt_hdr_id, rd, h])
    simp [ccp_recv, ex_ccp, ex_frame_zero_len, CONFREQ, CONFACK, CONFNAK, PPP_HEADERLEN,
      PPP_HDRLEN, ntohs_at, rd, ccp_recv_conf_nak]
    rw [hl _ (by simp [find_lopt, CI_MPPE])]
  · have hl := fun (c : ppp_ccp_t mppe_option_t) (h : find_lopt c.options 0xFE = none) =>
      option_loop_zero_len ccp_recv_conf_rej_body fuel c 0 [0xFE, 0] 2 (by decide) (by decide)
        (by simp [ccp_recv_conf_rej_body, opt_hdr_id, rd, h])
    simp [ccp_recv, ex_ccp, ex_frame_zero_len, CONFREQ, CONFACK, CONFNAK, CONFREJ,
      PPP_HEADERLEN, PPP_HDRLEN, ntohs_at, rd, ccp_recv_conf_rej]
    rw [hl _ (by simp [find_lopt, CI_MPPE])]

/-! ## Construction of the option list -/

theorem options_init_fold {α : Type} (option_handlers : List (ccp_option_handler_t α)) :
    ∀ ccp : ppp_ccp_t α,
      (option_handlers.foldl
        (fun ccp h =>
          match h.init with
          | some o =>
            { ccp with
              options := ccp.options ++ [⟨o.id, o.len, o.state, h, o.priv⟩]
              conf_req_len := ccp.conf_req_len + o.len }
          | none => ccp) ccp).options = ccp.options ++ spec_registry_options option_handlers ∧
      (option_handlers.foldl
        (fun ccp h =>
          match h.init with
          | some o =>
            { ccp with
              options := ccp.options ++ [⟨o.id, o.len, o.state, h, o.priv⟩]
              conf_req_len := ccp.conf_req_len + o.len }
          | none => ccp) ccp).conf_req_len =
        ccp.conf_req_len + ((spec_registry_options option_handlers).map fun l => l.len).sum := by
  induction option_handlers with
  | nil => intro ccp; simp [spec_registry_options]
  | cons h rest ih =>
    intro ccp
    cases hi : h.init with
    | none =>
      simp only [List.foldl_cons, hi]
      have := ih ccp
      simpa [spec_registry_options, hi] using this
    | some o =>
      simp only [List.foldl_cons, hi]
      obtain ⟨h1, h2⟩ := ih { ccp with
        options := ccp.options ++ [⟨o.id, o.len, o.state, h, o.priv⟩]
        conf_req_len := ccp.conf_req_len + o.len }
      refine ⟨?_, ?_⟩
      · rw [h1]; simp [spec_registry_options, hi]
      · rw [h2]; simp [spec_registry_options, hi]; ring

/-- C19: after `ccp_options_init` on an instance whose option list is empty (as
`ccp_layer_init` leaves it), for every registry, the option list holds exactly the options
of the handlers whose `init` returned one, in registry order, and `conf_req_len` is the
header size 6 plus the sum of `len` over the options in the list. -/
theorem ccp_options_init_conf_req_len {α : Type}
    (option_handlers : List (ccp_option_handler_t α)) (ccp : ppp_ccp_t α)
    (hempty : ccp.options = []) :
    (ccp_options_init option_handlers ccp).options = spec_registry_options option_handlers ∧
    (ccp_options_init option_handlers ccp).conf_req_len =
      6 + ((ccp_options_init option_handlers ccp).options.map fun l => l.len).sum := by
  obtain ⟨h1, h2⟩ := options_init_fold option_handlers
    { ccp with conf_req_len := sizeof_ccp_hdr_t }
  have ho : (ccp_options_init option_handlers ccp).options =
      spec_registry_options option_handlers := by
    unfold ccp_options_init
    rw [h1]
    simp [hempty]
  refine ⟨ho, ?_⟩
  rw [ho]
  unfold ccp_options_init
  rw [h2]
  rfl

/-- C19, witness: a registry of a handler that declines, the MPPE handler and the MPPE
handler again gives two options and `conf_req_len = 6 + 6 + 6`. -/
theorem ccp_options_init_conf_req_len_witness :
    ex_ccp_blank.options = [] ∧
    (ccp_options_init [ex_hnd_declines, mppe_opt_hnd, mppe_opt_hnd] ex_ccp_blank).conf_req_len =
      18 ∧
    ((ccp_options_init [ex_hnd_declines, mppe_opt_hnd, mppe_opt_hnd] ex_ccp_blank).options.map
      fun l => l.len) = [6, 6] :=
  ⟨rfl,
    (ccp_options_init_conf_req_len [ex_hnd_declines, mppe_opt_hnd, mppe_opt_hnd] ex_ccp_blank
      rfl).2.trans (by decide),
    by
      rw [(ccp_options_init_conf_req_len [ex_hnd_declines, mppe_opt_hnd, mppe_opt_hnd]
        ex_ccp_blank rfl).1]
      decide⟩

/-! ## The aggregate of the walk -/

theorem conf_req_fail_then_unknown_run (fuel : Nat) :
    ∃ ccp', ccp_recv_conf_req (fuel + 2)
        { ex_ccp_fail ex_frame_fail_unknown with
          fsm := { (ex_ccp_fail ex_frame_fail_unknown).fsm with recv_id := 1 } }
        [0x11, 2, 0xFE, 2] 4 = Except.ok (CCP_OPT_REJ, ccp') ∧
      ccp'.trace = [effect_t.call 0x11 cb_t.recv_conf_req] ∧ ccp'.passive = 0 := by
  have hparse : ccp_recv_conf_req_parse (fuel + 2) [0x11, 2, 0xFE, 2] 4 =
      Except.ok [⟨[0x11, 2, 0xFE, 2], 2, CCP_OPT_NONE, none⟩,
        ⟨[0xFE, 2], 2, CCP_OPT_NONE, none⟩] := by
    simp [ccp_recv_conf_req_parse, opt_hdr_len, rd, parse_no_size]
  unfold ccp_recv_conf_req
  simp only [hparse]
  simp [ex_ccp_fail, ex_ccp, ccp_recv_conf_req_walk, ccp_recv_conf_req_step, find_lopt,
    opt_hdr_id, rd, ex_hnd_fail, CCP_OPT_NONE, CCP_OPT_ACK, CCP_OPT_NAK, CCP_OPT_REJ,
    CCP_OPT_FAIL]

/-- C17, the code at the failing input: the Local Option for id `0x11` has a handler whose
`recv_conf_req` returns `CCP_OPT_FAIL`, and the ConfReq `80 FD 01 01 00 08 11 02 FE 02`
carries that option followed by an unknown one. The unknown option sets the aggregate to REJ,
so `ccp_recv` feeds `recv_conf_req_rej` to the FSM and does not terminate the session. -/
theorem ccp_recv_fail_then_unknown_not_terminated (env : env_t mppe_option_t) (fuel : Nat) :
    ∃ c, ccp_recv env (fuel + 2) (ex_ccp_fail ex_frame_fail_unknown) = Except.ok c ∧
      c.trace = [effect_t.call 0x11 cb_t.recv_conf_req,
        effect_t.fsm fsm_event_t.recv_conf_req_rej] ∧
      effect_t.ppp_terminate ∉ c.trace := by
  obtain ⟨ccp', h1, h2, h3⟩ := conf_req_fail_then_unknown_run fuel
  have hrun : ccp_recv env (fuel + 2) (ex_ccp_fail ex_frame_fail_unknown) =
      Except.ok (ccp_free_conf_req (fsm_feed env fsm_event_t.recv_conf_req_rej ccp')) := by
    unfold ccp_recv
    rw [if_neg (by decide), if_neg (by decide)]
    simp only [if_neg (show ¬ ntohs_at (ex_ccp_fail ex_frame_fail_unknown).ppp.unit_buf 4 <
      PPP_HEADERLEN by decide)]
    rw [if_pos (by decide)]
    have hd : List.drop 6 (ex_ccp_fail ex_frame_fail_unknown).ppp.unit_buf = [0x11, 2, 0xFE, 2] :=
      rfl
    have hs : ntohs_at (ex_ccp_fail ex_frame_fail_unknown).ppp.unit_buf 4 - PPP_HDRLEN = 4 := by
      decide
    have hi : ((rd (ex_ccp_fail ex_frame_fail_unknown).ppp.unit_buf 3 : Nat) : Int) = 1 := by
      decide
    rw [hd, hs, hi]
    unfold ccp_recv_confreq
    rw [h1]
    simp [CCP_OPT_REJ, CCP_OPT_ACK, CCP_OPT_NAK, CCP_OPT_FAIL]
  refine ⟨_, hrun, ?_, ?_⟩
  · simp [ccp_free_conf_req, fsm_feed, h2]
  · simp [ccp_free_conf_req, fsm_feed, h2]

/-! ## The ConfNak frame -/

theorem conf_nak_frame_bytes (B : List Nat) (rid : Nat) :
    mem_read
      (mem_write
        (mem_write (mem_write B 0 (htons PPP_CCP ++ [CONFNAK, rid] ++ htons 0)) 6
          [18, 6, 1, 0, 0, 0x40])
        4 (htons (12 - 2))) 12 =
      [0x80, 0xfd, 3, rid, 0, 10, 18, 6, 1, 0, 0, 0x40] := by
  apply mem_read_eq (by rfl : [0x80, 0xfd, 3, rid, 0, 10, 18, 6, 1, 0, 0, 0x40].length = 12)
  intro i hi
  rw [getD_mem_write, getD_mem_write, getD_mem_write]
  have : i = 0 ∨ i = 1 ∨ i = 2 ∨ i = 3 ∨ i = 4 ∨ i = 5 ∨ i = 6 ∨ i = 7 ∨ i = 8 ∨ i = 9 ∨
      i = 10 ∨ i = 11 := by omega
  rcases this with h | h | h | h | h | h | h | h | h | h | h | h <;> subst h <;>
    simp [htons, PPP_CCP, CONFNAK]

theorem mppe_recv_conf_req_superset (k : kernel_t) (m : mppe_option_t) (data : List Nat)
    (hpol : m.policy = 1) (hlen : opt_hdr_len data = 6)
    (hne : ntohl (opt32_val data) ≠ 0x01000040)
    (hsup : ntohl (opt32_val data) &&& 0x01000040 = 0x01000040) :
    mppe_recv_conf_req k m data = (CCP_OPT_NAK, { m with mppe := 1 }, k) := by
  have hp2 : ¬ m.policy = 2 := by omega
  unfold mppe_recv_conf_req
  rw [if_neg (not_not.mpr hlen), if_neg hp2, if_pos hpol, if_neg (MPPE_SH_eq ▸ hne),
    if_pos (MPPE_SH_eq ▸ hsup)]

theorem mppe_send_conf_req_on (k : kernel_t) (m : mppe_option_t) (hk : k.compress_ok = true) :
    mppe_send_conf_req k { m with mppe := 1 } =
      (6, [18, 6, 1, 0, 0, 0x40], { m with mppe := 1 },
        { k with
          ioctls := k.ioctls ++ [ioctl_req_t.PPPIOCSCOMPRESS 0 (mppe_config m.recv_key)]
          rx_comp := some (mppe_config m.recv_key) }) := by
  unfold mppe_send_conf_req
  simp [CI_MPPE, htonl_SH_bytes, setup_mppe_key_rx_ok k m.recv_key hk]

theorem conf_req_superset_run (fuel : Nat) (m : mppe_option_t) (k : kernel_t)
    (buf data : List Nat) (id : Int) (rid : Nat)
    (hpol : m.policy = 1) (hid : opt_hdr_id data = 18) (hlen : opt_hdr_len data = 6)
    (hne : ntohl (opt32_val data) ≠ 0x01000040)
    (hsup : ntohl (opt32_val data) &&& 0x01000040 = 0x01000040) :
    ccp_recv_conf_req (fuel + 1) (ex_ccp_recv_id m k buf id rid) data 6 =
      Except.ok (CCP_OPT_NAK,
        { ex_ccp_recv_id m k buf id rid with
          options := [⟨CI_MPPE, 6, CCP_OPT_NAK, mppe_opt_hnd, { m with mppe := 1 }⟩]
          ropt_list := [⟨data, 6, CCP_OPT_NAK, some 0⟩]
          ropt_len := 6
          trace := [effect_t.call CI_MPPE cb_t.recv_conf_req] }) := by
  have hres := mppe_recv_conf_req_superset k m data hpol hlen hne hsup
  have hparse : ccp_recv_conf_req_parse (fuel + 1) data 6 =
      Except.ok [⟨data, 6, CCP_OPT_NONE, none⟩] := by
    simp [ccp_recv_conf_req_parse, hlen, parse_no_size]
  have hfind : find_lopt [(⟨CI_MPPE, 6, CCP_OPT_NONE, mppe_opt_hnd, m⟩ :
      ccp_option_t mppe_option_t)] (opt_hdr_id data : Int) =
      some (0, ⟨CI_MPPE, 6, CCP_OPT_NONE, mppe_opt_hnd, m⟩) := by
    simp [find_lopt, hid, CI_MPPE]
  unfold ccp_recv_conf_req
  simp only [hparse]
  simp only [ex_ccp_recv_id, ex_ccp, List.nil_append, ccp_recv_conf_req_walk,
    ccp_recv_conf_req_step, hfind]
  simp [mppe_opt_hnd, hres, CCP_OPT_NONE, CCP_OPT_ACK, CCP_OPT_NAK, CCP_OPT_REJ]

/-- C15: with policy `allowed` and MPPE the only Local Option, a ConfReq whose region is one
MPPE option of declared length 6 with a flag word that contains `S|H` and more makes the walk
return NAK with desired set on; and, when the kernel takes the receive key, `send_conf_nak`
transmits one frame: `80 FD`, code 3, the id of the request, length field 10 and the single
option `18 06 01 00 00 40`. -/
theorem conf_nak_carries_minimal_mppe (env : env_t mppe_option_t) (fuel : Nat)
    (m : mppe_option_t) (k : kernel_t) (buf data : List Nat) (id : Int) (rid : Nat)
    (hpol : m.policy = 1) (hk : k.compress_ok = true) (hrid : rid < 256)
    (hid : opt_hdr_id data = 18) (hlen : opt_hdr_len data = 6)
    (hne : ntohl (opt32_val data) ≠ 0x01000040)
    (hsup : ntohl (opt32_val data) &&& 0x01000040 = 0x01000040) :
    ∃ ccp' ccp'',
      ccp_recv_conf_req (fuel + 1) (ex_ccp_recv_id m k buf id rid) data 6 =
        Except.ok (CCP_OPT_NAK, ccp') ∧
      ccp'.options.map (fun l => l.priv.mppe) = [1] ∧
      send_conf_nak env ccp' = Except.ok ccp'' ∧
      ccp''.trace = ccp'.trace ++
        [effect_t.call 18 cb_t.send_conf_nak,
         effect_t.ppp_unit_send [0x80, 0xfd, 3, rid, 0, 10, 18, 6, 1, 0, 0, 0x40]] := by
  have hrun := conf_req_superset_run fuel m k buf data id rid hpol hid hlen hne hsup
  have hsend := mppe_send_conf_req_on k m hk
  have hridm : (((rid : Int) % 256).toNat) = rid := by omega
  have hnak : ∃ ccp'', send_conf_nak env
      { ex_ccp_recv_id m k buf id rid with
        options := [⟨CI_MPPE, 6, CCP_OPT_NAK, mppe_opt_hnd, { m with mppe := 1 }⟩]
        ropt_list := [⟨data, 6, CCP_OPT_NAK, some 0⟩]
        ropt_len := 6
        trace := [effect_t.call CI_MPPE cb_t.recv_conf_req] } = Except.ok ccp'' ∧
      ccp''.trace = [effect_t.call CI_MPPE cb_t.recv_conf_req] ++
        [effect_t.call 18 cb_t.send_conf_nak,
         effect_t.ppp_unit_send [0x80, 0xfd, 3, rid, 0, 10, 18, 6, 1, 0, 0, 0x40]] := by
    unfold send_conf_nak
    simp only [send_conf_nak_loop, if_true, Option.bind, List.get?, Option.map, mppe_opt_hnd,
      ex_ccp_recv_id, ex_ccp, hsend, sizeof_ccp_hdr_t]
    refine ⟨_, rfl, ?_⟩
    simp only [emit, hridm]
    have hb := conf_nak_frame_bytes (env.malloc 12) rid
    simp only [Int.toNat_ofNat] at hb ⊢
    simp [CI_MPPE]
    exact hb
  obtain ⟨ccp'', h1, h2⟩ := hnak
  exact ⟨_, ccp'', hrun, rfl, h1, h2⟩

/-- C15, witness: the option `18 06 01 00 00 E0` of scenario 2 in a request with id 7. -/
theorem conf_nak_carries_minimal_mppe_witness :
    ex_mppe_allowed.policy = 1 ∧ ex_kernel_ok.compress_ok = true ∧ 7 < 256 ∧
    opt_hdr_id ex_opt_SH_extra = 18 ∧ opt_hdr_len ex_opt_SH_extra = 6 ∧
    ntohl (opt32_val ex_opt_SH_extra) ≠ 0x01000040 ∧
    ntohl (opt32_val ex_opt_SH_extra) &&& 0x01000040 = 0x01000040 ∧
    ∃ ccp' ccp'',
      ccp_recv_conf_req (0 + 1) (ex_ccp_recv_id ex_mppe_allowed ex_kernel_ok [] 0 7)
        ex_opt_SH_extra 6 = Except.ok (CCP_OPT_NAK, ccp') ∧
      ccp'.options.map (fun l => l.priv.mppe) = [1] ∧
      send_conf_nak ex_env ccp' = Except.ok ccp'' ∧
      ccp''.trace = ccp'.trace ++
        [effect_t.call 18 cb_t.send_conf_nak,
         effect_t.ppp_unit_send [0x80, 0xfd, 3, 7, 0, 10, 18, 6, 1, 0, 0, 0x40]] :=
  ⟨by decide, by decide, by decide, by decide, by decide, by decide, by decide,
    conf_nak_carries_minimal_mppe ex_env 0 ex_mppe_allowed ex_kernel_ok [] ex_opt_SH_extra 0 7
      (by decide) (by decide) (by decide) (by decide) (by decide) (by decide) (by decide)⟩

/-! ## The ConfReq frame -/

theorem conf_req_body_length (outs : List (Int × List Nat))
    (h : ∀ o ∈ outs, 0 ≤ o.1 ∧ o.1 ≤ (o.2.length : Int)) :
    ((spec_conf_req_body outs).length : Int) = (outs.map fun o => o.1).sum := by
  induction outs with
  | nil => simp [spec_conf_req_body]
  | cons o rest ih =>
    obtain ⟨n, w⟩ := o
    have hn := h (n, w) (List.mem_cons_self _ _)
    simp only [spec_conf_req_body, List.length_append, List.length_take, List.map_cons,
      List.sum_cons, Nat.cast_add]
    rw [ih (fun o ho => h o (List.mem_cons_of_mem _ ho))]
    simp only at hn
    have : ((min n.toNat w.length : Nat) : Int) = n := by omega
    rw [this]

theorem send_conf_req_loop_spec {α : Type} (opts : List (ccp_option_t α)) :
    ∀ (k : kernel_t) (tr : List effect_t) (buf : List Nat) (p : Nat),
      (∀ o ∈ spec_conf_req_outputs opts k, 0 ≤ o.1 ∧ o.1 ≤ (o.2.length : Int)) →
      (send_conf_req_loop opts k tr buf (p : Int)).1 = true ∧
      (send_conf_req_loop opts k tr buf (p : Int)).2.2.2.1 =
        tr ++ opts.map (fun l => effect_t.call l.id cb_t.send_conf_req) ∧
      (send_conf_req_loop opts k tr buf (p : Int)).2.2.2.2.2 =
        ((p + (spec_conf_req_body (spec_conf_req_outputs opts k)).length : Nat) : Int) ∧
      ∀ i, i < p + (spec_conf_req_body (spec_conf_req_outputs opts k)).length →
        (send_conf_req_loop opts k tr buf (p : Int)).2.2.2.2.1.getD i 0 =
          if p ≤ i then (spec_conf_req_body (spec_conf_req_outputs opts k)).getD (i - p) 0
          else buf.getD i 0 := by
  induction opts with
  | nil =>
    intro k tr buf p _
    simp [send_conf_req_loop, spec_conf_req_outputs, spec_conf_req_body]
    intro i hi
    rw [if_neg (by omega)]
  | cons lopt rest ih =>
    intro k tr buf p h
    rcases hs : lopt.h.send_conf_req k lopt.priv with ⟨n, w, priv, k1⟩
    have hout : spec_conf_req_outputs (lopt :: rest) k = (n, w) :: spec_conf_req_outputs rest k1 := by
      simp [spec_conf_req_outputs, hs]
    rw [hout] at h ⊢
    have hn := h (n, w) (List.mem_cons_self _ _)
    simp only at hn
    have hn0 : ¬ n < 0 := by omega
    have hpn : (p : Int) + n = ((p + n.toNat : Nat) : Int) := by omega
    obtain ⟨i1, i2, i3, i4⟩ := ih k1 (tr ++ [effect_t.call lopt.id cb_t.send_conf_req])
      (mem_write buf p w) (p + n.toNat) (fun o ho => h o (List.mem_cons_of_mem _ ho))
    have htake : (w.take n.toNat).length = n.toNat := by
      simp only [List.length_take]; omega
    simp only [send_conf_req_loop, hs, if_neg hn0, Int.toNat_ofNat, hpn, spec_conf_req_body,
      List.length_append, htake]
    refine ⟨i1, ?_, ?_, ?_⟩
    · rw [i2]; simp
    · rw [i3]; simp [Nat.add_assoc]
    · intro i hi
      rw [i4 i (by omega), getD_mem_write]
      by_cases h1 : p + n.toNat ≤ i
      · rw [if_pos h1, if_pos (by omega), List.getD_append_right _ _ _ _ (by omega), htake]
        congr 1
        omega
      · rw [if_neg h1]
        by_cases h2 : p ≤ i
        · rw [if_pos h2, if_pos (by omega), List.getD_append _ _ _ _ (by omega)]
          simp only [List.getD_eq_getElem?_getD, List.getElem?_take]
          rw [if_pos (by omega)]
        · rw [if_neg h2, if_neg (by omega)]

/-- C14: `send_conf_req` clears `need_req`; while `passive` is set it sends nothing and leaves
`fsm.id` alone. With `passive` clear, when every handler returns a count `n` that is not
negative and wrote at least the `n` bytes it reports (and the total fits the 16-bit length
field), it returns 0, increments `fsm.id`, calls each handler once in list order and then
transmits exactly one frame: `80 FD`, code 1, the new id as a byte, the length field
`4 + Σ n` and the handlers' bytes in list order; the frame is `6 + Σ n` bytes long. -/
theorem send_conf_req_frame {α : Type} (env : env_t α) (ccp : ppp_ccp_t α) :
    (ccp.passive ≠ 0 → send_conf_req env ccp = (0, { ccp with need_req := 0 })) ∧
    (ccp.passive = 0 →
      (∀ o ∈ spec_conf_req_outputs ccp.options ccp.ppp.kernel,
        0 ≤ o.1 ∧ o.1 ≤ (o.2.length : Int)) →
      4 + ((spec_conf_req_outputs ccp.options ccp.ppp.kernel).map fun o => o.1).sum < 65536 →
      (send_conf_req env ccp).1 = 0 ∧
      (send_conf_req env ccp).2.fsm.id = ccp.fsm.id + 1 ∧
      (send_conf_req env ccp).2.trace =
        ccp.trace ++ ccp.options.map (fun l => effect_t.call l.id cb_t.send_conf_req) ++
          [effect_t.ppp_unit_send (spec_conf_req_frame (ccp.fsm.id + 1)
            (spec_conf_req_body (spec_conf_req_outputs ccp.options ccp.ppp.kernel)))] ∧
      ((spec_conf_req_frame (ccp.fsm.id + 1)
          (spec_conf_req_body (spec_conf_req_outputs ccp.options ccp.ppp.kernel))).length : Int) =
        6 + ((spec_conf_req_outputs ccp.options ccp.ppp.kernel).map fun o => o.1).sum ∧
      ntohs_at (spec_conf_req_frame (ccp.fsm.id + 1)
          (spec_conf_req_body (spec_conf_req_outputs ccp.options ccp.ppp.kernel))) 4 =
        4 + ((spec_conf_req_outputs ccp.options ccp.ppp.kernel).map fun o => o.1).sum) := by
  refine ⟨fun hp => ?_, fun hp hout hsz => ?_⟩
  · unfold send_conf_req
    simp [hp]
  · have hlen := conf_req_body_length _ hout
    rw [← hlen] at hsz ⊢
    generalize hbody : spec_conf_req_body (spec_conf_req_outputs ccp.options ccp.ppp.kernel) =
      body at hsz hlen ⊢
    have h6 : sizeof_ccp_hdr_t = ((6 : Nat) : Int) := rfl
    obtain ⟨l1, l2, l3, l4⟩ := send_conf_req_loop_spec ccp.options ccp.ppp.kernel ccp.trace
      (mem_write (env.malloc ccp.conf_req_len) 0
        (htons PPP_CCP ++ [CONFREQ, ((ccp.fsm.id + 1) % 256).toNat] ++ htons 0)) 6 hout
    rw [hbody] at l3 l4
    have hp' : ¬ ccp.passive ≠ 0 := not_not.mpr hp
    have hL : (spec_conf_req_frame (ccp.fsm.id + 1) body).length = 6 + body.length := by
      simp [spec_conf_req_frame]; omega
    have hframe : mem_read
        (mem_write
          (send_conf_req_loop ccp.options ccp.ppp.kernel ccp.trace
            (mem_write (env.malloc ccp.conf_req_len) 0
              (htons PPP_CCP ++ [CONFREQ, ((ccp.fsm.id + 1) % 256).toNat] ++ htons 0))
            ((6 : Nat) : Int)).2.2.2.2.1 4 (htons (((6 + body.length : Nat) : Int) - 2)))
        (6 + body.length) = spec_conf_req_frame (ccp.fsm.id + 1) body := by
      apply mem_read_eq hL
      intro i hi
      have hh : htons (((6 + body.length : Nat) : Int) - 2) =
          [(4 + body.length) / 256, (4 + body.length) % 256] := by
        unfold htons
        have e : ((((6 + body.length : Nat) : Int) - 2) % 65536).toNat = 4 + body.length := by
          omega
        rw [e]
      rw [hh, getD_mem_write, l4 i hi, getD_mem_write]
      by_cases hi6 : i < 6
      · have : i = 0 ∨ i = 1 ∨ i = 2 ∨ i = 3 ∨ i = 4 ∨ i = 5 := by omega
        rcases this with h | h | h | h | h | h <;> subst h <;>
          simp [spec_conf_req_frame, htons, PPP_CCP, CONFREQ]
      · rw [if_neg (by simp; omega), if_pos (by omega)]
        unfold spec_conf_req_frame
        rw [List.getD_append_right _ _ _ _ (by simp; omega)]
        simp
    refine ⟨?_, ?_, ?_, ?_, ?_⟩
    · unfold send_conf_req
      simp only [if_neg hp', h6, l1]
      simp
    · unfold send_conf_req
      simp only [if_neg hp', h6, l1]
      simp [emit]
    · unfold send_conf_req
      simp only [if_neg hp', h6, l1, l2, l3]
      simp only [emit, Int.toNat_ofNat, hframe]
      simp
    · rw [hL]; push_cast; ring
    · simp only [ntohs_at, rd, spec_conf_req_frame]
      simp
      omega

/-- C14, witness: MPPE with policy `required` after the ConfReq with id 5: the frame
`80 FD 01 06 00 0A 12 06 01 00 00 40`. -/
theorem send_conf_req_frame_witness :
    (ex_ccp ex_mppe_required ex_kernel_ok [] 5).passive = 0 ∧
    (∀ o ∈ spec_conf_req_outputs (ex_ccp ex_mppe_required ex_kernel_ok [] 5).options
        (ex_ccp ex_mppe_required ex_kernel_ok [] 5).ppp.kernel,
      0 ≤ o.1 ∧ o.1 ≤ (o.2.length : Int)) ∧
    4 + ((spec_conf_req_outputs (ex_ccp ex_mppe_required ex_kernel_ok [] 5).options
      (ex_ccp ex_mppe_required ex_kernel_ok [] 5).ppp.kernel).map fun o => o.1).sum < 65536 ∧
    (send_conf_req ex_env (ex_ccp ex_mppe_required ex_kernel_ok [] 5)).2.trace =
      [effect_t.call 18 cb_t.send_conf_req,
       effect_t.ppp_unit_send [0x80, 0xfd, 1, 6, 0, 10, 18, 6, 1, 0, 0, 0x40]] :=
  ⟨rfl, by decide, by decide,
    ((send_conf_req_frame ex_env (ex_ccp ex_mppe_required ex_kernel_ok [] 5)).2 rfl
      (by decide) (by decide)).2.2.1.trans (by decide)⟩

/-! ## Received ConfRej -/

theorem rej_body_eq {α : Type} (ccp : ppp_ccp_t α) (res : Int) (data : List Nat) :
    ccp_recv_conf_rej_body ccp res data =
      Except.ok ((spec_rej_option ccp data).2,
        if (spec_rej_option ccp data).1 = true then -1 else res) := by
  unfold ccp_recv_conf_rej_body spec_rej_option
  cases hf : find_lopt ccp.options (opt_hdr_id data : Int) with
  | none => simp
  | some p =>
    obtain ⟨i, lopt⟩ := p
    cases hh : lopt.h.recv_conf_rej with
    | none => simp [hh]
    | some f =>
      by_cases hr : (call_recv ccp i lopt cb_t.recv_conf_rej f data).2 ≠ 0
      · simp [hh, hr]
      · simp [hh, hr]

theorem rej_option_trace {α : Type} (ccp : ppp_ccp_t α) (data : List Nat) :
    ∃ calls, (spec_rej_option ccp data).2.trace = ccp.trace ++ calls ∧
      ∀ e ∈ calls, ∃ id, e = effect_t.call id cb_t.recv_conf_rej := by
  unfold spec_rej_option
  cases hf : find_lopt ccp.options (opt_hdr_id data : Int) with
  | none => exact ⟨[], by simp, by simp⟩
  | some p =>
    obtain ⟨i, lopt⟩ := p
    cases hh : lopt.h.recv_conf_rej with
    | none => exact ⟨[], by simp [hh], by simp⟩
    | some f =>
      exact ⟨[effect_t.call lopt.id cb_t.recv_conf_rej], by simp [hh, call_recv], by simp⟩

theorem option_loop_no_size {α : Type}
    (body : ppp_ccp_t α → Int → List Nat → Except abort_t (ppp_ccp_t α × Int))
    (fuel : Nat) (ccp : ppp_ccp_t α) (res : Int) (data : List Nat) (size : Int)
    (h : ¬ size > 0) :
    ccp_recv_option_loop body fuel ccp res data size = Except.ok (res, ccp) := by
  cases fuel <;> simp [ccp_recv_option_loop, h]

theorem rej_fatal_no_size {α : Type} (n : Nat) (ccp : ppp_ccp_t α) (data : List Nat)
    (size : Int) (h : ¬ size > 0) : spec_rej_fatal n ccp data size = false := by
  cases n <;> simp [spec_rej_fatal, h]

/-- With every declared length at least 1 the loop of `ccp_recv_conf_rej` finishes; it only
appends calls of `recv_conf_rej` to the trace, and its result is -1 exactly when it started
from a non-zero result or some option was fatal, and 0 otherwise. -/
theorem rej_loop_ok {α : Type} (n : Nat) :
    ∀ (data : List Nat) (size : Int), declared_lengths_pos n data size = true →
      ∀ (fuel : Nat), n ≤ fuel → ∀ (ccp : ppp_ccp_t α) (res : Int), (res = 0 ∨ res = -1) →
        ∃ res' ccp' calls,
          ccp_recv_option_loop ccp_recv_conf_rej_body fuel ccp res data size =
            Except.ok (res', ccp') ∧
          ccp'.trace = ccp.trace ++ calls ∧
          (∀ e ∈ calls, ∃ id, e = effect_t.call id cb_t.recv_conf_rej) ∧
          (res' = 0 ∨ res' = -1) ∧
          (res' ≠ 0 ↔ (res ≠ 0 ∨ spec_rej_fatal n ccp data size = true)) := by
  induction n with
  | zero =>
    intro data size h fuel _ ccp res hres
    have hs : ¬ size > 0 := by simpa [declared_lengths_pos] using h
    exact ⟨res, ccp, [], option_loop_no_size _ fuel ccp res data size hs, by simp, by simp, hres,
      by simp [spec_rej_fatal]⟩
  | succ n ih =>
    intro data size h fuel hfuel ccp res hres
    by_cases hs : size > 0
    · obtain ⟨f, rfl⟩ : ∃ f, fuel = f + 1 := ⟨fuel - 1, by omega⟩
      simp only [declared_lengths_pos, if_pos hs, Bool.and_eq_true, decide_eq_true_eq] at h
      obtain ⟨h1, h2⟩ := h
      obtain ⟨c1, hc1, hc2⟩ := rej_option_trace ccp data
      have hres1 : ((if (spec_rej_option ccp data).1 = true then (-1 : Int) else res) = 0 ∨
          (if (spec_rej_option ccp data).1 = true then (-1 : Int) else res) = -1) := by
        split
        · exact Or.inr rfl
        · exact hres
      have hstep : ccp_recv_option_loop ccp_recv_conf_rej_body (f + 1) ccp res data size =
          ccp_recv_option_loop ccp_recv_conf_rej_body f (spec_rej_option ccp data).2
            (if (spec_rej_option ccp data).1 = true then -1 else res)
            (data.drop (opt_hdr_len data)) (size - (opt_hdr_len data : Int)) := by
        simp only [ccp_recv_option_loop, if_pos hs, rej_body_eq]
      by_cases hover : (opt_hdr_len data : Int) > size
      · have hend : ¬ size - (opt_hdr_len data : Int) > 0 := by omega
        refine ⟨_, (spec_rej_option ccp data).2, c1, ?_, hc1, hc2, hres1, ?_⟩
        · rw [hstep, option_loop_no_size _ f _ _ _ _ hend]
        · simp only [spec_rej_fatal, if_pos hs, rej_fatal_no_size n _ _ _ hend, Bool.or_false]
          cases hb : (spec_rej_option ccp data).1 <;> simp
      · rw [if_neg hover] at h2
        obtain ⟨res', ccp', c2, r1, r2, r3, r4, r5⟩ := ih _ _ h2 f (by omega)
          (spec_rej_option ccp data).2
          (if (spec_rej_option ccp data).1 = true then -1 else res) hres1
        simp only [Int.toNat_ofNat] at r1 r5
        refine ⟨res', ccp', c1 ++ c2, ?_, ?_, ?_, r4, ?_⟩
        · rw [hstep]; exact r1
        · rw [r2, hc1]; simp
        · intro e he
          rcases List.mem_append.mp he with he | he
          · exact hc2 e he
          · exact r3 e he
        · rw [r5]
          simp only [spec_rej_fatal, if_pos hs, Bool.or_eq_true]
          cases hb : (spec_rej_option ccp data).1 <;> simp
    · refine ⟨res, ccp, [], option_loop_no_size _ fuel ccp res data size hs, by simp, by simp,
        hres, ?_⟩
      simp [rej_fatal_no_size (n + 1) ccp data size hs]

/-- C13: for a received ConfRej whose id is the id of the last ConfReq sent and in whose
option region every declared length is at least 1, `ccp_recv` returns (with any fuel of at
least the region size) after calling `recv_conf_rej` handlers only. If some option of the
region matches a Local Option whose handler has no `recv_conf_rej`, or whose `recv_conf_rej`
returns non-zero, it then terminates the session and feeds no FSM event; otherwise it feeds
`recv_conf_rej` to the FSM and does not terminate. -/
theorem ccp_recv_conf_rej_outcome {α : Type} (env : env_t α) (fuel : Nat) (ccp : ppp_ccp_t α)
    (hst1 : ccp.fsm.fsm_state ≠ fsm_state_t.FSM_Initial)
    (hst2 : ccp.fsm.fsm_state ≠ fsm_state_t.FSM_Closed)
    (hsz : PPP_HEADERLEN + 2 ≤ ccp.ppp.unit_buf_size)
    (hlen : PPP_HEADERLEN ≤ ntohs_at ccp.ppp.unit_buf 4)
    (hcode : rd ccp.ppp.unit_buf 2 = CONFREJ)
    (hid : (rd ccp.ppp.unit_buf 3 : Int) = ccp.fsm.id)
    (hpos : declared_lengths_pos (ntohs_at ccp.ppp.unit_buf 4 - PPP_HDRLEN).toNat
      (ccp.ppp.unit_buf.drop 6) (ntohs_at ccp.ppp.unit_buf 4 - PPP_HDRLEN) = true)
    (hfuel : (ntohs_at ccp.ppp.unit_buf 4 - PPP_HDRLEN).toNat ≤ fuel) :
    ∃ c calls, ccp_recv env fuel ccp = Except.ok c ∧
      (∀ e ∈ calls, ∃ id, e = effect_t.call id cb_t.recv_conf_rej) ∧
      (spec_rej_fatal (ntohs_at ccp.ppp.unit_buf 4 - PPP_HDRLEN).toNat
          { ccp with fsm := { ccp.fsm with recv_id := (rd ccp.ppp.unit_buf 3 : Int) } }
          (ccp.ppp.unit_buf.drop 6) (ntohs_at ccp.ppp.unit_buf 4 - PPP_HDRLEN) = true →
        c.trace = ccp.trace ++ calls ++ [effect_t.ppp_terminate]) ∧
      (spec_rej_fatal (ntohs_at ccp.ppp.unit_buf 4 - PPP_HDRLEN).toNat
          { ccp with fsm := { ccp.fsm with recv_id := (rd ccp.ppp.unit_buf 3 : Int) } }
          (ccp.ppp.unit_buf.drop 6) (ntohs_at ccp.ppp.unit_buf 4 - PPP_HDRLEN) = false →
        c.trace = ccp.trace ++ calls ++ [effect_t.fsm fsm_event_t.recv_conf_rej]) := by
  have h1 : ¬ (ccp.fsm.fsm_state = fsm_state_t.FSM_Initial ∨
      ccp.fsm.fsm_state = fsm_state_t.FSM_Closed) := by
    rintro (h | h)
    · exact hst1 h
    · exact hst2 h
  have h2 : ¬ ccp.ppp.unit_buf_size < PPP_HEADERLEN + 2 := not_lt.mpr hsz
  have h3 : ¬ ntohs_at ccp.ppp.unit_buf 4 < PPP_HEADERLEN := not_lt.mpr hlen
  obtain ⟨res', ccp', calls, r1, r2, r3, r4, r5⟩ := rej_loop_ok _ _ _ hpos fuel hfuel
    { ccp with fsm := { ccp.fsm with recv_id := (rd ccp.ppp.unit_buf 3 : Int) } } 0 (Or.inl rfl)
  have hrej : ccp_recv_conf_rej fuel
      { ccp with fsm := { ccp.fsm with recv_id := (rd ccp.ppp.unit_buf 3 : Int) } }
      (ccp.ppp.unit_buf.drop 6) (ntohs_at ccp.ppp.unit_buf 4 - PPP_HDRLEN) =
      Except.ok (res', ccp') := by
    unfold ccp_recv_conf_rej
    rw [if_neg (by simp [hid])]
    exact r1
  have hrun : ccp_recv env fuel ccp = Except.ok
      (if res' ≠ 0 then emit ccp' effect_t.ppp_terminate
       else fsm_feed env fsm_event_t.recv_conf_rej ccp') := by
    unfold ccp_recv
    rw [if_neg h1, if_neg h2]
    simp only [if_neg h3, hcode]
    rw [if_neg (by decide), if_neg (by decide), if_neg (by decide), if_pos trivial]
    have hrej' := hrej
    simp only at hrej'
    rw [hrej']
    simp only
    split <;> rfl
  simp only [ne_eq, not_true_eq_false, false_or] at r5
  refine ⟨_, calls, hrun, r3, fun hf => ?_, fun hf => ?_⟩
  · rw [if_pos (r5.mpr hf)]
    simp [emit, r2]
  · have : ¬ res' ≠ 0 := by
      intro h
      have := r5.mp h
      rw [hf] at this
      exact Bool.noConfusion this
    rw [if_neg this]
    simp [fsm_feed, r2]

/-- C13, witness: the last ConfReq sent has id 5 and the received ConfRej with id 5 rejects
the MPPE option, whose handler has no `recv_conf_rej`: the run ends in `ppp_terminate`. -/
theorem ccp_recv_conf_rej_outcome_witness :
    spec_rej_fatal 4
        { ex_ccp ex_mppe_required ex_kernel_ok ex_frame_rej_mppe 5 with
          fsm := { (ex_ccp ex_mppe_required ex_kernel_ok ex_frame_rej_mppe 5).fsm with
            recv_id := 5 } }
        [18, 6, 1, 0, 0, 0x40] 4 = true ∧
    ∃ c calls, ccp_recv ex_env 10 (ex_ccp ex_mppe_required ex_kernel_ok ex_frame_rej_mppe 5) =
        Except.ok c ∧
      (∀ e ∈ calls, ∃ id, e = effect_t.call id cb_t.recv_conf_rej) ∧
      c.trace = (ex_ccp ex_mppe_required ex_kernel_ok ex_frame_rej_mppe 5).trace ++ calls ++
        [effect_t.ppp_terminate] := by
  obtain ⟨c, calls, h1, h2, h3, _⟩ := ccp_recv_conf_rej_outcome ex_env 10
    (ex_ccp ex_mppe_required ex_kernel_ok ex_frame_rej_mppe 5)
    (by decide) (by decide) (by decide) (by decide) (by decide) (by decide) (by decide)
    (by decide)
  exact ⟨by decide, c, calls, h1, h2, h3 (by decide)⟩

theorem nak_to_ack_iff {α : Type} (entry before after : List (ccp_option_t α)) :
    nak_to_ack entry before after = true ↔
      ∃ i e b a, entry.get? i = some e ∧ before.get? i = some b ∧ after.get? i = some a ∧
        e.state = CCP_OPT_NAK ∧ b.state = CCP_OPT_NAK ∧ a.state = CCP_OPT_ACK := by
  unfold nak_to_ack
  simp only [List.any_eq_true, List.mem_range, decide_eq_true_eq, Option.map_eq_some']
  constructor
  · rintro ⟨i, _, ⟨e, he, hes⟩, ⟨b, hb, hbs⟩, ⟨a, ha, has⟩⟩
    exact ⟨i, e, b, a, he, hb, ha, hes, hbs, has⟩
  · rintro ⟨i, e, b, a, he, hb, ha, hes, hbs, has⟩
    refine ⟨i, ?_, ⟨e, he, hes⟩, ⟨b, hb, hbs⟩, ⟨a, ha, has⟩⟩
    exact (List.get?_eq_some.mp hb).1

theorem nak_to_ack_same {α : Type} (entry opts : List (ccp_option_t α)) :
    nak_to_ack entry opts opts = false := by
  rw [Bool.eq_false_iff]
  intro h
  obtain ⟨i, e, b, a, _, hb, ha, _, hbs, has⟩ := (nak_to_ack_iff _ _ _).mp h
  rw [hb] at ha
  simp only [Option.some.injEq] at ha
  subst ha
  rw [hbs] at has
  exact absurd has (by decide)

theorem nak_to_ack_set {α : Type} (entry opts : List (ccp_option_t α)) (i : Nat)
    (lopt l' : ccp_option_t α) (hget : opts.get? i = some lopt) :
    nak_to_ack entry opts (opts.set i l') = true ↔
      ((entry.get? i).map (fun l => l.state) = some CCP_OPT_NAK ∧ lopt.state = CCP_OPT_NAK ∧
        l'.state = CCP_OPT_ACK) := by
  have hi : i < opts.length := (List.get?_eq_some.mp hget).1
  rw [nak_to_ack_iff]
  constructor
  · rintro ⟨j, e, b, a, he, hb, ha, hes, hbs, has⟩
    by_cases hj : j = i
    · subst hj
      rw [hget] at hb
      simp only [Option.some.injEq] at hb
      subst hb
      have : (opts.set j l').get? j = some l' := by simp [hi]
      rw [this] at ha
      simp only [Option.some.injEq] at ha
      subst ha
      exact ⟨by rw [he]; simp [hes], hbs, has⟩
    · have : (opts.set i l').get? j = opts.get? j := by
        simp [List.getElem?_set, Ne.symm hj]
      rw [this, hb] at ha
      simp only [Option.some.injEq] at ha
      subst ha
      rw [hbs] at has
      exact absurd has (by decide)
  · rintro ⟨he, hbs, has⟩
    obtain ⟨e, he1, he2⟩ := Option.map_eq_some'.mp he
    exact ⟨i, e, lopt, l', he1, hget, by simp [hi], he2, hbs, has⟩

theorem step_need_req {α : Type} (entry : List (ccp_option_t α)) (ccp : ppp_ccp_t α)
    (ret ack : Int) (r : recv_opt_t) (hinv : walk_inv entry ccp.options ack) :
    (ccp_recv_conf_req_step ccp ret ack r).1.need_req =
      (if nak_to_ack entry ccp.options (ccp_recv_conf_req_step ccp ret ack r).1.options = true
        then 1 else ccp.need_req) ∧
    walk_inv entry (ccp_recv_conf_req_step ccp ret ack r).1.options
      (ccp_recv_conf_req_step ccp ret ack r).2.2.1 := by
  unfold ccp_recv_conf_req_step
  cases hf : find_lopt ccp.options (opt_hdr_id r.hdr : Int) with
  | none =>
    simp only
    by_cases h1 : r.state = CCP_OPT_ACK ∨ r.state = CCP_OPT_NAK
    · simp only [if_pos h1, nak_to_ack_same]
      exact ⟨by simp, fun h => absurd h (by decide)⟩
    · by_cases h2 : r.lopt = none
      · simp only [if_neg h1, if_pos h2, nak_to_ack_same]
        exact ⟨by simp, hinv⟩
      · simp only [if_neg h1, if_neg h2, nak_to_ack_same]
        exact ⟨by simp, hinv⟩
  | some p =>
    obtain ⟨i, lopt⟩ := p
    obtain ⟨hid, hget⟩ := find_lopt_some _ _ _ _ hf
    rcases hr : lopt.h.recv_conf_req ccp.ppp.kernel lopt.priv r.hdr with ⟨res, priv, k1⟩
    simp only [hr]
    have hsn : ¬ (some i = (none : Option Nat)) := by simp
    have hi : i < ccp.options.length := (List.get?_eq_some.mp hget).1
    by_cases hack : ack = 0
    · subst hack
      simp only [ne_eq, not_true_eq_false, if_false, true_and, if_neg hsn]
      have hcond : nak_to_ack entry ccp.options
          (ccp.options.set i { lopt with state := res, priv := priv }) = true ↔
          (lopt.state = CCP_OPT_NAK ∧ res = CCP_OPT_ACK) := by
        rw [nak_to_ack_set entry ccp.options i lopt _ hget]
        constructor
        · exact fun h => h.2
        · intro h
          refine ⟨?_, h⟩
          rcases hinv rfl i lopt hget with h1 | h1
          · rw [h1, h.1]
          · exact absurd h.1 h1.2
      by_cases hres : res = CCP_OPT_ACK ∨ res = CCP_OPT_NAK
      · simp only [if_pos hres, hcond]
        exact ⟨trivial, fun h => absurd h (by decide)⟩
      · simp only [if_neg hres, hcond]
        refine ⟨trivial, fun _ j l hl => ?_⟩
        by_cases hj : j = i
        · subst hj
          have : (ccp.options.set j { lopt with state := res, priv := priv }).get? j =
              some { lopt with state := res, priv := priv } := by simp [hi]
          rw [this] at hl
          simp only [Option.some.injEq] at hl
          subst hl
          exact Or.inr ⟨fun h => hres (Or.inl h), fun h => hres (Or.inr h)⟩
        · have : (ccp.options.set i { lopt with state := res, priv := priv }).get? j =
              ccp.options.get? j := by simp [List.getElem?_set, Ne.symm hj]
          rw [this] at hl
          exact hinv rfl j l hl
    · have hrej : ¬ (CCP_OPT_REJ = CCP_OPT_ACK ∨ CCP_OPT_REJ = CCP_OPT_NAK) := by decide
      simp only [ne_eq, hack, not_false_eq_true, if_true, false_and, if_false, if_neg hrej,
        if_neg hsn]
      have hcond : nak_to_ack entry ccp.options
          (ccp.options.set i { lopt with state := CCP_OPT_REJ, priv := priv }) = false := by
        rw [Bool.eq_false_iff, ne_eq, nak_to_ack_set entry ccp.options i lopt _ hget]
        intro h
        have h2 : CCP_OPT_REJ = CCP_OPT_ACK := h.2.2
        exact absurd h2 (by decide)
      simp only [hcond]
      exact ⟨by simp, fun h => absurd h hack⟩

theorem walk_need_req {α : Type} (entry : List (ccp_option_t α)) (ropts : List recv_opt_t) :
    ∀ (ccp : ppp_ccp_t α) (ret ack : Int), walk_inv entry ccp.options ack →
      (ccp_recv_conf_req_walk ropts ccp ret ack).1.need_req =
        if spec_nak_to_ack ropts entry ccp ret ack = true then 1 else ccp.need_req := by
  induction ropts with
  | nil => intro ccp ret ack _; simp [ccp_recv_conf_req_walk, spec_nak_to_ack]
  | cons r rest ih =>
    intro ccp ret ack hinv
    obtain ⟨h1, h2⟩ := step_need_req entry ccp ret ack r hinv
    have h3 := ih _ (ccp_recv_conf_req_step ccp ret ack r).2.1 _ h2
    rcases hstep : ccp_recv_conf_req_step ccp ret ack r with ⟨ccp1, ret1, ack1, r1⟩
    rw [hstep] at h1 h3
    simp only at h1 h3
    simp only [ccp_recv_conf_req_walk, spec_nak_to_ack, hstep, h3, h1, Bool.or_eq_true]
    by_cases ha : nak_to_ack entry ccp.options ccp1.options = true <;>
      by_cases hb : spec_nak_to_ack rest entry ccp1 ret1 ack1 = true <;> simp [ha, hb]

theorem walk_inv_entry {α : Type} (opts : List (ccp_option_t α)) (ack : Int) :
    walk_inv opts opts ack := by
  intro _ i l hl
  exact Or.inl (by rw [hl]; rfl)

/-- C18: when every declared length of the region is at least 1, `ccp_recv_conf_req` returns
(with any fuel of at least `n`), and the `need_req` it leaves is 1 if during the walk the
recorded state of some Local Option changed from NAK, its state on entry, to ACK, and 0
otherwise, whatever `need_req` was before the call. -/
theorem conf_req_need_req {α : Type} (n fuel : Nat) (ccp : ppp_ccp_t α) (data : List Nat)
    (size : Int) (hpos : declared_lengths_pos n data size = true) (hfuel : n ≤ fuel) :
    ∃ parsed ret c, ccp_recv_conf_req_parse fuel data size = Except.ok parsed ∧
      ccp_recv_conf_req fuel ccp data size = Except.ok (ret, c) ∧
      c.need_req =
        if spec_nak_to_ack (ccp.ropt_list ++ parsed) ccp.options
            { ccp with need_req := 0, ropt_len := size, ropt_list := ccp.ropt_list ++ parsed }
            1 0 = true
        then 1 else 0 := by
  obtain ⟨parsed, hparse, _, _⟩ := parse_ok n data size hpos fuel hfuel
  have hw := walk_need_req ccp.options (ccp.ropt_list ++ parsed)
    { ccp with need_req := 0, ropt_len := size, ropt_list := ccp.ropt_list ++ parsed } 1 0
    (walk_inv_entry _ _)
  rcases hwalk : ccp_recv_conf_req_walk (ccp.ropt_list ++ parsed)
    { ccp with need_req := 0, ropt_len := size, ropt_list := ccp.ropt_list ++ parsed } 1 0
    with ⟨c1, ret, a, ropts⟩
  rw [hwalk] at hw
  refine ⟨parsed, ret, { c1 with ropt_list := ropts }, hparse, ?_, hw⟩
  unfold ccp_recv_conf_req
  simp only [hparse, hwalk]

/-- C18, witness: the MPPE Local Option is in state NAK and `need_req` is 0 when the ConfReq
`18 06 01 00 00 40` arrives; the handler acknowledges it and `need_req` is 1 afterwards. -/
theorem conf_req_need_req_witness :
    declared_lengths_pos 6 ex_opt_SH 6 = true ∧
    ∃ ret c, ccp_recv_conf_req 10 (ex_ccp_nak 0) ex_opt_SH 6 = Except.ok (ret, c) ∧
      c.need_req = 1 := by
  obtain ⟨parsed, ret, c, hp, hc, hn⟩ :=
    conf_req_need_req 6 10 (ex_ccp_nak 0) ex_opt_SH 6 (by decide) (by decide)
  have hp2 : ccp_recv_conf_req_parse 10 ex_opt_SH 6 =
      Except.ok [⟨ex_opt_SH, 6, CCP_OPT_NONE, none⟩] := by rfl
  rw [hp2] at hp
  simp only [Except.ok.injEq] at hp
  subst hp
  refine ⟨by decide, ret, c, hc, ?_⟩
  rw [hn, if_pos (by decide)]

/-- C16: on the ConfReq region `18 06 01 00 00 40 18 06 01 00 00 40` (MPPE required, kernel
accepting every ioctl) `ccp_recv_conf_req` returns ACK although the second Received entry
ends in state REJ: the value returned is above the minimum of the final entry states. -/
theorem conf_req_mppe_twice_returns_ack :
    (ccp_recv_conf_req 10 (ex_ccp ex_mppe_required ex_kernel_ok [] 5)
        ex_region_mppe_twice 12).toOption.map
      (fun p => (p.1, p.2.ropt_list.map (fun r => r.state))) =
      some (CCP_OPT_ACK, [CCP_OPT_ACK, CCP_OPT_REJ]) := by
  decide

theorem accept_kernel (k : kernel_t) (m : mppe_option_t) (hk : ioctls_succeed k = true) :
    (mppe_recv_conf_req_accept k m).1 = CCP_OPT_ACK ∧
    ioctls_succeed (mppe_recv_conf_req_accept k m).2.2 = true ∧
    (mppe_recv_conf_req_accept k m).2.2.mtu = k.mtu - MPPE_PAD := by
  simp only [ioctls_succeed, Bool.and_eq_true] at hk
  obtain ⟨⟨h1, h2⟩, h3⟩ := hk
  unfold mppe_recv_conf_req_accept
  simp [setup_mppe_key_tx_ok k m.send_key h1, decrease_mtu, ioctls_succeed, h1, h2, h3]

theorem mppe_recv_conf_req_cases (k : kernel_t) (m : mppe_option_t) (p : List Nat) :
    (∃ m', mppe_recv_conf_req k m p = mppe_recv_conf_req_accept k m') ∨
    ((mppe_recv_conf_req k m p).1 ≠ CCP_OPT_ACK ∧ (mppe_recv_conf_req k m p).2.2 = k) := by
  unfold mppe_recv_conf_req
  split_ifs <;>
    first
    | exact Or.inl ⟨_, rfl⟩
    | exact Or.inr ⟨by simp [CCP_OPT_REJ, CCP_OPT_NAK, CCP_OPT_ACK], rfl⟩

theorem mppe_recv_conf_req_kernel (k : kernel_t) (m : mppe_option_t) (p : List Nat)
    (hk : ioctls_succeed k = true) :
    ioctls_succeed (mppe_recv_conf_req k m p).2.2 = true ∧
    (mppe_recv_conf_req k m p).2.2.mtu =
      k.mtu - MPPE_PAD * (if (mppe_recv_conf_req k m p).1 = CCP_OPT_ACK then 1 else 0) := by
  rcases mppe_recv_conf_req_cases k m p with ⟨m', h⟩ | ⟨h1, h2⟩
  · rw [h, if_pos (accept_kernel k m' hk).1, (accept_kernel k m' hk).2.2]
    exact ⟨(accept_kernel k m' hk).2.1, by simp⟩
  · rw [if_neg h1, h2]
    exact ⟨hk, by simp⟩

theorem mppe_replay_mtu (ps : List (List Nat)) :
    ∀ (k : kernel_t) (m : mppe_option_t), ioctls_succeed k = true →
      ioctls_succeed (mppe_replay k m ps).2.2 = true ∧
      (mppe_replay k m ps).2.2.mtu = k.mtu - MPPE_PAD * ((mppe_replay k m ps).1 : Int) := by
  induction ps with
  | nil => intro k m hk; exact ⟨hk, by simp [mppe_replay]⟩
  | cons p ps ih =>
    intro k m hk
    obtain ⟨h1, h2⟩ := mppe_recv_conf_req_kernel k m p hk
    obtain ⟨h3, h4⟩ := ih _ (mppe_recv_conf_req k m p).2.1 h1
    simp only [mppe_replay]
    refine ⟨h3, ?_⟩
    rw [h4, h2]
    split_ifs <;> push_cast <;> ring

theorem mppe_replay_append (ps qs : List (List Nat)) :
    ∀ (k : kernel_t) (m : mppe_option_t),
      mppe_replay k m (ps ++ qs) =
        ((mppe_replay k m ps).1 +
            (mppe_replay (mppe_replay k m ps).2.2 (mppe_replay k m ps).2.1 qs).1,
          (mppe_replay (mppe_replay k m ps).2.2 (mppe_replay k m ps).2.1 qs).2) := by
  induction ps with
  | nil => intro k m; simp [mppe_replay]
  | cons p ps ih =>
    intro k m
    have h := ih (mppe_recv_conf_req k m p).2.2 (mppe_recv_conf_req k m p).2.1
    rw [List.cons_append]
    simp only [mppe_replay]
    rw [h]
    simp [Nat.add_assoc]

theorem step_mppe (ccp : ppp_ccp_t mppe_option_t) (ret ack : Int) (r : recv_opt_t)
    (len st : Int) (m : mppe_option_t)
    (hopt : ccp.options = [⟨CI_MPPE, len, st, mppe_opt_hnd, m⟩]) :
    ∃ st', (ccp_recv_conf_req_step ccp ret ack r).1.options =
        [⟨CI_MPPE, len, st', mppe_opt_hnd, (mppe_replay ccp.ppp.kernel m (mppe_ptrs [r])).2.1⟩] ∧
      (ccp_recv_conf_req_step ccp ret ack r).1.ppp.kernel =
        (mppe_replay ccp.ppp.kernel m (mppe_ptrs [r])).2.2 := by
  by_cases hid : (opt_hdr_id r.hdr : Int) = CI_MPPE
  · have hf : find_lopt ccp.options (opt_hdr_id r.hdr : Int) =
        some (0, ⟨CI_MPPE, len, st, mppe_opt_hnd, m⟩) := by
      rw [hopt]; simp [find_lopt, hid]
    have hid' : opt_hdr_id r.hdr = CI_MPPE := by exact_mod_cast hid
    have hp : mppe_ptrs [r] = [r.hdr] := by simp [mppe_ptrs, hid']
    rcases hr : mppe_recv_conf_req ccp.ppp.kernel m r.hdr with ⟨res, m', k'⟩
    unfold ccp_recv_conf_req_step
    rw [hf]
    simp only [hp, mppe_replay, mppe_opt_hnd, hr, hopt, List.set_cons_zero]
    split_ifs <;> exact ⟨_, rfl, rfl⟩
  · have hf : find_lopt ccp.options (opt_hdr_id r.hdr : Int) = none := by
      rw [hopt]; simp [find_lopt, Ne.symm hid]
    have hid' : ¬ opt_hdr_id r.hdr = CI_MPPE := fun h => hid (by exact_mod_cast h)
    have hp : mppe_ptrs [r] = [] := by simp [mppe_ptrs, hid']
    unfold ccp_recv_conf_req_step
    rw [hf]
    simp only [hp, mppe_replay]
    split_ifs <;> exact ⟨st, hopt, rfl⟩

theorem walk_mppe (ropts : List recv_opt_t) :
    ∀ (ccp : ppp_ccp_t mppe_option_t) (ret ack len st : Int) (m : mppe_option_t),
      ccp.options = [⟨CI_MPPE, len, st, mppe_opt_hnd, m⟩] →
      ∃ st', (ccp_recv_conf_req_walk ropts ccp ret ack).1.options =
          [⟨CI_MPPE, len, st', mppe_opt_hnd,
            (mppe_replay ccp.ppp.kernel m (mppe_ptrs ropts)).2.1⟩] ∧
        (ccp_recv_conf_req_walk ropts ccp ret ack).1.ppp.kernel =
          (mppe_replay ccp.ppp.kernel m (mppe_ptrs ropts)).2.2 := by
  induction ropts with
  | nil =>
    intro ccp ret ack len st m hopt
    exact ⟨st, by simp [ccp_recv_conf_req_walk, mppe_ptrs, mppe_replay, hopt]⟩
  | cons r rest ih =>
    intro ccp ret ack len st m hopt
    obtain ⟨st1, h1, h2⟩ := step_mppe ccp ret ack r len st m hopt
    rcases hstep : ccp_recv_conf_req_step ccp ret ack r with ⟨ccp1, ret1, ack1, r1⟩
    rw [hstep] at h1 h2
    simp only at h1 h2
    obtain ⟨st2, h3, h4⟩ := ih ccp1 ret1 ack1 len st1 _ h1
    have hsplit : mppe_ptrs (r :: rest) = mppe_ptrs [r] ++ mppe_ptrs rest := by
      simp only [mppe_ptrs, List.filter_cons, List.filter_nil]
      split_ifs <;> simp
    refine ⟨st2, ?_, ?_⟩
    · simp only [ccp_recv_conf_req_walk, hstep, h3, hsplit, mppe_replay_append, h2]
    · simp only [ccp_recv_conf_req_walk, hstep, h4, hsplit, mppe_replay_append, h2]

theorem session_mppe (fuel : Nat) (reqs : List (List Nat × Int)) :
    ∀ (ccp : ppp_ccp_t mppe_option_t) (len st : Int) (m : mppe_option_t),
      ccp.options = [⟨CI_MPPE, len, st, mppe_opt_hnd, m⟩] → ccp.ropt_list = [] →
      (∀ q ∈ reqs, declared_lengths_pos fuel q.1 q.2 = true) →
      ∃ c st', conf_req_session fuel ccp reqs = Except.ok c ∧
        c.options = [⟨CI_MPPE, len, st', mppe_opt_hnd,
          (mppe_replay ccp.ppp.kernel m (session_ptrs fuel reqs)).2.1⟩] ∧
        c.ppp.kernel = (mppe_replay ccp.ppp.kernel m (session_ptrs fuel reqs)).2.2 := by
  induction reqs with
  | nil =>
    intro ccp len st m hopt _ _
    exact ⟨ccp, st, rfl, by simp [session_ptrs, mppe_replay, hopt], rfl⟩
  | cons q rest ih =>
    intro ccp len st m hopt hro hpos
    obtain ⟨parsed, hparse, _, _⟩ :=
      parse_ok fuel q.1 q.2 (hpos q (List.mem_cons_self _ _)) fuel (Nat.le_refl _)
    obtain ⟨st1, h1, h2⟩ := walk_mppe parsed
      { ccp with need_req := 0, ropt_len := q.2, ropt_list := ccp.ropt_list ++ parsed } 1 0
      len st m hopt
    rcases hwalk : ccp_recv_conf_req_walk parsed
      { ccp with need_req := 0, ropt_len := q.2, ropt_list := ccp.ropt_list ++ parsed } 1 0
      with ⟨c1, ret, a, ropts⟩
    rw [hwalk] at h1 h2
    simp only at h1 h2
    have hrun : ccp_recv_conf_req fuel ccp q.1 q.2 =
        Except.ok (ret, { c1 with ropt_list := ropts }) := by
      unfold ccp_recv_conf_req
      simp only [hparse, hro, List.nil_append]
      rw [hro, List.nil_append] at hwalk
      simp only [hwalk]
    obtain ⟨c, st2, h3, h4, h5⟩ := ih (ccp_free_conf_req { c1 with ropt_list := ropts }) len st1 _
      h1 rfl (fun q' hq' => hpos q' (List.mem_cons_of_mem _ hq'))
    refine ⟨c, st2, ?_, ?_, ?_⟩
    · simp only [conf_req_session, hrun, h3]
    · simp only [h4, session_ptrs, hparse, mppe_replay_append, ccp_free_conf_req, h2]
    · simp only [h5, session_ptrs, hparse, mppe_replay_append, ccp_free_conf_req, h2]

/-- C12, counterexample: a single ConfReq that carries the MPPE option twice, on a kernel in
which every request succeeds, leaves the MTU at 1492: neither the initial MTU 1500 nor
1500 minus the padding allowance. -/
theorem conf_req_mtu_once_counterexample :
    ioctls_succeed ex_kernel_ok = true ∧
    (ccp_recv_conf_req 10 (ex_ccp ex_mppe_required ex_kernel_ok [] 5)
        ex_region_mppe_twice 12).toOption.map
      (fun p => decide (p.2.ppp.kernel.mtu = ex_kernel_ok.mtu ∨
        p.2.ppp.kernel.mtu = ex_kernel_ok.mtu - MPPE_PAD)) = some false := by
  decide

/-- C12, amended: in a session whose only Local Option is MPPE, for every sequence of ConfReq
option regions with declared lengths of at least 1 and a kernel in which every request
succeeds, the sequence of ConfReq processings completes and leaves the MTU at the initial
MTU minus the padding allowance times the number of calls of `mppe_recv_conf_req` that
returned ACK (one call per MPPE option received, in order of arrival). -/
theorem conf_req_session_mtu (fuel : Nat) (reqs : List (List Nat × Int))
    (ccp : ppp_ccp_t mppe_option_t) (len st : Int) (m : mppe_option_t)
    (hopt : ccp.options = [⟨CI_MPPE, len, st, mppe_opt_hnd, m⟩]) (hro : ccp.ropt_list = [])
    (hk : ioctls_succeed ccp.ppp.kernel = true)
    (hpos : ∀ q ∈ reqs, declared_lengths_pos fuel q.1 q.2 = true) :
    ∃ c, conf_req_session fuel ccp reqs = Except.ok c ∧
      c.ppp.kernel.mtu = ccp.ppp.kernel.mtu -
        MPPE_PAD * ((mppe_replay ccp.ppp.kernel m (session_ptrs fuel reqs)).1 : Int) := by
  obtain ⟨c, _, h1, _, h3⟩ := session_mppe fuel reqs ccp len st m hopt hro hpos
  exact ⟨c, h1, by rw [h3]; exact (mppe_replay_mtu _ _ _ hk).2⟩

/-- C12, witness: two ConfReqs, the first with the MPPE option once and the second with the
MPPE option twice, lower the MTU from 1500 to 1488. -/
theorem conf_req_session_mtu_witness :
    ∃ c, conf_req_session 12 (ex_ccp ex_mppe_required ex_kernel_ok [] 5)
        [(ex_opt_SH, 6), (ex_region_mppe_twice, 12)] = Except.ok c ∧
      c.ppp.kernel.mtu = 1488 := by
  obtain ⟨c, h1, h2⟩ := conf_req_session_mtu 12 [(ex_opt_SH, 6), (ex_region_mppe_twice, 12)]
    (ex_ccp ex_mppe_required ex_kernel_ok [] 5) 6 CCP_OPT_NONE ex_mppe_required rfl rfl
    (by decide) (by decide)
  refine ⟨c, h1, ?_⟩
  rw [h2]
  decide

/-- The loop of `ccp_recv_conf_nak` at an option that matches a Local Option whose handler
has no `recv_conf_nak`: the call goes through the null pointer. -/
theorem conf_nak_loop_null_call {α : Type} (fuel : Nat) (ccp : ppp_ccp_t α) (res : Int)
    (data : List Nat) (size : Int) (i : Nat) (lopt : ccp_option_t α) (hs : size > 0)
    (hf : find_lopt ccp.options (opt_hdr_id data : Int) = some (i, lopt))
    (hn : lopt.h.recv_conf_nak = none) :
    ccp_recv_option_loop ccp_recv_conf_nak_body (fuel + 1) ccp res data size =
      Except.error abort_t.null_call := by
  have hb : ccp_recv_conf_nak_body ccp res data = Except.error abort_t.null_call := by
    unfold ccp_recv_conf_nak_body
    rw [hf]
    simp only [hn]
  simp only [ccp_recv_option_loop, if_pos hs, hb]

/-- C21, the code at the failing input: the ConfNak `80 FD 03 05 00 0A 12 06 01 00 00 40`
arrives while the last ConfReq sent has id 5 and MPPE is the Local Option. The table
`mppe_opt_hnd` has no `recv_conf_nak`, and `ccp_recv_conf_nak` calls it all the same: for
every MPPE state, kernel, FSM driver and fuel the run ends in the call through the null
pointer. -/
theorem ccp_recv_conf_nak_mppe_null_call (env : env_t mppe_option_t) (fuel : Nat)
    (m : mppe_option_t) (k : kernel_t) :
    mppe_opt_hnd.recv_conf_nak = none ∧
    ccp_recv env (fuel + 1) (ex_ccp m k ex_frame_nak_mppe 5) =
      Except.error abort_t.null_call := by
  refine ⟨rfl, ?_⟩
  have hl := fun (c : ppp_ccp_t mppe_option_t)
      (h : find_lopt c.options 18 = some (0, ⟨CI_MPPE, 6, CCP_OPT_NONE, mppe_opt_hnd, m⟩)) =>
    conf_nak_loop_null_call fuel c 0 [18, 6, 1, 0, 0, 0x40] 6 0 _ (by decide)
      (by simpa [opt_hdr_id, rd] using h) rfl
  simp [ccp_recv, ex_ccp, ex_frame_nak_mppe, CONFREQ, CONFACK, CONFNAK, PPP_HEADERLEN,
    PPP_HDRLEN, ntohs_at, rd, ccp_recv_conf_nak]
  rw [hl _ (by simp [find_lopt, CI_MPPE])]

/-- C22, the code at the failing input: 6 bytes are received, `80 FD 01 07 00 0A`, a ConfReq
that declares length 10, so no byte follows the header. `ccp_recv` does not drop the frame
and hands `ccp_recv_conf_req` a region of size 6: the MPPE option found in the bytes behind
the frame is given to its handler, and `send_conf_ack` on this buffer sends 12 bytes. -/
theorem ccp_recv_region_beyond_received :
    ex_ccp_short.ppp.unit_buf_size - 6 = 0 ∧
    (ccp_recv ex_env 10 ex_ccp_short).toOption.map (fun c => (c.ropt_len, c.trace)) =
      some (6, [effect_t.call 18 cb_t.recv_conf_req,
        effect_t.fsm fsm_event_t.recv_conf_req_ack]) ∧
    (send_conf_ack ex_ccp_short).trace =
      [effect_t.ppp_unit_send [0x80, 0xfd, 2, 7, 0, 10, 18, 6, 1, 0, 0, 0x40]] := by
  refine ⟨by decide, by decide, by decide⟩

end AccelPPP
